import Mathlib

/-!
bmcweb: persistent data store and log-service task callbacks.

A shallow embedding of

* `include/persistent_data.hpp` (`persistent_data::ConfigFile`): `readData`, `writeData`,
  `writeCurrentSessionData` and the destructor;
* `redfish-core/lib/log_services.hpp`: `getDumpCompletionStatus`, `createDumpTaskCallback`
  with the match callback it registers, and the match callback of
  `requestRoutesCrashdumpCollect`.

Mutable singletons (`SessionStore`, `EventServiceStore`), the `ConfigFile` object and the two
files it touches are gathered in one explicit state, `World`, that every operation passes on.
A file is represented by the value `nlohmann::json::parse` returns for its text, so a snapshot
is compared at the level of parsed JSON values.  Opening a file for writing is taken to
succeed.
-/

set_option autoImplicit false

namespace nlohmann

/-- A `nlohmann::json` value.  The three number kinds are kept apart because
`get_ptr` tells them apart. -/
inductive Json where
  | null
  | bool (b : Bool)
  | uint (n : Nat)
  | int (i : Int)
  | float (lit : String)
  | str (s : String)
  | arr (xs : List Json)
  | obj (kvs : List (String × Json))

namespace Json

/-- The `get_ptr<const uint64_t*>()` accessor: non-null only for `number_unsigned`. -/
def getUint : Json → Option Nat
  | uint n => some n
  | _ => none

/-- The `get_ptr<const std::string*>()` accessor. -/
def getString : Json → Option String
  | str s => some s
  | _ => none

/-- The `get_ptr<int64_t*>()` accessor: `is_number_integer()` holds for both integer kinds, and
an unsigned value is read through the signed member of the same union. -/
def getInt64 : Json → Option Int
  | int i => some i
  | uint n => some (if n < 2 ^ 63 then (n : Int) else (n : Int) - 2 ^ 64)
  | _ => none

/-- The pairs `data.items()` iterates over: the members of an object (in key order, as the
object is a `std::map`), the elements of an array under their decimal index, nothing for
`null`, and a scalar itself under the empty key. -/
def items : Json → List (String × Json)
  | obj kvs => kvs
  | arr xs => xs.enum.map (fun p => (toString p.1, p.2))
  | null => []
  | v => [("", v)]

/-- The values a range-based `for` over a JSON value visits. -/
def elems : Json → List Json
  | arr xs => xs
  | obj kvs => kvs.map Prod.snd
  | null => []
  | v => [v]

/-- What a signed 64-bit count reads back as once it has gone through the file: the parser
makes a number without a minus sign `number_unsigned`. -/
def ofInt64 (i : Int) : Json :=
  if 0 ≤ i then uint i.toNat else int i

/-- The `operator[]` assignment on a `json::object_t`: replace the value of an existing key,
else insert at the key's place in the order. -/
def objSet (k : String) (v : Json) : List (String × Json) → List (String × Json)
  | [] => [(k, v)]
  | (k', v') :: rest =>
    if k = k' then (k, v) :: rest
    else if k < k' then (k, v) :: (k', v') :: rest
    else (k', v') :: objSet k v rest

end Json

end nlohmann

namespace boost

/-- The sixteen octets of a `boost::uuids::uuid`. -/
abbrev Uuid := Fin 16 → Fin 256

/-- One hexadecimal digit, lower case, as `boost::uuids::detail::to_char` gives it. -/
def toHexChar (n : Nat) : Char :=
  if n ≤ 9 then Char.ofNat (48 + n) else Char.ofNat (87 + n)

/-- The `boost::uuids::to_string` rendering: two digits per octet, a dash after octets
3, 5, 7 and 9. -/
def uuidToString (u : Uuid) : String :=
  String.mk ((List.finRange 16).flatMap fun i =>
    [toHexChar ((u i).val / 16), toHexChar ((u i).val % 16)] ++
      (if i.val = 3 ∨ i.val = 5 ∨ i.val = 7 ∨ i.val = 9 then ['-'] else []))

end boost

namespace persistent_data

open nlohmann

/-- The persistence class of a session. -/
inductive PersistenceType where
  | TIMEOUT
  | SINGLE_REQUEST
  deriving DecidableEq, Repr

/-- The members of `UserSession` that `persistent_data.hpp` reads. -/
structure UserSession where
  uniqueId : String
  sessionToken : String
  username : String
  csrfToken : String
  clientId : Option String
  clientIp : String
  persistence : PersistenceType
  deriving DecidableEq, Repr

/-- The five toggles of `AuthMethodsConfig`. -/
structure AuthMethodsConfig where
  xtoken : Bool
  cookie : Bool
  sessionToken : Bool
  basic : Bool
  tls : Bool
  deriving DecidableEq, Repr

/-- The state of the `SessionStore` singleton that `ConfigFile` touches.  `authTokens` is kept
in iteration order; its keys are pairwise distinct. -/
structure SessionStore where
  authTokens : List (String × UserSession)
  timeoutInSeconds : Int
  authMethodsConfig : AuthMethodsConfig
  needWrite : Bool
  deriving DecidableEq, Repr

/-- The members of `EventServiceConfig` written to the snapshot. -/
structure EventServiceConfig where
  enabled : Bool
  retryAttempts : Nat
  retryTimeoutInterval : Nat
  deriving DecidableEq, Repr

/-- The members of `UserSubscription` written to the snapshot. -/
structure UserSubscription where
  id : String
  destinationUrl : String
  protocol : String
  retryPolicy : String
  customText : String
  eventFormatType : String
  subscriptionType : String
  registryMsgIds : List String
  registryPrefixes : List String
  resourceTypes : List String
  httpHeaders : List (String × String)
  metricReportDefinitions : List String
  deriving DecidableEq, Repr

/-- The state of the `EventServiceStore` singleton that `ConfigFile` touches. -/
structure EventServiceStore where
  config : EventServiceConfig
  subscriptionsConfigMap : List (String × UserSubscription)
  deriving DecidableEq, Repr

/-- A file on disk: its permission bits and what parsing its text gives, `none` when the text
is not valid JSON (`is_discarded`). -/
structure FileState where
  perms : Nat
  content : Option Json

/-- Everything `ConfigFile` reads or changes: the two singletons, its own `systemUuid`, and the
files named `filename` and `dumpFilename` (`none` when the file does not exist). -/
structure World where
  sessionStore : SessionStore
  eventServiceStore : EventServiceStore
  systemUuid : String
  file : Option FileState
  dumpFile : Option FileState

/-- Code this header calls but does not contain: the two record parsers, the two configuration
parsers (which update the configuration in place) and the octets the random UUID generator
returns. -/
structure Externals where
  sessionFromJson : Json → Option UserSession
  subscriptionFromJson : Json → Option UserSubscription
  authConfigFromJson : AuthMethodsConfig → Json → AuthMethodsConfig
  eventServiceConfigFromJson : EventServiceConfig → Json → EventServiceConfig
  randomUuid : boost.Uuid

/-- The `uint64_t jsonRevision = 1` member. -/
def jsonRevision : Nat := 1

/-- The `emplace` of a map with unique keys: nothing happens when the key is present. -/
def emplace {α : Type} (k : String) (v : α) (m : List (String × α)) :
    List (String × α) :=
  if k ∈ m.map Prod.fst then m else m ++ [(k, v)]

/-- Modelled from the spec: `SessionStore::updateSessionTimeout` (sessions.hpp is not among the
sources).  It "changes the global timeout", and "every mutating operation sets the dirty
flag". -/
def SessionStore.updateSessionTimeout (s : SessionStore) (newTimeout : Int) : SessionStore :=
  { s with timeoutInSeconds := newTimeout, needWrite := true }

/-- The loop over the `sessions` value in `readData`. -/
def loadSessions (ext : Externals) (elems : List Json) (m : List (String × UserSession)) :
    List (String × UserSession) :=
  elems.foldl (fun acc elem =>
    match ext.sessionFromJson elem with
    | none => acc
    | some newSession => emplace newSession.sessionToken newSession acc) m

/-- The loop over the `subscriptions` value in `readData`. -/
def loadSubscriptions (ext : Externals) (elems : List Json)
    (m : List (String × UserSubscription)) : List (String × UserSubscription) :=
  elems.foldl (fun acc elem =>
    match ext.subscriptionFromJson elem with
    | none => acc
    | some newSubscription => emplace newSubscription.id newSubscription acc) m

/-- The variables the item loop of `readData` updates. -/
structure ReadState where
  world : World
  fileRevision : Nat

/-- One turn of `for (const auto& item : data.items())` in `readData`. -/
def readItem (ext : Externals) (st : ReadState) (item : String × Json) : ReadState :=
  let w := st.world
  let ss := w.sessionStore
  let es := w.eventServiceStore
  if item.1 = "revision" then
    match item.2.getUint with
    | none => { st with fileRevision := 0 }
    | some r => { st with fileRevision := r }
  else if item.1 = "system_uuid" then
    match item.2.getString with
    | some jSystemUuid => { st with world := { w with systemUuid := jSystemUuid } }
    | none => st
  else if item.1 = "auth_config" then
    let c := ext.authConfigFromJson ss.authMethodsConfig item.2
    { st with world := { w with sessionStore := { ss with authMethodsConfig := c } } }
  else if item.1 = "sessions" then
    let m := loadSessions ext item.2.elems ss.authTokens
    { st with world := { w with sessionStore := { ss with authTokens := m } } }
  else if item.1 = "timeout" then
    match item.2.getInt64 with
    | none => st
    | some jTimeout =>
      { st with world := { w with sessionStore := ss.updateSessionTimeout jTimeout } }
  else if item.1 = "eventservice_config" then
    let c := ext.eventServiceConfigFromJson es.config item.2
    { st with world := { w with eventServiceStore := { es with config := c } } }
  else if item.1 = "subscriptions" then
    let m := loadSubscriptions ext item.2.elems es.subscriptionsConfigMap
    { st with world := { w with eventServiceStore := { es with subscriptionsConfigMap := m } } }
  else
    st

/-- The whole item loop of `readData`. -/
def readItems (ext : Externals) (st : ReadState) (items : List (String × Json)) : ReadState :=
  items.foldl (readItem ext) st

/-- The object `writeData` pushes for one session.  Members stand in key order, which is how a
`json::object_t` holds them. -/
def sessionJson (s : UserSession) : Json :=
  Json.obj ((match s.clientId with
      | some c => [("client_id", Json.str c)]
      | none => []) ++
    [("client_ip", Json.str s.clientIp),
     ("csrf_token", Json.str s.csrfToken),
     ("session_token", Json.str s.sessionToken),
     ("unique_id", Json.str s.uniqueId),
     ("username", Json.str s.username)])

/-- The loop of `writeData` that fills the `sessions` array. -/
def writeSessions (authTokens : List (String × UserSession)) : List Json :=
  authTokens.foldl (fun sessions p =>
    if p.2.persistence ≠ PersistenceType.SINGLE_REQUEST then sessions ++ [sessionJson p.2]
    else sessions) []

/-- The `headers` object `writeData` builds for one subscription. -/
def headersJson (httpHeaders : List (String × String)) : Json :=
  Json.obj (httpHeaders.foldl (fun headers header =>
    Json.objSet header.1 (Json.str header.2) headers) [])

/-- The object `writeData` pushes for one subscription, members in key order. -/
def subscriptionJson (subValue : UserSubscription) : Json :=
  Json.obj
    [("Context", Json.str subValue.customText),
     ("DeliveryRetryPolicy", Json.str subValue.retryPolicy),
     ("Destination", Json.str subValue.destinationUrl),
     ("EventFormatType", Json.str subValue.eventFormatType),
     ("HttpHeaders", headersJson subValue.httpHeaders),
     ("Id", Json.str subValue.id),
     ("MessageIds", Json.arr (subValue.registryMsgIds.map Json.str)),
     ("MetricReportDefinitions", Json.arr (subValue.metricReportDefinitions.map Json.str)),
     ("Protocol", Json.str subValue.protocol),
     ("RegistryPrefixes", Json.arr (subValue.registryPrefixes.map Json.str)),
     ("ResourceTypes", Json.arr (subValue.resourceTypes.map Json.str)),
     ("SubscriptionType", Json.str subValue.subscriptionType)]

/-- The loop of `writeData` that fills the `subscriptions` array. -/
def writeSubscriptions (subs : List (String × UserSubscription)) : List Json :=
  subs.foldl (fun subscriptions it =>
    if it.2.subscriptionType = "SSE" then subscriptions
    else subscriptions ++ [subscriptionJson it.2]) []

/-- The `eventservice_config` object of both writers. -/
def eventServiceConfigJson (c : EventServiceConfig) : Json :=
  Json.obj
    [("DeliveryRetryAttempts", Json.uint c.retryAttempts),
     ("DeliveryRetryIntervalSeconds", Json.uint c.retryTimeoutInterval),
     ("ServiceEnabled", Json.bool c.enabled)]

/-- The `data` object `writeData` streams to the file, members in key order. -/
def writeDataJson (w : World) : Json :=
  Json.obj
    [("auth_config", Json.obj
        [("BasicAuth", Json.bool w.sessionStore.authMethodsConfig.basic),
         ("Cookie", Json.bool w.sessionStore.authMethodsConfig.cookie),
         ("SessionToken", Json.bool w.sessionStore.authMethodsConfig.sessionToken),
         ("TLS", Json.bool w.sessionStore.authMethodsConfig.tls),
         ("XToken", Json.bool w.sessionStore.authMethodsConfig.xtoken)]),
     ("eventservice_config", eventServiceConfigJson w.eventServiceStore.config),
     ("revision", Json.uint jsonRevision),
     ("sessions", Json.arr (writeSessions w.sessionStore.authTokens)),
     ("subscriptions", Json.arr (writeSubscriptions w.eventServiceStore.subscriptionsConfigMap)),
     ("system_uuid", Json.str w.systemUuid),
     ("timeout", Json.ofInt64 w.sessionStore.timeoutInSeconds)]

/-- The `std::filesystem::perms::owner_read` bit. -/
def owner_read : Nat := 0o400

/-- The `std::filesystem::perms::owner_write` bit. -/
def owner_write : Nat := 0o200

/-- The `std::filesystem::perms::group_read` bit. -/
def group_read : Nat := 0o40

/-- The `permission` value both writers hand to `std::filesystem::permissions`. -/
def permission : Nat := owner_read ||| owner_write ||| group_read

/-- The `writeData` member: the file is (re)created, its permissions are replaced by
`permission`, and the snapshot is streamed into it. -/
def writeData (w : World) : World :=
  { w with file := some { perms := permission, content := some (writeDataJson w) } }

/-- The state of the item loop once `readData` is through with the file: untouched when the
file cannot be opened or its text is discarded by the parser. -/
def readFile (ext : Externals) (w : World) : ReadState :=
  match w.file with
  | none => { world := w, fileRevision := 0 }
  | some f =>
    match f.content with
    | none => { world := w, fileRevision := 0 }
    | some data => readItems ext { world := w, fileRevision := 0 } data.items

/-- The `readData` member.  The second component tells whether `writeData` was called. -/
def readData (ext : Externals) (w : World) : World × Bool :=
  let st := readFile ext w
  let w1 : World :=
    if st.world.systemUuid = "" then
      { st.world with systemUuid := boost.uuidToString ext.randomUuid }
    else st.world
  let needWrite : Bool :=
    decide (st.world.systemUuid = "") || decide (st.fileRevision < jsonRevision)
  if needWrite then (writeData w1, true) else (w1, false)

/-- The session object `writeCurrentSessionData` pushes, members in key order. -/
def currentSessionJson (s : UserSession) : Json :=
  Json.obj ((match s.clientId with
      | some c => [("client_id", Json.str c)]
      | none => []) ++
    [("client_ip", Json.str s.clientIp),
     ("unique_id", Json.str s.uniqueId),
     ("username", Json.str s.username)])

/-- The loop of `writeCurrentSessionData` that fills the `sessions` array. -/
def writeCurrentSessions (authTokens : List (String × UserSession)) : List Json :=
  authTokens.foldl (fun sessions p =>
    if p.2.persistence ≠ PersistenceType.SINGLE_REQUEST then
      sessions ++ [currentSessionJson p.2]
    else sessions) []

/-- The `data` object `writeCurrentSessionData` streams to the file, members in key order. -/
def writeCurrentSessionDataJson (w : World) : Json :=
  Json.obj
    [("eventservice_config", eventServiceConfigJson w.eventServiceStore.config),
     ("revision", Json.uint jsonRevision),
     ("sessions", Json.arr (writeCurrentSessions w.sessionStore.authTokens)),
     ("subscriptions", Json.arr (writeSubscriptions w.eventServiceStore.subscriptionsConfigMap)),
     ("system_uuid", Json.str w.systemUuid),
     ("timeout", Json.ofInt64 w.sessionStore.timeoutInSeconds)]

/-- The `writeCurrentSessionData` member (built with `BMCWEB_ENABLE_IBM_MANAGEMENT_CONSOLE`).
Opening `dumpFilename` for writing empties the file, or creates it with the mode
`createMode` (what the process umask leaves of `0666`).  `std::filesystem::permissions` is
then called on `filename`: it replaces the permissions of that file, and throws when that
file does not exist, which is the result `none`.  Last the snapshot is streamed into the file
opened first. -/
def writeCurrentSessionData (createMode : Nat) (w : World) : Option World :=
  let opened : FileState :=
    match w.dumpFile with
    | none => { perms := createMode, content := none }
    | some f => { perms := f.perms, content := none }
  match w.file with
  | none => none
  | some f =>
    some { w with
      file := some { f with perms := permission }
      dumpFile := some { opened with content := some (writeCurrentSessionDataJson w) } }

/-- The calls on the session store and on `ConfigFile` itself that are followed here. -/
inductive Call where
  | applySessionTimeouts
  | writeData
  deriving DecidableEq, Repr

/-- The `~ConfigFile` destructor, with the calls it makes in order.
`applySessionTimeouts` stands for the member of `SessionStore` of that name and `needWrite`
is what `needsWrite()` returns (sessions.hpp is not among the sources). -/
def destructor (applySessionTimeouts : SessionStore → SessionStore) (w : World) :
    World × List Call :=
  let w1 : World := { w with sessionStore := applySessionTimeouts w.sessionStore }
  if w1.sessionStore.needWrite then
    (writeData w1, [Call.applySessionTimeouts, Call.writeData])
  else (w1, [Call.applySessionTimeouts])

/-- The calls `readData` makes among those followed: `writeData` when it decides to write,
and no other. -/
def readDataCalls (ext : Externals) (w : World) : List Call :=
  if (readData ext w).2 then [Call.writeData] else []

end persistent_data

namespace redfish

/-- The `std::string::ends_with` test. -/
def ends_with (s suffix : String) : Bool :=
  suffix.toList.isSuffixOf s.toList

namespace messages

/-- The message objects the handlers append, one constructor per `messages::` function called
(error_messages.hpp is not among the sources; a message is kept as the call that built it). -/
inductive Message where
  | internalError
  | success
  | insufficientPrivilege
  | resourceAtUriUnauthorized (uri : String) (reason : String)
  | actionParameterUnknown (action : String) (parameter : String)
  | taskCompletedOK (index : String)
  deriving DecidableEq, Repr

end messages

namespace task

/-- The part of `task::Payload` the callbacks write. -/
structure Payload where
  httpHeaders : List String
  deriving DecidableEq, Repr

/-- The members of `task::TaskData` the callbacks read or write, and the expiry its `timer` is
armed for (`none` while the timer is not armed). -/
structure TaskData where
  index : Nat
  state : String
  messages : List messages.Message
  payload : Option Payload
  timerExpiry : Option Nat
  deriving DecidableEq, Repr

/-- The `task::completed` constant. -/
def completed : Bool := true

end task

open messages task

/-- The `DumpCreationProgress` enumeration. -/
inductive DumpCreationProgress where
  | DUMP_CREATE_SUCCESS
  | DUMP_CREATE_FAILED
  | DUMP_CREATE_INPROGRESS
  deriving DecidableEq, Repr

open DumpCreationProgress

/-- The `getDumpCompletionStatus` function; the task it may write to is returned with the
status. -/
def getDumpCompletionStatus :
    List (String × String) → TaskData → String → DumpCreationProgress × TaskData
  | [], taskData, _ => (DUMP_CREATE_INPROGRESS, taskData)
  | statusProp :: rest, taskData, objPath =>
    if statusProp.1 = "Status" then
      if statusProp.2 = "xyz.openbmc_project.Common.Progress.OperationStatus.Completed" then
        (DUMP_CREATE_SUCCESS, taskData)
      else if statusProp.2 = "xyz.openbmc_project.Common.Progress.OperationStatus.Failed" then
        (DUMP_CREATE_FAILED, taskData)
      else (DUMP_CREATE_INPROGRESS, taskData)
    else if statusProp.1 = "DumpRequestStatus" then
      if ends_with statusProp.2 "PermissionDenied" then
        (DUMP_CREATE_FAILED,
          { taskData with messages := taskData.messages ++ [Message.insufficientPrivilege] })
      else if ends_with statusProp.2 "AcfFileInvalid" ||
          ends_with statusProp.2 "PasswordInvalid" then
        (DUMP_CREATE_FAILED,
          { taskData with messages := taskData.messages ++
              [Message.resourceAtUriUnauthorized objPath "Invalid Password"] })
      else if ends_with statusProp.2 "ResourceSelectorInvalid" then
        (DUMP_CREATE_FAILED,
          { taskData with messages := taskData.messages ++
              [Message.actionParameterUnknown "CollectDiagnosticData" "Resource selector"] })
      else if ends_with statusProp.2 "Success" then
        (DUMP_CREATE_INPROGRESS, { taskData with state := "Running" })
      else (DUMP_CREATE_INPROGRESS, taskData)
    else getDumpCompletionStatus rest taskData objPath

/-- An `sdbusplus::message::object_path` together with what its `parent_path()` and
`filename()` return. -/
structure ObjectPath where
  str : String
  parentPath : String
  filename : String
  deriving DecidableEq, Repr

/-- The Redfish entry URI that `createDumpTaskCallback` picks for a dump path, `none` for a
path it answers with `internalError`. -/
def dumpEntryPath (dumpPath : String) : Option String :=
  if dumpPath = "/xyz/openbmc_project/dump/bmc/entry" then
    some "/redfish/v1/Managers/bmc/LogServices/Dump/Entries/"
  else if dumpPath = "/xyz/openbmc_project/dump/system/entry" then
    some "/redfish/v1/Systems/system/LogServices/Dump/Entries/System_"
  else if dumpPath = "/xyz/openbmc_project/dump/resource/entry" then
    some "/redfish/v1/Systems/system/LogServices/Dump/Entries/Resource_"
  else none

/-- The lambda `createDumpTaskCallback` hands to `createTask`, with its three captures.
`err` tells whether the error code is set and `values` is the property list read from the
message.  The result is whether the match is done and the task as written; it is `none`
where the lambda reaches through a `payload` that holds nothing. `urlEncode` stands for
`http_helpers::urlEncode`. -/
def dumpTaskCallback (urlEncode : String → String) (createdObjPath : ObjectPath)
    (entryPath dumpId : String) (err : Bool) (values : List (String × String))
    (taskData : TaskData) : Option (Bool × TaskData) :=
  if err then
    some (completed,
      { taskData with messages := taskData.messages ++ [Message.internalError],
                      state := "Cancelled" })
  else
    let r := getDumpCompletionStatus values taskData createdObjPath.str
    if r.1 = DUMP_CREATE_FAILED then
      some (completed, { r.2 with state := "Cancelled" })
    else if r.1 = DUMP_CREATE_INPROGRESS then
      some (!completed, r.2)
    else
      match r.2.payload with
      | none => none
      | some p =>
        let headerLoc := "Location: " ++ entryPath ++ urlEncode dumpId
        some (completed,
          { r.2 with messages := r.2.messages ++ [Message.success],
                     payload := some { p with httpHeaders := p.httpHeaders ++ [headerLoc] },
                     state := "Completed" })

/-- The match callback `createDumpTaskCallback` registers for a created object, `none` where it
returns before creating a task (empty path or id, unknown dump type). -/
def createDumpTaskMatch (urlEncode : String → String) (createdObjPath : ObjectPath) :
    Option (Bool → List (String × String) → TaskData → Option (Bool × TaskData)) :=
  if createdObjPath.parentPath = "" ∨ createdObjPath.filename = "" then none
  else
    match dumpEntryPath createdObjPath.parentPath with
    | none => none
    | some entryPath =>
      some (dumpTaskCallback urlEncode createdObjPath entryPath createdObjPath.filename)

/-- Whether `std::string::find` finds `needle` somewhere in `s`. -/
def contains (s needle : String) : Bool :=
  decide (List.IsInfix needle.toList s.toList)

/-- Modelled from the spec: `task::TaskData::createTask` (task.hpp is not among the sources).
It "allocates the next index"; a task starts in the state `New`, the first of
"New → Running → {Completed, Cancelled, TimedOut, Exception}", with no message, no captured
payload and no deadline. -/
def task.createTask (nextIndex : Nat) : TaskData :=
  { index := nextIndex, state := "New", messages := [], payload := none, timerExpiry := none }

/-- Modelled from the spec: `task::TaskData::startTimer` (task.hpp is not among the sources),
the `arm(task, deadline)` that "starts a countdown": the timer expires `timeout` seconds
from `now`. -/
def task.TaskData.startTimer (t : TaskData) (now timeout : Nat) : TaskData :=
  { t with timerExpiry := some (now + timeout) }

/-- The task `createDumpTaskCallback` leaves behind for a created object, `none` where it
answers `internalError` without creating one.  `req` is the payload captured from the
request, `nextIndex` the index `createTask` allocates, `now` the time in seconds. -/
def createDumpTaskCallback (req : Payload) (createdObjPath : ObjectPath)
    (nextIndex now : Nat) : Option TaskData :=
  let dumpPath := createdObjPath.parentPath
  let dumpId := createdObjPath.filename
  if dumpPath = "" ∨ dumpId = "" then none
  else
    match dumpEntryPath dumpPath with
    | none => none
    | some _ =>
      let task := task.createTask nextIndex
      let task := if contains dumpPath "/resource/" = false then
        { task with state := "Running" } else task
      let task := task.startTimer now (20 * 60)
      some { task with payload := some req }

/-- The lambda `requestRoutesCrashdumpCollect` hands to `createTask`. -/
def crashdumpTaskCallback (err : Bool) (taskData : TaskData) : Bool × TaskData :=
  if !err then
    (completed,
      { taskData with
          messages := taskData.messages ++ [Message.taskCompletedOK (toString taskData.index)],
          state := "Completed" })
  else (completed, taskData)

end redfish


namespace boost

/-- The tokens `boost::split` gives for the separator set `is_any_of(sep)` without token
compression: the stretches between separators, empty ones included. -/
def splitOn (sep : Char) : List Char → List (List Char)
  | [] => [[]]
  | c :: cs =>
    if c = sep then [] :: splitOn sep cs
    else
      match splitOn sep cs with
      | [] => [[c]]
      | f :: fs => (c :: f) :: fs

/-- The tokens `boost::split` gives with `token_compress_on`: a run of separators counts as
one, so the empty tokens between adjacent separators go, while the first and the last token
stay even when empty. -/
def splitCompress (sep : Char) (s : List Char) : List (List Char) :=
  match splitOn sep s with
  | [] => []
  | [f] => [f]
  | f :: rest => f :: (rest.dropLast.filter (fun t => !t.isEmpty)) ++ rest.getLast?.toList

end boost

namespace redfish

namespace message_registries

/-- The members of a registry `Message` the log services read. -/
structure Message where
  message : String
  severity : String
  deriving DecidableEq, Repr

/-- The two registries `getMessage` looks into, each with the `registryPrefix` of its header
(the registry headers are not among the sources). -/
structure Registries where
  basePrefix : String
  base : List (String × Message)
  openbmcPrefix : String
  openbmc : List (String × Message)
  deriving Repr

/-- The `getMessageFromRegistry` function. -/
def getMessageFromRegistry (messageKey : String) (registry : List (String × Message)) :
    Option Message :=
  (registry.find? (fun messageEntry => decide (messageEntry.1 = messageKey))).map Prod.snd

/-- The `getMessage` function.  The outer `none` is a read of `fields[0]` or `fields[3]`
outside the vector, which is undefined behaviour; `some none` is the null pointer. -/
def getMessage (reg : Registries) (messageID : String) : Option (Option Message) :=
  let fields := (boost.splitOn '.' messageID.toList).map String.mk
  match fields[0]?, fields[3]? with
  | some registryName, some messageKey =>
    if reg.basePrefix = registryName then
      some (getMessageFromRegistry messageKey reg.base)
    else if reg.openbmcPrefix = registryName then
      some (getMessageFromRegistry messageKey reg.openbmc)
    else some none
  | _, _ => none

end message_registries

open message_registries

/-- The `std::string::replace` of the first occurrence of `pat`, as `find` then `replace` do
it; the text is unchanged when `pat` does not occur. -/
def replaceFirst (pat rep : List Char) : List Char → List Char
  | [] => if pat.isEmpty then rep else []
  | c :: cs =>
    if pat.isPrefixOf (c :: cs) then rep ++ (c :: cs).drop pat.length
    else c :: replaceFirst pat rep cs

/-- The loop of `fillEventLogEntryJson` that puts the arguments in place of `%1`, `%2`, ... -/
def fillMessageArgs : List String → Nat → List Char → List Char
  | [], _, msg => msg
  | messageArg :: rest, i, msg =>
    fillMessageArgs rest (i + 1)
      (replaceFirst ('%' :: (toString (i + 1)).toList) messageArg.toList msg)

/-- The members of a journal event log entry. -/
structure EventLogEntry where
  odataId : String
  id : String
  message : String
  messageId : String
  messageArgs : List String
  severity : String
  created : String
  deriving DecidableEq, Repr

/-- How `fillEventLogEntryJson` can fail: the return value 1, or a read outside the vector
inside `getMessage`. -/
inductive FillError where
  | badFormat
  | outOfBounds
  deriving DecidableEq, Repr

/-- The `Created` value: the timestamp without what stands between the first `.` and the
first `+`, when both occur. -/
def trimFraction (timestamp : List Char) : List Char :=
  let dot := timestamp.findIdx (fun c => c = '.')
  let plus := timestamp.findIdx (fun c => c = '+')
  if dot < timestamp.length ∧ plus < timestamp.length then
    if dot ≤ plus then timestamp.take dot ++ timestamp.drop plus
    else timestamp.take dot
  else timestamp

/-- The `fillEventLogEntryJson` function. -/
def fillEventLogEntryJson (reg : Registries) (logEntryID logEntry : String) :
    Except FillError EventLogEntry :=
  let chars := logEntry.toList
  if ¬ (' ' ∈ chars) then Except.error FillError.badFormat
  else
    let timestamp := chars.takeWhile (fun c => c ≠ ' ')
    let entry := (chars.dropWhile (fun c => c ≠ ' ')).dropWhile (fun c => c = ' ')
    if entry.isEmpty then Except.error FillError.badFormat
    else
      let logEntryFields := (boost.splitCompress ',' entry).map String.mk
      match logEntryFields with
      | [] => Except.error FillError.badFormat
      | messageID :: argFields =>
        match getMessage reg messageID with
        | none => Except.error FillError.outOfBounds
        | some message =>
          let msg := (message.map (fun m => m.message)).getD ""
          let severity := (message.map (fun m => m.severity)).getD ""
          let messageArgs : List String :=
            match argFields with
            | [] => []
            | messageArgsStart :: _ => if messageArgsStart = "" then [] else argFields
          Except.ok
            { odataId := "/redfish/v1/Systems/system/LogServices/EventLog/Entries/" ++ logEntryID
              id := logEntryID
              message := String.mk (fillMessageArgs messageArgs 0 msg.toList)
              messageId := messageID
              messageArgs := messageArgs
              severity := severity
              created := String.mk (trimFraction timestamp) }

/-- A line of a redfish log file: its text and the time `std::get_time` and `std::mktime`
read from it, 0 when they read none. -/
structure LogLine where
  curTs : Int
  text : String
  deriving DecidableEq, Repr

/-- The two `static` variables of `getUniqueEntryID`. -/
structure UniqueIdState where
  prevTs : Int
  index : Int
  deriving DecidableEq, Repr

/-- The `getUniqueEntryID` overload for a log line, with its static variables passed in and
out.  It always returns true. -/
def getUniqueEntryID (logEntry : LogLine) (firstEntry : Bool) (st : UniqueIdState) :
    String × UniqueIdState :=
  let prevTs := if firstEntry then 0 else st.prevTs
  let index := if logEntry.curTs = prevTs then st.index + 1 else 0
  let entryID := toString logEntry.curTs ++ (if index > 0 then "_" ++ toString index else "")
  (entryID, { prevTs := logEntry.curTs, index := index })

/-- The constant `maxEntriesPerPage`. -/
def maxEntriesPerPage : Nat := 1000

/-- The range check of `getTopParam` on a parsed `$top`. -/
def getTopParam (top : Nat) : Bool :=
  !(decide (top < 1) || decide (top > maxEntriesPerPage))

/-- The variables the two loops of the collection handler update. -/
structure CollectionState where
  entryCount : Nat
  ids : UniqueIdState
  members : List EventLogEntry
  deriving Repr

/-- How a handler can end other than with its answer. -/
inductive Failure where
  | internalError
  | outOfBounds
  deriving DecidableEq, Repr

/-- The `while (std::getline(logStream, logEntry))` loop of the collection handler over the
lines of one file.  `skip` and `top` are 64-bit values and `skip + top` wraps. -/
def collectionLines (reg : Registries) (skip top : Nat) :
    List LogLine → Bool → CollectionState → Except Failure CollectionState
  | [], _, st => Except.ok st
  | logEntry :: rest, firstEntry, st =>
    let entryCount := st.entryCount + 1
    if entryCount ≤ skip ∨ entryCount > (skip + top) % 2 ^ 64 then
      collectionLines reg skip top rest firstEntry { st with entryCount := entryCount }
    else
      let r := getUniqueEntryID logEntry firstEntry st.ids
      match fillEventLogEntryJson reg r.1 logEntry.text with
      | Except.error FillError.badFormat => Except.error Failure.internalError
      | Except.error FillError.outOfBounds => Except.error Failure.outOfBounds
      | Except.ok bmcLogEntry =>
        collectionLines reg skip top rest false
          { entryCount := entryCount, ids := r.2, members := st.members ++ [bmcLogEntry] }

/-- The loop of the collection handler over the log files, oldest first; `none` is a file
that cannot be opened. -/
def collectionFiles (reg : Registries) (skip top : Nat) :
    List (Option (List LogLine)) → CollectionState → Except Failure CollectionState
  | [], st => Except.ok st
  | none :: files, st => collectionFiles reg skip top files st
  | some lines :: files, st =>
    match collectionLines reg skip top lines true st with
    | Except.error e => Except.error e
    | Except.ok st' => collectionFiles reg skip top files st'

/-- The part of the collection answer that depends on the log. -/
structure EventLogCollection where
  members : List EventLogEntry
  count : Nat
  nextLink : Option String
  deriving DecidableEq, Repr

/-- The handler of `requestRoutesJournalEventLogEntryCollection`, once `$skip` and `$top`
are read, with the static variables of `getUniqueEntryID` as they are afterwards. -/
def journalEventLogEntryCollection (reg : Registries) (files : List (Option (List LogLine)))
    (skip top : Nat) (ids : UniqueIdState) :
    Except Failure (EventLogCollection × UniqueIdState) :=
  match collectionFiles reg skip top files { entryCount := 0, ids := ids, members := [] } with
  | Except.error e => Except.error e
  | Except.ok st =>
    Except.ok
      ({ members := st.members
         count := st.entryCount
         nextLink :=
           if (skip + top) % 2 ^ 64 < st.entryCount then
             some ("/redfish/v1/Systems/system/LogServices/EventLog/Entries?$skip=" ++
               toString ((skip + top) % 2 ^ 64))
           else none },
       st.ids)

/-- The line loop of the handler of `requestRoutesJournalEventLogEntry`: the entry found, or
the static variables to go on with. -/
def entryLines (reg : Registries) (targetID : String) :
    List LogLine → Bool → UniqueIdState → Except Failure (EventLogEntry ⊕ UniqueIdState)
  | [], _, ids => Except.ok (Sum.inr ids)
  | logEntry :: rest, firstEntry, ids =>
    let r := getUniqueEntryID logEntry firstEntry ids
    if r.1 = targetID then
      match fillEventLogEntryJson reg r.1 logEntry.text with
      | Except.error FillError.badFormat => Except.error Failure.internalError
      | Except.error FillError.outOfBounds => Except.error Failure.outOfBounds
      | Except.ok e => Except.ok (Sum.inl e)
    else entryLines reg targetID rest false r.2

/-- The handler of `requestRoutesJournalEventLogEntry`: the entry with the requested Id, or
`none` for `resourceMissingAtURI`. -/
def journalEventLogEntry (reg : Registries) (targetID : String) :
    List (Option (List LogLine)) → UniqueIdState → Except Failure (Option EventLogEntry)
  | [], _ => Except.ok none
  | none :: files, ids => journalEventLogEntry reg targetID files ids
  | some lines :: files, ids =>
    match entryLines reg targetID lines true ids with
    | Except.error e => Except.error e
    | Except.ok (Sum.inl e) => Except.ok (some e)
    | Except.ok (Sum.inr ids') => journalEventLogEntry reg targetID files ids'

end redfish

namespace redfish

/-- One element of the map `GetPostCodesWithTimeStamp` answers with: the timestamp that is its
key, the code and the bytes that come with it. -/
structure PostCode where
  usecSinceEpoch : Nat
  code : Nat
  data : List Nat
  deriving DecidableEq, Repr

/-- The members of a POST code log entry that do not depend on how the message text, the
time offset and the creation time are rendered (floating point and utility.hpp). -/
structure PostCodeEntry where
  odataId : String
  id : String
  bootIndex : Nat
  usecSinceEpoch : Nat
  usTimeOffset : Nat
  code : Nat
  additionalDataURI : Option String
  deriving DecidableEq, Repr

/-- The loop of `fillPostCodeEntry`, with `currentCodeIndex` and `firstCodeTimeUs` as they
stand before the element. -/
def fillPostCodeLoop (bootIndex codeIndex skip top : Nat) :
    List PostCode → Nat → Nat → List PostCodeEntry → List PostCodeEntry
  | [], _, _, members => members
  | code :: rest, currentCodeIndex, firstCodeTimeUs, members =>
    let currentCodeIndex := currentCodeIndex + 1
    let postcodeEntryID := "B" ++ toString bootIndex ++ "-" ++ toString currentCodeIndex
    let firstCodeTimeUs := if currentCodeIndex = 1 then code.usecSinceEpoch else firstCodeTimeUs
    let usTimeOffset :=
      if currentCodeIndex = 1 then 0
      else (code.usecSinceEpoch + 2 ^ 64 - firstCodeTimeUs) % 2 ^ 64
    if codeIndex = 0 ∧ (currentCodeIndex ≤ skip ∨ currentCodeIndex > top) then
      fillPostCodeLoop bootIndex codeIndex skip top rest currentCodeIndex firstCodeTimeUs members
    else if codeIndex > 0 ∧ currentCodeIndex ≠ codeIndex then
      fillPostCodeLoop bootIndex codeIndex skip top rest currentCodeIndex firstCodeTimeUs members
    else
      fillPostCodeLoop bootIndex codeIndex skip top rest currentCodeIndex firstCodeTimeUs
        (members ++
          [{ odataId := "/redfish/v1/Systems/system/LogServices/PostCodes/Entries/" ++
               postcodeEntryID
             id := postcodeEntryID
             bootIndex := bootIndex
             usecSinceEpoch := code.usecSinceEpoch
             usTimeOffset := usTimeOffset
             code := code.code
             additionalDataURI :=
               if code.data.isEmpty then none
               else some ("/redfish/v1/Systems/system/LogServices/PostCodes/Entries/" ++
                 postcodeEntryID ++ "/attachment") }])

/-- The `fillPostCodeEntry` function on the `Members` array. -/
def fillPostCodeEntry (postcode : List PostCode) (bootIndex codeIndex skip top : Nat)
    (members : List PostCodeEntry) : List PostCodeEntry :=
  fillPostCodeLoop bootIndex codeIndex skip top postcode 0 0 members

/-- The part of the POST code collection answer the chain of calls writes. -/
structure PostCodeCollection where
  members : List PostCodeEntry
  count : Nat
  nextLink : Option String
  internalError : Bool
  deriving DecidableEq, Repr

/-- The `getPostCodeForBoot` function with the callback it leaves on the bus run at once:
`postCodes b` is the answer for boot `b`, `none` when the call fails.  `top + skip` wraps at
64 bits; the cast of `bootIndex + 1` to 16 bits changes nothing, as `bootIndex` is below the
16-bit `bootCount`.  `entryCount + postcode.size()` is left unreduced: it counts elements
held in memory and stays below 2 ^ 64. -/
def getPostCodeForBoot (postCodes : Nat → Option (List PostCode))
    (bootIndex bootCount entryCount skip top : Nat) (resp : PostCodeCollection) :
    PostCodeCollection :=
  match postCodes bootIndex with
  | none => { resp with internalError := true }
  | some postcode =>
    let endCount := if postcode.isEmpty then entryCount else entryCount + postcode.length
    let resp1 : PostCodeCollection :=
      if postcode.isEmpty then resp
      else
        let resp2 : PostCodeCollection :=
          if skip < endCount ∧ (top + skip) % 2 ^ 64 > entryCount then
            let thisBootSkip := max skip entryCount - entryCount
            let thisBootTop := min ((top + skip) % 2 ^ 64) endCount - entryCount
            let members :=
              fillPostCodeEntry postcode bootIndex 0 thisBootSkip thisBootTop resp.members
            { resp with members := members }
          else resp
        { resp2 with count := endCount }
    if bootIndex < bootCount then
      getPostCodeForBoot postCodes (bootIndex + 1) bootCount endCount skip top resp1
    else
      let nextLink := "/redfish/v1/Systems/system/LogServices/PostCodes/Entries?$skip=" ++
        toString ((skip + top) % 2 ^ 64)
      { resp1 with nextLink := some nextLink }
termination_by bootCount - bootIndex

/-- The handler of `requestRoutesPostCodesEntryCollection` once `$skip` and `$top` are read
and `CurrentBootCycleCount` has answered `bootCount`. -/
def postCodesEntryCollection (postCodes : Nat → Option (List PostCode))
    (bootCount skip top : Nat) : PostCodeCollection :=
  getPostCodeForBoot postCodes 1 bootCount 0 skip top
    { members := [], count := 0, nextLink := none, internalError := false }

/-- The `std::from_chars` call for an unsigned type of `bits` bits: how many characters it
consumed and the value, `none` for an error (no digit at the start, or a value that does not
fit). -/
def from_chars (bits : Nat) (s : List Char) : Nat × Option Nat :=
  let digits := s.takeWhile Char.isDigit
  if digits.isEmpty then (0, none)
  else
    let value := digits.foldl (fun acc c => 10 * acc + (c.toNat - 48)) 0
    if value < 2 ^ bits then (digits.length, some value) else (digits.length, none)

/-- The two numbers `parsePostCode` reads. -/
structure ParsedPostCode where
  currentValue : Nat
  index : Nat
  deriving DecidableEq, Repr

/-- The `parsePostCode` function; `none` is the result false. -/
def parsePostCode (postCodeID : String) : Option ParsedPostCode :=
  match boost.splitOn '-' postCodeID.toList with
  | [split0, split1] =>
    if split0.length < 2 ∨ split0.head? ≠ some 'B' then none
    else
      let rIndex := from_chars 16 (split0.drop 1)
      if rIndex.1 ≠ (split0.drop 1).length then none
      else
        match rIndex.2 with
        | none => none
        | some index =>
          let rValue := from_chars 64 split1
          if rValue.1 ≠ split1.length then none
          else
            match rValue.2 with
            | none => none
            | some currentValue => some { currentValue := currentValue, index := index }
  | _ => none

/-- The values a D-Bus property can hold, as far as the log entry handlers tell them apart. -/
inductive DbusValue where
  | u32 (n : Nat)
  | u64 (n : Nat)
  | str (s : String)
  | bool (b : Bool)
  | other
  deriving DecidableEq, Repr

/-- The `std::get_if<uint32_t>` access. -/
def DbusValue.getU32 : DbusValue → Option Nat
  | DbusValue.u32 n => some n
  | _ => none

/-- The `std::get_if<uint64_t>` access. -/
def DbusValue.getU64 : DbusValue → Option Nat
  | DbusValue.u64 n => some n
  | _ => none

/-- The `std::get_if<std::string>` access. -/
def DbusValue.getStr : DbusValue → Option String
  | DbusValue.str s => some s
  | _ => none

/-- The `std::get_if<bool>` access. -/
def DbusValue.getBool : DbusValue → Option Bool
  | DbusValue.bool b => some b
  | _ => none

/-- The `eventLogTypes` enumeration. -/
inductive eventLogTypes where
  | eventLog
  | ceLog
  deriving DecidableEq, Repr

/-- The local variables both D-Bus log entry handlers fill from the properties; a pointer is
an `Option`.  Timestamps are kept as the milliseconds read (`getTimestamp` and `getDateTime`
of utility.hpp are not among the sources). -/
structure EntryVars where
  id : Option Nat
  timestamp : Nat
  updateTimestamp : Nat
  severity : Option String
  subsystem : Option String
  filePath : Option String
  eventId : Option String
  resolution : Option String
  resolved : Bool
  hiddenProp : Option Bool
  serviceProviderNotified : Bool
  managementSystemAck : Bool
  deriving DecidableEq, Repr

/-- The variables as declared at the top of the loop body. -/
def EntryVars.init : EntryVars where
  id := none
  timestamp := 0
  updateTimestamp := 0
  severity := none
  subsystem := none
  filePath := none
  eventId := none
  resolution := none
  resolved := false
  hiddenProp := none
  serviceProviderNotified := false
  managementSystemAck := false

/-- One property of the `xyz.openbmc_project.Logging.Entry` interface in
`getDBusLogEntryCollection`; `none` is `internalError` and return. -/
def loggingEntryProperty (v : EntryVars) (propertyMap : String × DbusValue) :
    Option EntryVars :=
  if propertyMap.1 = "Id" then
    (propertyMap.2.getU32).map (fun n => { v with id := some n })
  else if propertyMap.1 = "Timestamp" then
    (propertyMap.2.getU64).map (fun t => { v with timestamp := t })
  else if propertyMap.1 = "UpdateTimestamp" then
    (propertyMap.2.getU64).map (fun t => { v with updateTimestamp := t })
  else if propertyMap.1 = "Severity" then
    (propertyMap.2.getStr).map (fun s => { v with severity := some s })
  else if propertyMap.1 = "Resolution" then
    (propertyMap.2.getStr).map (fun s => { v with resolution := some s })
  else if propertyMap.1 = "EventId" then
    (propertyMap.2.getStr).map (fun s => { v with eventId := some s })
  else if propertyMap.1 = "Resolved" then
    (propertyMap.2.getBool).map (fun b => { v with resolved := b })
  else if propertyMap.1 = "ServiceProviderNotify" then
    (propertyMap.2.getBool).map (fun b => { v with serviceProviderNotified := b })
  else some v

/-- One property of the `xyz.openbmc_project.Common.FilePath` interface. -/
def filePathProperty (v : EntryVars) (propertyMap : String × DbusValue) : EntryVars :=
  if propertyMap.1 = "Path" then { v with filePath := propertyMap.2.getStr } else v

/-- One property of the `org.open_power.Logging.PEL.Entry` interface; `none` is
`internalError` and return. -/
def pelEntryProperty (v : EntryVars) (propertyMap : String × DbusValue) : Option EntryVars :=
  if propertyMap.1 = "Hidden" then
    (propertyMap.2.getBool).map (fun b => { v with hiddenProp := some b })
  else if propertyMap.1 = "Subsystem" then
    (propertyMap.2.getStr).map (fun s => { v with subsystem := some s })
  else if propertyMap.1 = "ManagementSystemAck" then
    (propertyMap.2.getBool).map (fun b => { v with managementSystemAck := b })
  else some v

/-- One interface of an object in `getDBusLogEntryCollection`; `none` is `internalError` and
return. -/
def objectInterface (v : EntryVars) (interfaceMap : String × List (String × DbusValue)) :
    Option EntryVars :=
  if interfaceMap.1 = "xyz.openbmc_project.Logging.Entry" then
    match interfaceMap.2.foldlM loggingEntryProperty v with
    | none => none
    | some v1 =>
      if v1.id = none ∨ v1.resolution = none ∨ v1.severity = none then none else some v1
  else if interfaceMap.1 = "xyz.openbmc_project.Common.FilePath" then
    some (interfaceMap.2.foldl filePathProperty v)
  else if interfaceMap.1 = "org.open_power.Logging.PEL.Entry" then
    interfaceMap.2.foldlM pelEntryProperty v
  else some v

/-- The `translateSeverityDbusToRedfish` function. -/
def translateSeverityDbusToRedfish (s : String) : String :=
  if s = "xyz.openbmc_project.Logging.Entry.Level.Alert" ∨
      s = "xyz.openbmc_project.Logging.Entry.Level.Critical" ∨
      s = "xyz.openbmc_project.Logging.Entry.Level.Emergency" ∨
      s = "xyz.openbmc_project.Logging.Entry.Level.Error" then "Critical"
  else if s = "xyz.openbmc_project.Logging.Entry.Level.Debug" ∨
      s = "xyz.openbmc_project.Logging.Entry.Level.Informational" ∨
      s = "xyz.openbmc_project.Logging.Entry.Level.Notice" then "OK"
  else if s = "xyz.openbmc_project.Logging.Entry.Level.Warning" then "Warning"
  else ""

/-- The members of a D-Bus log entry as both handlers write them. -/
structure DBusLogEntry where
  odataId : String
  name : String
  id : String
  eventId : String
  message : String
  resolved : Bool
  resolution : Option String
  serviceProviderNotified : Bool
  severity : String
  created : Nat
  modified : Nat
  managementSystemAck : Bool
  additionalDataURI : Option String
  deriving DecidableEq, Repr

/-- The entry both handlers write once the required pointers are known to be set. -/
def makeDBusLogEntry (type : eventLogTypes) (v : EntryVars) (id : Nat)
    (severity eventId subsystem : String) : DBusLogEntry :=
  let entryID := toString id
  let base := if type = eventLogTypes.eventLog then
      "/redfish/v1/Systems/system/LogServices/EventLog/Entries/"
    else "/redfish/v1/Systems/system/LogServices/CELog/Entries/"
  { odataId := base ++ entryID
    name := if type = eventLogTypes.eventLog then "System Event Log Entry"
      else "System CE Log Entry"
    id := entryID
    eventId := eventId
    message := String.mk (eventId.toList.take 8) ++ " event in subsystem: " ++ subsystem
    resolved := v.resolved
    resolution := v.resolution.bind (fun r => if r = "" then none else some r)
    serviceProviderNotified := v.serviceProviderNotified
    severity := translateSeverityDbusToRedfish severity
    created := v.timestamp
    modified := v.updateTimestamp
    managementSystemAck := v.managementSystemAck
    additionalDataURI := v.filePath.map (fun _ => base ++ entryID ++ "/attachment") }

/-- The loop of `getDBusLogEntryCollection` over the objects; `none` is `internalError` and
return.  Where an entry is written `resolution` is not null: `id` is set only inside the
`Logging.Entry` interface, whose loop ends with the check of `resolution`. -/
def collectionObjects (type : eventLogTypes) :
    List (String × List (String × List (String × DbusValue))) → List DBusLogEntry →
    Option (List DBusLogEntry)
  | [], entriesArray => some entriesArray
  | objectPath :: rest, entriesArray =>
    match objectPath.2.foldlM objectInterface EntryVars.init with
    | none => none
    | some v =>
      match v.id, v.severity, v.hiddenProp, v.eventId, v.subsystem with
      | some id, some severity, some hiddenProp, some eventId, some subsystem =>
        if (type = eventLogTypes.eventLog ∧ hiddenProp = true) ∨
            (type = eventLogTypes.ceLog ∧ hiddenProp = false) then
          collectionObjects type rest entriesArray
        else
          collectionObjects type rest
            (entriesArray ++ [makeDBusLogEntry type v id severity eventId subsystem])
      | _, _, _, _, _ => collectionObjects type rest entriesArray

/-- The order the `std::sort` call uses: `left["Id"] <= right["Id"]` on the two strings. -/
def idLe (left right : DBusLogEntry) : Prop :=
  ¬ (right.id.toList < left.id.toList)

instance : DecidableRel idLe := fun left right =>
  inferInstanceAs (Decidable (¬ (right.id.toList < left.id.toList)))

/-- The `getDBusLogEntryCollection` function: `Members` and `Members@odata.count`, or `none`
for `internalError`.  The `std::sort` call puts the array in the order of `idLe`; with the
comparison `<=` its result is defined when the Ids are pairwise distinct. -/
def getDBusLogEntryCollection
    (resp : List (String × List (String × List (String × DbusValue))))
    (type : eventLogTypes) : Option (List DBusLogEntry × Nat) :=
  match collectionObjects type resp [] with
  | none => none
  | some entriesArray =>
    let sorted := entriesArray.insertionSort idLe
    some (sorted, sorted.length)

/-- One property of the `GetAll` answer in `getDBusLogEntry`; `none` is `internalError` and
return. -/
def entryProperty (v : EntryVars) (propertyMap : String × DbusValue) : Option EntryVars :=
  if propertyMap.1 = "Id" then
    (propertyMap.2.getU32).map (fun n => { v with id := some n })
  else if propertyMap.1 = "Timestamp" then
    (propertyMap.2.getU64).map (fun t => { v with timestamp := t })
  else if propertyMap.1 = "UpdateTimestamp" then
    (propertyMap.2.getU64).map (fun t => { v with updateTimestamp := t })
  else if propertyMap.1 = "Severity" then
    (propertyMap.2.getStr).map (fun s => { v with severity := some s })
  else if propertyMap.1 = "EventId" then
    (propertyMap.2.getStr).map (fun s => { v with eventId := some s })
  else if propertyMap.1 = "Resolution" then
    (propertyMap.2.getStr).map (fun s => { v with resolution := some s })
  else if propertyMap.1 = "Subsystem" then
    (propertyMap.2.getStr).map (fun s => { v with subsystem := some s })
  else if propertyMap.1 = "Resolved" then
    (propertyMap.2.getBool).map (fun b => { v with resolved := b })
  else if propertyMap.1 = "Path" then
    some { v with filePath := propertyMap.2.getStr }
  else if propertyMap.1 = "Hidden" then
    (propertyMap.2.getBool).map (fun b => { v with hiddenProp := some b })
  else if propertyMap.1 = "ServiceProviderNotify" then
    (propertyMap.2.getBool).map (fun b => { v with serviceProviderNotified := b })
  else if propertyMap.1 = "ManagementSystemAck" then
    (propertyMap.2.getBool).map (fun b => { v with managementSystemAck := b })
  else some v

/-- What `getDBusLogEntry` answers. -/
inductive EntryAnswer where
  | internalError
  | resourceNotFound (entryID : String)
  | entry (e : DBusLogEntry)
  deriving DecidableEq, Repr

/-- The `getDBusLogEntry` function. -/
def getDBusLogEntry (resp : List (String × DbusValue)) (type : eventLogTypes) : EntryAnswer :=
  match resp.foldlM entryProperty EntryVars.init with
  | none => EntryAnswer.internalError
  | some v =>
    match v.id, v.severity, v.hiddenProp, v.resolution, v.eventId, v.subsystem with
    | some id, some severity, some hiddenProp, some _, some eventId, some subsystem =>
      if (type = eventLogTypes.eventLog ∧ hiddenProp = true) ∨
          (type = eventLogTypes.ceLog ∧ hiddenProp = false) then
        EntryAnswer.resourceNotFound (toString id)
      else EntryAnswer.entry (makeDBusLogEntry type v id severity eventId subsystem)
    | _, _, _, _, _, _ => EntryAnswer.internalError

/-- The `while` loop of `createDump` that cuts `resourceDumpType` at each `_`: `field` is
what has been read of the field at hand; `none` is `invalidObject` and return. -/
def resourceDumpLoop : List Char → List Char → List String → Option (List String)
  | [], field, resourceDumpParams => some (resourceDumpParams ++ [String.mk field])
  | c :: rest, field, resourceDumpParams =>
    if c = '_' then
      let params := resourceDumpParams ++ [String.mk field]
      if params.length > 3 then none else resourceDumpLoop rest [] params
    else resourceDumpLoop rest (field ++ [c]) resourceDumpParams

/-- The branch of `createDump` for an `OEMDiagnosticDataType` that starts with `Resource`:
the dump path and the create parameters it adds, `none` for `invalidObject`. -/
def createResourceDump (oemDiagnosticDataType : String) :
    Option (String × List (String × String)) :=
  match resourceDumpLoop oemDiagnosticDataType.toList [] [] with
  | none => none
  | some resourceDumpParams =>
    let vsp : List (String × String) :=
      if resourceDumpParams.length ≥ 2 then
        [("com.ibm.Dump.Create.CreateParameters.VSPString", resourceDumpParams.getD 1 "")]
      else []
    let password : List (String × String) :=
      if resourceDumpParams.length = 3 then
        [("com.ibm.Dump.Create.CreateParameters.Password", resourceDumpParams.getD 2 "")]
      else []
    some ("/xyz/openbmc_project/dump/resource", vsp ++ password)

end redfish
/-! ## Definitions used to state the properties -/

namespace persistent_data

open nlohmann

/-- What identifies a session across a save and a load: session token, user name, client
address. -/
def sessionTriple (s : UserSession) : String × String × String :=
  (s.sessionToken, s.username, s.clientIp)

/-- Whether a store entry belongs to a persistence class other than `SINGLE_REQUEST`. -/
def isPersistent (p : String × UserSession) : Bool :=
  decide (p.2.persistence ≠ PersistenceType.SINGLE_REQUEST)

/-- Modelled from the spec: `UserSession::fromJson` (sessions.hpp is not among the sources).
The snapshot holds a session as "token, unique id, username, client IP, optional client
correlation id" and a bad session is skipped: an element is read as a session when it is an
object holding the first four as strings, and a session read back is of the persistent
class. -/
def UserSession.fromJson (j : Json) : Option UserSession :=
  match j with
  | Json.obj kvs =>
    match (kvs.lookup "session_token").bind Json.getString,
          (kvs.lookup "unique_id").bind Json.getString,
          (kvs.lookup "username").bind Json.getString,
          (kvs.lookup "client_ip").bind Json.getString with
    | some token, some uid, some user, some ip =>
      some { uniqueId := uid, sessionToken := token, username := user,
             csrfToken := ((kvs.lookup "csrf_token").bind Json.getString).getD "",
             clientId := (kvs.lookup "client_id").bind Json.getString,
             clientIp := ip, persistence := PersistenceType.TIMEOUT }
    | _, _, _, _ => none
  | _ => none

/-- Modelled from the spec: `UserSubscription::fromJson` (event_service_store.hpp is not among
the sources).  A subscription is held with its "destination, retry policy, format, headers,
topic filters" and a bad subscription is skipped: an element is read as a subscription when it
is an object holding `Id` and `Destination` as strings. -/
def UserSubscription.fromJson (j : Json) : Option UserSubscription :=
  match j with
  | Json.obj kvs =>
    match (kvs.lookup "Id").bind Json.getString,
          (kvs.lookup "Destination").bind Json.getString with
    | some id, some dest =>
      some { id := id, destinationUrl := dest,
             protocol := ((kvs.lookup "Protocol").bind Json.getString).getD "",
             retryPolicy := ((kvs.lookup "DeliveryRetryPolicy").bind Json.getString).getD "",
             customText := ((kvs.lookup "Context").bind Json.getString).getD "",
             eventFormatType := ((kvs.lookup "EventFormatType").bind Json.getString).getD "",
             subscriptionType := ((kvs.lookup "SubscriptionType").bind Json.getString).getD "",
             registryMsgIds := [], registryPrefixes := [], resourceTypes := [],
             httpHeaders := [], metricReportDefinitions := [] }
    | _, _ => none
  | _ => none

/-- A set of externals for concrete runs: the two record parsers above, configuration parsers
that leave the configuration as it is, and the all-zero UUID. -/
def sampleExternals : Externals where
  sessionFromJson := UserSession.fromJson
  subscriptionFromJson := UserSubscription.fromJson
  authConfigFromJson := fun c _ => c
  eventServiceConfigFromJson := fun c _ => c
  randomUuid := fun _ => 0

/-- A persistent session of `admin`. -/
def sampleAdmin : UserSession where
  uniqueId := "u1"
  sessionToken := "tokA"
  username := "admin"
  csrfToken := "csrfA"
  clientId := none
  clientIp := "10.0.0.5"
  persistence := PersistenceType.TIMEOUT

/-- A per-request session of `guest`. -/
def sampleGuest : UserSession where
  uniqueId := "u2"
  sessionToken := "tokB"
  username := "guest"
  csrfToken := "csrfB"
  clientId := some "console"
  clientIp := "10.0.0.6"
  persistence := PersistenceType.SINGLE_REQUEST

/-- A store with no session, a timeout of an hour, and no file. -/
def sampleEmptyWorld : World where
  sessionStore :=
    { authTokens := [], timeoutInSeconds := 3600,
      authMethodsConfig := { xtoken := true, cookie := true, sessionToken := true,
                             basic := true, tls := true },
      needWrite := false }
  eventServiceStore :=
    { config := { enabled := true, retryAttempts := 3, retryTimeoutInterval := 30 },
      subscriptionsConfigMap := [] }
  systemUuid := ""
  file := none
  dumpFile := none

/-- A store holding the two sample sessions. -/
def sampleWorld : World :=
  { sampleEmptyWorld with
    sessionStore := { sampleEmptyWorld.sessionStore with
      authTokens := [("tokA", sampleAdmin), ("tokB", sampleGuest)] }
    systemUuid := "0b4b0a4e-0000-4000-8000-000000000001" }

end persistent_data


namespace persistent_data

/-- The empty store that loads the file `writeData` wrote from `sampleWorld`. -/
def sampleReloadWorld : World :=
  { sampleEmptyWorld with file := (writeData sampleWorld).file }

end persistent_data

namespace persistent_data

open nlohmann

/-- The revision a file counts as holding: 0 when the file is absent, is not valid JSON, has
no `revision` key, or has a `revision` value that is not an unsigned integer; else that
integer. -/
def declaredRevision (file : Option FileState) : Nat :=
  match file with
  | none => 0
  | some f =>
    match f.content with
    | none => 0
    | some data =>
      match data.items.lookup "revision" with
      | none => 0
      | some v =>
        match v with
        | Json.uint r => r
        | _ => 0

/-- The system identity once the file is parsed: the string under `system_uuid` when the file
parses and has one, else the identity held before. -/
def parsedIdentity (w : World) : String :=
  match w.file with
  | none => w.systemUuid
  | some f =>
    match f.content with
    | none => w.systemUuid
    | some data =>
      match data.items.lookup "system_uuid" with
      | some (Json.str u) => u
      | _ => w.systemUuid

/-- The top-level keys `readData` acts on. -/
def knownKey (k : String) : Bool :=
  decide (k = "revision") || decide (k = "system_uuid") || decide (k = "auth_config") ||
  decide (k = "sessions") || decide (k = "timeout") || decide (k = "eventservice_config") ||
  decide (k = "subscriptions")

/-- A read state with the file replaced. -/
def ReadState.withFile (st : ReadState) (f : Option FileState) : ReadState :=
  { st with world := { st.world with file := f } }

/-- A world with an identity already set whose file has an identity but no `revision`. -/
def sampleNoRevisionWorld : World :=
  { sampleEmptyWorld with
    file := some { perms := 0o600,
                   content := some (Json.obj [("system_uuid", Json.str "abc"),
                                              ("timeout", Json.uint 60)]) } }

end persistent_data

namespace persistent_data

open nlohmann

/-- A world whose file holds the top-level members `kvs`. -/
def withSnapshot (w : World) (perms : Nat) (kvs : List (String × Json)) : World :=
  { w with file := some { perms := perms, content := some (Json.obj kvs) } }

/-- A snapshot with a known key between two keys `readData` does not know. -/
def sampleExtraKeys : List (String × Json) :=
  [("future_field", Json.arr [Json.uint 1]), ("revision", Json.uint 1),
   ("system_uuid", Json.str "abc"), ("zeta", Json.null)]

/-- The same snapshot without the two keys `readData` does not know. -/
def samplePlainKeys : List (String × Json) :=
  [("revision", Json.uint 1), ("system_uuid", Json.str "abc")]

end persistent_data

namespace persistent_data

open nlohmann

/-- Two runs of `readData` that end with the same stores, the same system identity and the
same decision whether to rewrite the file. -/
def sameOutcome (r r' : World × Bool) : Prop :=
  r.2 = r'.2 ∧ r.1.sessionStore = r'.1.sessionStore ∧
  r.1.eventServiceStore = r'.1.eventServiceStore ∧ r.1.systemUuid = r'.1.systemUuid

/-- A subscription object the sample parser accepts. -/
def sampleSubscriptionJson : Json :=
  Json.obj [("Destination", Json.str "https://listener/events"), ("Id", Json.str "sub1")]

/-- The subscription read from `sampleSubscriptionJson`. -/
def sampleSubscription : UserSubscription where
  id := "sub1"
  destinationUrl := "https://listener/events"
  protocol := ""
  retryPolicy := ""
  customText := ""
  eventFormatType := ""
  subscriptionType := ""
  registryMsgIds := []
  registryPrefixes := []
  resourceTypes := []
  httpHeaders := []
  metricReportDefinitions := []

/-- The session read from the object written for `sampleAdmin`. -/
def sampleAdminRead : UserSession :=
  { sampleAdmin with persistence := PersistenceType.TIMEOUT }

end persistent_data

namespace redfish

open messages task DumpCreationProgress

/-- The first property of the list that is named `Status` or `DumpRequestStatus`. -/
def firstStatusProperty (values : List (String × String)) : Option (String × String) :=
  values.find? (fun p => decide (p.1 = "Status") || decide (p.1 = "DumpRequestStatus"))

/-- A running task with a captured payload and an armed timer. -/
def sampleTask : TaskData where
  index := 7
  state := "Running"
  messages := []
  payload := some { httpHeaders := ["Host: bmc"] }
  timerExpiry := some 1200

/-- A created BMC dump entry. -/
def sampleBmcDump : ObjectPath where
  str := "/xyz/openbmc_project/dump/bmc/entry/42"
  parentPath := "/xyz/openbmc_project/dump/bmc/entry"
  filename := "42"

end redfish

namespace redfish

open messages task DumpCreationProgress

/-- The four terminal task states. -/
def isTerminal (state : String) : Bool :=
  decide (state = "Completed") || decide (state = "Cancelled") ||
  decide (state = "TimedOut") || decide (state = "Exception")

/-- The status a first status property stands for: `Status` with the value `...Completed` is a
success, `Status` with the value `...Failed` a failure, a `DumpRequestStatus` ending in
`PermissionDenied`, `AcfFileInvalid`, `PasswordInvalid` or `ResourceSelectorInvalid` a
failure, and every other case, no property at all included, is "in progress". -/
def statusOfProperty : Option (String × String) → DumpCreationProgress
  | none => DUMP_CREATE_INPROGRESS
  | some (name, value) =>
    if name = "Status" ∧
        value = "xyz.openbmc_project.Common.Progress.OperationStatus.Completed" then
      DUMP_CREATE_SUCCESS
    else if name = "Status" ∧
        value = "xyz.openbmc_project.Common.Progress.OperationStatus.Failed" then
      DUMP_CREATE_FAILED
    else if name = "DumpRequestStatus" ∧
        (ends_with value "PermissionDenied" = true ∨ ends_with value "AcfFileInvalid" = true ∨
         ends_with value "PasswordInvalid" = true ∨
         ends_with value "ResourceSelectorInvalid" = true) then
      DUMP_CREATE_FAILED
    else DUMP_CREATE_INPROGRESS

/-- A task that was cancelled and holds the message saying so. -/
def sampleCancelledTask : TaskData where
  index := 3
  state := "Cancelled"
  messages := [Message.internalError]
  payload := some { httpHeaders := [] }
  timerExpiry := none

/-- A task in its initial state. -/
def sampleNewTask : TaskData where
  index := 4
  state := "New"
  messages := []
  payload := some { httpHeaders := [] }
  timerExpiry := some 1200

/-- A created resource dump entry. -/
def sampleResourceDump : ObjectPath where
  str := "/xyz/openbmc_project/dump/resource/entry/5"
  parentPath := "/xyz/openbmc_project/dump/resource/entry"
  filename := "5"

/-- A created system dump entry. -/
def sampleSystemDump : ObjectPath where
  str := "/xyz/openbmc_project/dump/system/entry/9"
  parentPath := "/xyz/openbmc_project/dump/system/entry"
  filename := "9"

/-- A captured request payload. -/
def samplePayload : Payload where
  httpHeaders := ["Host: bmc"]

end redfish

namespace nlohmann

/-- The value an object holds under a key, if any. -/
def Json.member (k : String) : Json → Option Json
  | Json.obj kvs => kvs.lookup k
  | _ => none

/-- The keys of the members of an object. -/
def Json.keys : Json → List String
  | Json.obj kvs => kvs.map Prod.fst
  | _ => []

end nlohmann

namespace persistent_data

open nlohmann

/-- Whether every `writeData` in a sequence of calls comes right after an
`applySessionTimeouts`. -/
def writesPrecededBySweep : List Call → Bool
  | [] => true
  | Call.writeData :: _ => false
  | Call.applySessionTimeouts :: Call.writeData :: rest => writesPrecededBySweep rest
  | Call.applySessionTimeouts :: rest => writesPrecededBySweep rest

/-- A persistent session of `operator`. -/
def sampleOperator : UserSession where
  uniqueId := "u3"
  sessionToken := "tokC"
  username := "operator"
  csrfToken := "csrfC"
  clientId := some "hmc"
  clientIp := "10.0.0.7"
  persistence := PersistenceType.TIMEOUT

/-- A store with the three sample sessions and no file on disk. -/
def sampleShutdownWorld : World :=
  { sampleEmptyWorld with
    sessionStore := { sampleEmptyWorld.sessionStore with
      authTokens := [("tokA", sampleAdmin), ("tokB", sampleGuest), ("tokC", sampleOperator)] }
    systemUuid := "0b4b0a4e-0000-4000-8000-000000000001" }

/-- A sweep that finds the session `tokA` expired: it removes it and sets the dirty flag. -/
def sampleSweep (s : SessionStore) : SessionStore :=
  { s with authTokens := s.authTokens.filter (fun p => decide (p.1 ≠ "tokA")),
           needWrite := true }

/-- A store whose snapshot file exists and whose file of the current sessions does not. -/
def sampleRunningWorld : World :=
  { sampleShutdownWorld with
    file := some { perms := 0o640, content := some (writeDataJson sampleShutdownWorld) } }

end persistent_data

namespace redfish

open message_registries

/-- Registries with the prefixes `Base` and `OpenBMC` and one message each. -/
def sampleRegistries : Registries where
  basePrefix := "Base"
  base := [("Success", { message := "Successfully Completed Request", severity := "OK" })]
  openbmcPrefix := "OpenBMC"
  openbmc := [("PowerOn", { message := "Host %1 powered on", severity := "OK" })]

/-- The static variables of `getUniqueEntryID` at process start. -/
def initialIds : UniqueIdState where
  prevTs := 0
  index := 0

/-- A log line of the second 1609459200. -/
def sampleLineA : LogLine where
  curTs := 1609459200
  text := "2021-01-01T00:00:00.123456+00:00 OpenBMC.0.1.PowerOn,A"

/-- Another log line of the same second. -/
def sampleLineB : LogLine where
  curTs := 1609459200
  text := "2021-01-01T00:00:00.654321+00:00 OpenBMC.0.1.PowerOn,B"

/-- A log line whose message id has a single field. -/
def sampleShortIdLine : LogLine where
  curTs := 1609459200
  text := "2021-01-01T00:00:00 PowerOn,A"

end redfish

namespace redfish

/-- A log entry object on D-Bus with every property the handlers ask for. -/
def sampleLogObject (id : Nat) (hidden : Bool) :
    String × List (String × List (String × DbusValue)) :=
  ("/xyz/openbmc_project/logging/entry/" ++ toString id,
   [("xyz.openbmc_project.Logging.Entry",
      [("Id", DbusValue.u32 id),
       ("Severity", DbusValue.str "xyz.openbmc_project.Logging.Entry.Level.Error"),
       ("Resolution", DbusValue.str ""),
       ("EventId", DbusValue.str "BD8D1234 00000000")]),
    ("org.open_power.Logging.PEL.Entry",
      [("Hidden", DbusValue.bool hidden), ("Subsystem", DbusValue.str "CEC Hardware")])])

end redfish

namespace redfish

/-- The number a string of decimal digits stands for. -/
def decimalValue (ds : List Char) : Nat :=
  ds.foldl (fun acc c => 10 * acc + (c.toNat - 48)) 0

/-- The variables `getDBusLogEntryCollection` has read once it is through with the interfaces
of an object; `none` where it answers `internalError`. -/
def objectVars (obj : String × List (String × List (String × DbusValue))) : Option EntryVars :=
  obj.2.foldlM objectInterface EntryVars.init

/-- The `Id` property of an object, if it has one. -/
def objectId (obj : String × List (String × List (String × DbusValue))) : Option Nat :=
  (objectVars obj).bind (fun v => v.id)

/-- The entry the collection of a type lists for an object, if it lists one. -/
def listedEntry (type : eventLogTypes)
    (obj : String × List (String × List (String × DbusValue))) : Option DBusLogEntry :=
  match objectVars obj with
  | none => none
  | some v =>
    match v.id, v.severity, v.hiddenProp, v.eventId, v.subsystem with
    | some id, some severity, some hiddenProp, some eventId, some subsystem =>
      if (type = eventLogTypes.eventLog ∧ hiddenProp = true) ∨
          (type = eventLogTypes.ceLog ∧ hiddenProp = false) then none
      else some (makeDBusLogEntry type v id severity eventId subsystem)
    | _, _, _, _, _ => none

/-- The `GetAll` answer for a sample entry. -/
def sampleEntryProperties (id : Nat) (hidden : Bool) : List (String × DbusValue) :=
  [("Id", DbusValue.u32 id),
   ("Severity", DbusValue.str "xyz.openbmc_project.Logging.Entry.Level.Error"),
   ("Resolution", DbusValue.str ""),
   ("EventId", DbusValue.str "BD8D1234 00000000"),
   ("Hidden", DbusValue.bool hidden),
   ("Subsystem", DbusValue.str "CEC Hardware")]

/-- The variables read from a sample entry. -/
def sampleEntryVars (id : Nat) (hidden : Bool) : EntryVars :=
  { EntryVars.init with
    id := some id
    severity := some "xyz.openbmc_project.Logging.Entry.Level.Error"
    resolution := some ""
    eventId := some "BD8D1234 00000000"
    hiddenProp := some hidden
    subsystem := some "CEC Hardware" }

end redfish

namespace redfish

/-- The entry written for the code at the 1-based place `i` of the boot `b`, where `first`
is the time of the first code of that boot. -/
def postCodeEntryAt (b first i : Nat) (code : PostCode) : PostCodeEntry :=
  let postcodeEntryID := "B" ++ toString b ++ "-" ++ toString i
  { odataId := "/redfish/v1/Systems/system/LogServices/PostCodes/Entries/" ++ postcodeEntryID
    id := postcodeEntryID
    bootIndex := b
    usecSinceEpoch := code.usecSinceEpoch
    usTimeOffset := if i = 1 then 0 else (code.usecSinceEpoch + 2 ^ 64 - first) % 2 ^ 64
    code := code.code
    additionalDataURI :=
      if code.data.isEmpty then none
      else some ("/redfish/v1/Systems/system/LogServices/PostCodes/Entries/" ++
        postcodeEntryID ++ "/attachment") }

/-- The entries of one boot: one for each of its codes, in order, numbered from 1. -/
def bootEntries (b : Nat) (codes : List PostCode) : List PostCodeEntry :=
  (codes.enumFrom 1).map
    (fun p => postCodeEntryAt b ((codes.head?.map (fun c => c.usecSinceEpoch)).getD 0) p.1 p.2)

/-- The entries of the boots 1 to `bootCount`, one boot after the other. -/
def allPostCodeEntries (lists : Nat → List PostCode) (bootCount : Nat) : List PostCodeEntry :=
  (List.range' 1 bootCount).flatMap (fun b => bootEntries b (lists b))

/-- Two boots, with two codes and three codes. -/
def samplePostCodeLists (b : Nat) : List PostCode :=
  if b = 1 then
    [{ usecSinceEpoch := 1000, code := 1, data := [] },
     { usecSinceEpoch := 1500, code := 2, data := [7] }]
  else if b = 2 then
    [{ usecSinceEpoch := 9000, code := 1, data := [] },
     { usecSinceEpoch := 9100, code := 3, data := [] },
     { usecSinceEpoch := 9300, code := 4, data := [] }]
  else []

/-- The bus answering for every boot with its sample codes. -/
def samplePostCodes (b : Nat) : Option (List PostCode) := some (samplePostCodeLists b)

end redfish
/-! ## Persistence: facts about the loops -/

namespace persistent_data

open nlohmann

theorem foldl_writeSessions (m : List (String × UserSession)) (acc : List Json) :
    m.foldl (fun sessions p =>
        if p.2.persistence ≠ PersistenceType.SINGLE_REQUEST then sessions ++ [sessionJson p.2]
        else sessions) acc
      = acc ++ (m.filter isPersistent).map (fun p => sessionJson p.2) := by
  induction m generalizing acc with
  | nil => simp
  | cons p m ih =>
    simp only [List.foldl_cons, ih]
    by_cases hp : p.2.persistence = PersistenceType.SINGLE_REQUEST
    · simp [isPersistent, hp]
    · simp [isPersistent, hp]

theorem writeSessions_eq (m : List (String × UserSession)) :
    writeSessions m = (m.filter isPersistent).map (fun p => sessionJson p.2) := by
  unfold writeSessions
  rw [foldl_writeSessions]
  simp

theorem loadSessions_nil (ext : Externals) (m : List (String × UserSession)) :
    loadSessions ext [] m = m := rfl

theorem loadSessions_cons (ext : Externals) (e : Json) (es : List Json)
    (m : List (String × UserSession)) :
    loadSessions ext (e :: es) m =
      loadSessions ext es (match ext.sessionFromJson e with
        | none => m
        | some s => emplace s.sessionToken s m) := rfl

theorem loadSessions_append (ext : Externals) (es fs : List Json)
    (m : List (String × UserSession)) :
    loadSessions ext (es ++ fs) m = loadSessions ext fs (loadSessions ext es m) := by
  simp [loadSessions, List.foldl_append]

theorem loadSubscriptions_cons (ext : Externals) (e : Json) (es : List Json)
    (m : List (String × UserSubscription)) :
    loadSubscriptions ext (e :: es) m =
      loadSubscriptions ext es (match ext.subscriptionFromJson e with
        | none => m
        | some s => emplace s.id s m) := rfl

theorem loadSubscriptions_append (ext : Externals) (es fs : List Json)
    (m : List (String × UserSubscription)) :
    loadSubscriptions ext (es ++ fs) m =
      loadSubscriptions ext fs (loadSubscriptions ext es m) := by
  simp [loadSubscriptions, List.foldl_append]

theorem emplace_of_not_mem {α : Type} (k : String) (v : α) (m : List (String × α))
    (h : k ∉ m.map Prod.fst) : emplace k v m = m ++ [(k, v)] := by
  simp only [emplace, if_neg h]

theorem subset_emplace {α : Type} (k : String) (v : α) (m : List (String × α)) :
    ∀ q ∈ m, q ∈ emplace k v m := by
  intro q hq
  unfold emplace
  split
  · exact hq
  · exact List.mem_append_left _ hq

/-- Loading the objects written for sessions with distinct tokens, none of them in the map
yet, appends one entry per session, keyed by its token and carrying its triple. -/
theorem loadSessions_written (ext : Externals) (L : List UserSession)
    (m : List (String × UserSession))
    (hnd : (L.map (fun s => s.sessionToken)).Nodup)
    (hdisj : ∀ s ∈ L, s.sessionToken ∉ m.map Prod.fst)
    (hfrom : ∀ s ∈ L, ∃ s', ext.sessionFromJson (sessionJson s) = some s' ∧
      sessionTriple s' = sessionTriple s) :
    ∃ L', loadSessions ext (L.map sessionJson) m = m ++ L' ∧
      L'.map (fun q => sessionTriple q.2) = L.map sessionTriple ∧
      ∀ q ∈ L', q.1 = q.2.sessionToken := by
  induction L generalizing m with
  | nil => exact ⟨[], by simp [loadSessions_nil], by simp, by simp⟩
  | cons s L ih =>
    obtain ⟨s', hs', htr⟩ := hfrom s (List.mem_cons_self _ _)
    have htok : s'.sessionToken = s.sessionToken := by
      have := congrArg Prod.fst htr
      simpa [sessionTriple] using this
    have hnot : s'.sessionToken ∉ m.map Prod.fst := by
      rw [htok]; exact hdisj s (List.mem_cons_self _ _)
    rw [List.map_cons, List.nodup_cons] at hnd
    have hdisj' : ∀ t ∈ L, t.sessionToken ∉ (m ++ [(s'.sessionToken, s')]).map Prod.fst := by
      intro t ht hmem
      rw [List.map_append, List.mem_append] at hmem
      rcases hmem with hmem | hmem
      · exact hdisj t (List.mem_cons_of_mem _ ht) hmem
      · simp only [List.map_cons, List.map_nil, List.mem_singleton] at hmem
        apply hnd.1
        rw [← htok, ← hmem]
        exact List.mem_map_of_mem _ ht
    obtain ⟨L', hL', hmap, hkey⟩ := ih (m ++ [(s'.sessionToken, s')]) hnd.2 hdisj'
      (fun t ht => hfrom t (List.mem_cons_of_mem _ ht))
    refine ⟨(s'.sessionToken, s') :: L', ?_, ?_, ?_⟩
    · rw [List.map_cons, loadSessions_cons, hs']
      simp only [emplace_of_not_mem _ _ _ hnot, hL', List.append_assoc, List.singleton_append]
    · simp [hmap, htr]
    · intro q hq
      rcases List.mem_cons.mp hq with rfl | hq
      · rfl
      · exact hkey q hq

end persistent_data

namespace persistent_data

open nlohmann

theorem writeData_sessionStore (w : World) : (writeData w).sessionStore = w.sessionStore := rfl

theorem writeData_eventServiceStore (w : World) :
    (writeData w).eventServiceStore = w.eventServiceStore := rfl

theorem writeData_systemUuid (w : World) : (writeData w).systemUuid = w.systemUuid := rfl

theorem readData_sessionStore (ext : Externals) (w : World) :
    (readData ext w).1.sessionStore = (readFile ext w).world.sessionStore := by
  unfold readData
  by_cases hu : (readFile ext w).world.systemUuid = ""
  · simp [hu, writeData]
  · by_cases hr : (readFile ext w).fileRevision < jsonRevision
    · simp [hu, hr, writeData]
    · simp [hu, hr]

theorem readData_eventServiceStore (ext : Externals) (w : World) :
    (readData ext w).1.eventServiceStore = (readFile ext w).world.eventServiceStore := by
  unfold readData
  by_cases hu : (readFile ext w).world.systemUuid = ""
  · simp [hu, writeData]
  · by_cases hr : (readFile ext w).fileRevision < jsonRevision
    · simp [hu, hr, writeData]
    · simp [hu, hr]

/-- What the item loop makes of a file `writeData` wrote: the session map after it is the
map before it with the written `sessions` array loaded. -/
theorem readFile_written_authTokens (ext : Externals) (S w0 : World)
    (hfile : w0.file = (writeData S).file) :
    (readFile ext w0).world.sessionStore.authTokens =
      loadSessions ext (writeSessions S.sessionStore.authTokens) w0.sessionStore.authTokens := by
  simp [readFile, hfile, writeData, writeDataJson, Json.items, readItems, readItem,
    Json.getUint, Json.getString, Json.elems, eventServiceConfigJson]
  cases h : (Json.ofInt64 S.sessionStore.timeoutInSeconds).getInt64 <;>
    simp [SessionStore.updateSessionTimeout]

/-- C2: the `sessions` member of the snapshot `writeData` writes is the array holding, in
store order, one object per store entry whose persistence class is not `SINGLE_REQUEST`
(the object `writeData` builds for that session) and nothing else; so it has as many
elements as the store has such entries, and none for a `SINGLE_REQUEST` entry. -/
theorem writeData_sessions_array (w : World) :
    (((writeData w).file.bind (fun f => f.content)).map
        (fun data => data.items.filter (fun kv => decide (kv.1 = "sessions")))
      = some [("sessions", Json.arr
          ((w.sessionStore.authTokens.filter
              (fun p => decide (p.2.persistence ≠ PersistenceType.SINGLE_REQUEST))).map
            (fun p => sessionJson p.2)))]) ∧
    (writeSessions w.sessionStore.authTokens).length =
      w.sessionStore.authTokens.countP
        (fun p => decide (p.2.persistence ≠ PersistenceType.SINGLE_REQUEST)) := by
  have h := writeSessions_eq w.sessionStore.authTokens
  have hp : isPersistent =
      (fun p : String × UserSession =>
        decide (p.2.persistence ≠ PersistenceType.SINGLE_REQUEST)) := rfl
  rw [hp] at h
  constructor
  · simp [writeData, writeDataJson, Json.items, List.filter, h]
  · rw [h, List.length_map, List.countP_eq_length_filter]

/-- C1: load the snapshot that `writeData` wrote from a store `S` into a store with no
session.  Provided the session tokens of `S` are pairwise distinct and the session parser
gives back token, user name and client address of every object written, the loaded map
carries, entry by entry, the (token, user name, client address) triples of the entries of
`S` that are not `SINGLE_REQUEST`, each under its token as key, and no loaded session has
the token of a `SINGLE_REQUEST` session of `S`. -/
theorem save_load_sessions (ext : Externals) (S w0 : World)
    (hempty : w0.sessionStore.authTokens = [])
    (hfile : w0.file = (writeData S).file)
    (huniq : (S.sessionStore.authTokens.map (fun p => p.2.sessionToken)).Nodup)
    (hfrom : ∀ p ∈ S.sessionStore.authTokens,
      p.2.persistence ≠ PersistenceType.SINGLE_REQUEST →
      ∃ s, ext.sessionFromJson (sessionJson p.2) = some s ∧
        sessionTriple s = sessionTriple p.2) :
    ((readData ext w0).1.sessionStore.authTokens.map (fun q => sessionTriple q.2) =
      (S.sessionStore.authTokens.filter
          (fun p => decide (p.2.persistence ≠ PersistenceType.SINGLE_REQUEST))).map
        (fun p => sessionTriple p.2)) ∧
    (∀ q ∈ (readData ext w0).1.sessionStore.authTokens, q.1 = q.2.sessionToken) ∧
    (∀ p ∈ S.sessionStore.authTokens, p.2.persistence = PersistenceType.SINGLE_REQUEST →
      ∀ q ∈ (readData ext w0).1.sessionStore.authTokens,
        q.2.sessionToken ≠ p.2.sessionToken) := by
  have hp : isPersistent =
      (fun p : String × UserSession =>
        decide (p.2.persistence ≠ PersistenceType.SINGLE_REQUEST)) := rfl
  rw [← hp]
  set P := S.sessionStore.authTokens.filter isPersistent with hP
  have hsub : List.Sublist P S.sessionStore.authTokens := List.filter_sublist _
  have hnd : ((P.map Prod.snd).map (fun s => s.sessionToken)).Nodup := by
    rw [List.map_map]
    exact (hsub.map _).nodup huniq
  have hfrom' : ∀ s ∈ P.map Prod.snd, ∃ s', ext.sessionFromJson (sessionJson s) = some s' ∧
      sessionTriple s' = sessionTriple s := by
    intro s hs
    obtain ⟨p, hpP, rfl⟩ := List.mem_map.mp hs
    have hpS := hsub.subset hpP
    have hpers : p.2.persistence ≠ PersistenceType.SINGLE_REQUEST := by
      have := (List.mem_filter.mp hpP).2
      simpa [isPersistent] using this
    exact hfrom p hpS hpers
  obtain ⟨L', hL', hmap, hkey⟩ :=
    loadSessions_written ext (P.map Prod.snd) [] hnd (by simp) hfrom'
  have hload : (readData ext w0).1.sessionStore.authTokens = L' := by
    rw [readData_sessionStore, readFile_written_authTokens ext S w0 hfile, hempty,
      writeSessions_eq, ← hP]
    simpa [List.map_map, Function.comp] using hL'
  rw [hload]
  refine ⟨?_, hkey, ?_⟩
  · rw [hmap, List.map_map]; rfl
  · intro p hpS hsingle q hq heq
    have hq' : sessionTriple q.2 ∈ L'.map (fun q => sessionTriple q.2) :=
      List.mem_map_of_mem _ hq
    rw [hmap] at hq'
    obtain ⟨s, hs, hst⟩ := List.mem_map.mp hq'
    obtain ⟨p', hp'P, rfl⟩ := List.mem_map.mp hs
    have hp'S := hsub.subset hp'P
    have htok : p'.2.sessionToken = p.2.sessionToken := by
      have := congrArg Prod.fst hst
      simp only [sessionTriple] at this
      rw [this, heq]
    have hpp : p' = p := by
      have hinj := List.inj_on_of_nodup_map huniq
      exact hinj hp'S hpS htok
    have hpers : p'.2.persistence ≠ PersistenceType.SINGLE_REQUEST := by
      have := (List.mem_filter.mp hp'P).2
      simpa [isPersistent] using this
    rw [hpp] at hpers
    exact hpers hsingle

end persistent_data

namespace persistent_data

open nlohmann

/-- The session parser modelled from the spec reads back every written session, as a
persistent one. -/
theorem fromJson_sessionJson (s : UserSession) :
    UserSession.fromJson (sessionJson s) =
      some { s with persistence := PersistenceType.TIMEOUT } := by
  cases hc : s.clientId <;>
    simp [UserSession.fromJson, sessionJson, hc, List.lookup, Json.getString]

/-- Witness for C1: the store with `admin` (persistent) and `guest` (per request) is saved and
loaded; only `admin` comes back. -/
theorem save_load_sessions_witness :
    sampleReloadWorld.sessionStore.authTokens = [] ∧
    sampleReloadWorld.file = (writeData sampleWorld).file ∧
    (sampleWorld.sessionStore.authTokens.map (fun p => p.2.sessionToken)).Nodup ∧
    (readData sampleExternals sampleReloadWorld).1.sessionStore.authTokens.map
        (fun q => sessionTriple q.2) = [("tokA", "admin", "10.0.0.5")] ∧
    (∀ q ∈ (readData sampleExternals sampleReloadWorld).1.sessionStore.authTokens,
        q.2.sessionToken ≠ "tokB") := by
  have hnd : (sampleWorld.sessionStore.authTokens.map (fun p => p.2.sessionToken)).Nodup := by
    decide
  have h := save_load_sessions sampleExternals sampleWorld sampleReloadWorld rfl rfl hnd
    (by
      intro p _ _
      exact ⟨_, fromJson_sessionJson p.2, rfl⟩)
  refine ⟨rfl, rfl, hnd, h.1.trans (by decide), ?_⟩
  intro q hq
  exact h.2.2 ("tokB", sampleGuest) (by simp [sampleWorld]) rfl q hq

end persistent_data

namespace boost

theorem uuidToString_ne_empty (u : Uuid) : uuidToString u ≠ "" := by
  intro h
  have h2 := congrArg String.length h
  simp [uuidToString, String.length, List.finRange_succ_eq_map] at h2

end boost

namespace persistent_data

open nlohmann

theorem readItem_fileRevision_of_ne (ext : Externals) (st : ReadState) (k : String) (v : Json)
    (hk : k ≠ "revision") : (readItem ext st (k, v)).fileRevision = st.fileRevision := by
  unfold readItem
  simp only [hk, if_false]
  split_ifs <;> (try split) <;> rfl

theorem readItem_systemUuid_of_ne (ext : Externals) (st : ReadState) (k : String) (v : Json)
    (hk : k ≠ "system_uuid") :
    (readItem ext st (k, v)).world.systemUuid = st.world.systemUuid := by
  unfold readItem
  simp only [hk, if_false]
  split_ifs <;> (try split) <;> rfl

theorem readItems_cons (ext : Externals) (st : ReadState) (item : String × Json)
    (items : List (String × Json)) :
    readItems ext st (item :: items) = readItems ext (readItem ext st item) items := rfl

theorem readItems_append (ext : Externals) (st : ReadState) (xs ys : List (String × Json)) :
    readItems ext st (xs ++ ys) = readItems ext (readItems ext st xs) ys := by
  simp [readItems, List.foldl_append]

/-- With pairwise distinct keys, the revision after the loop is the one under `revision`. -/
theorem readItems_fileRevision (ext : Externals) (items : List (String × Json))
    (st : ReadState) (hnd : (items.map Prod.fst).Nodup) :
    (readItems ext st items).fileRevision =
      match items.lookup "revision" with
      | none => st.fileRevision
      | some v =>
        match v with
        | Json.uint r => r
        | _ => 0 := by
  induction items generalizing st with
  | nil => rfl
  | cons kv items ih =>
    obtain ⟨k, v⟩ := kv
    rw [List.map_cons, List.nodup_cons] at hnd
    rw [readItems_cons, ih _ hnd.2]
    by_cases hk : k = "revision"
    · subst hk
      have hnone : items.lookup "revision" = none := by
        rw [List.lookup_eq_none_iff]
        intro p hp
        have hmem : p.1 ∈ items.map Prod.fst := List.mem_map_of_mem _ hp
        have hne : p.1 ≠ "revision" := fun hpk => hnd.1 (by rw [hpk] at hmem; exact hmem)
        simpa using Ne.symm hne
      simp only [hnone, List.lookup_cons, beq_self_eq_true]
      cases v <;> simp [readItem, Json.getUint]
    · have hne : ("revision" == k) = false := by
        simp [Ne.symm hk]
      simp only [List.lookup_cons, hne, readItem_fileRevision_of_ne ext st k v hk]

/-- With pairwise distinct keys, the identity after the loop is the string under
`system_uuid`, if there is one. -/
theorem readItems_systemUuid (ext : Externals) (items : List (String × Json))
    (st : ReadState) (hnd : (items.map Prod.fst).Nodup) :
    (readItems ext st items).world.systemUuid =
      match items.lookup "system_uuid" with
      | some (Json.str u) => u
      | _ => st.world.systemUuid := by
  induction items generalizing st with
  | nil => rfl
  | cons kv items ih =>
    obtain ⟨k, v⟩ := kv
    rw [List.map_cons, List.nodup_cons] at hnd
    rw [readItems_cons, ih _ hnd.2]
    by_cases hk : k = "system_uuid"
    · subst hk
      have hnone : items.lookup "system_uuid" = none := by
        rw [List.lookup_eq_none_iff]
        intro p hp
        have hmem : p.1 ∈ items.map Prod.fst := List.mem_map_of_mem _ hp
        have hne : p.1 ≠ "system_uuid" := fun hpk => hnd.1 (by rw [hpk] at hmem; exact hmem)
        simpa using Ne.symm hne
      simp only [hnone, List.lookup_cons, beq_self_eq_true]
      cases v <;> simp [readItem, Json.getString]
    · have hne : ("system_uuid" == k) = false := by
        simp [Ne.symm hk]
      simp only [List.lookup_cons, hne, readItem_systemUuid_of_ne ext st k v hk]

theorem readFile_fileRevision (ext : Externals) (w : World)
    (hkeys : ∀ f data, w.file = some f → f.content = some data →
      (data.items.map Prod.fst).Nodup) :
    (readFile ext w).fileRevision = declaredRevision w.file := by
  unfold readFile declaredRevision
  cases hf : w.file with
  | none => rfl
  | some f =>
    cases hc : f.content with
    | none => simp [hc]
    | some data =>
      simp only [hc]
      rw [readItems_fileRevision ext data.items _ (hkeys f data hf hc)]

theorem readFile_systemUuid (ext : Externals) (w : World)
    (hkeys : ∀ f data, w.file = some f → f.content = some data →
      (data.items.map Prod.fst).Nodup) :
    (readFile ext w).world.systemUuid = parsedIdentity w := by
  unfold readFile parsedIdentity
  cases hf : w.file with
  | none => rfl
  | some f =>
    cases hc : f.content with
    | none => simp [hc]
    | some data =>
      simp only [hc]
      rw [readItems_systemUuid ext data.items _ (hkeys f data hf hc)]

end persistent_data

namespace persistent_data

open nlohmann

theorem readData_snd (ext : Externals) (w : World) :
    (readData ext w).2 =
      (decide ((readFile ext w).world.systemUuid = "") ||
        decide ((readFile ext w).fileRevision < jsonRevision)) := by
  unfold readData
  simp only []
  split <;> simp_all

theorem readData_systemUuid (ext : Externals) (w : World) :
    (readData ext w).1.systemUuid =
      if (readFile ext w).world.systemUuid = "" then boost.uuidToString ext.randomUuid
      else (readFile ext w).world.systemUuid := by
  unfold readData
  by_cases hu : (readFile ext w).world.systemUuid = ""
  · simp [hu, writeData]
  · by_cases hr : (readFile ext w).fileRevision < jsonRevision
    · simp [hu, hr, writeData]
    · simp [hu, hr]

theorem readData_file_of_write (ext : Externals) (w : World) (h : (readData ext w).2 = true) :
    (readData ext w).1.file =
      some { perms := permission, content := some (writeDataJson (readData ext w).1) } := by
  have h2 := readData_snd ext w
  rw [h] at h2
  unfold readData
  simp only [← h2, if_true]
  rfl

/-- C3: `readData` calls `writeData` exactly when the system identity is empty once the file
is parsed or the file's revision is below 1, the file's revision counting as 0 for an absent
file, a file that is not valid JSON, a file without `revision`, and a `revision` that is not
an unsigned integer (`declaredRevision`).  When it does, the identity is not empty (it is the
freshly generated one if it was empty after parsing, otherwise the parsed one), and the file
then holds a snapshot with `revision` 1 and that identity.  The top-level keys of the file are
pairwise distinct, as the members of a JSON object are. -/
theorem readData_write_iff (ext : Externals) (w : World)
    (hkeys : ∀ f data, w.file = some f → f.content = some data →
      (data.items.map Prod.fst).Nodup) :
    ((readData ext w).2 = true ↔ (parsedIdentity w = "" ∨ declaredRevision w.file < 1)) ∧
    ((readData ext w).1.systemUuid =
      if parsedIdentity w = "" then boost.uuidToString ext.randomUuid else parsedIdentity w) ∧
    ((readData ext w).2 = true →
      (readData ext w).1.systemUuid ≠ "" ∧
      ∃ f data, (readData ext w).1.file = some f ∧ f.content = some data ∧
        data.items.lookup "revision" = some (Json.uint 1) ∧
        data.items.lookup "system_uuid" = some (Json.str (readData ext w).1.systemUuid)) := by
  have hrev := readFile_fileRevision ext w hkeys
  have hid := readFile_systemUuid ext w hkeys
  have huuid := readData_systemUuid ext w
  rw [hid] at huuid
  have hne : (readData ext w).1.systemUuid ≠ "" := by
    rw [huuid]
    split
    · exact boost.uuidToString_ne_empty _
    · assumption
  refine ⟨?_, huuid, ?_⟩
  · rw [readData_snd, hrev, hid]
    simp [jsonRevision]
  · intro hw
    refine ⟨hne, _, _, readData_file_of_write ext w hw, rfl, ?_, ?_⟩
    · simp [writeDataJson, Json.items, List.lookup, jsonRevision]
    · simp [writeDataJson, Json.items, List.lookup]

/-- Witness for C3: a file with an identity and a timeout but no `revision` counts as
revision 0 and is rewritten with revision 1. -/
theorem readData_write_iff_witness :
    (∀ f data, sampleNoRevisionWorld.file = some f → f.content = some data →
      (data.items.map Prod.fst).Nodup) ∧
    declaredRevision sampleNoRevisionWorld.file = 0 ∧
    (readData sampleExternals sampleNoRevisionWorld).2 = true ∧
    (readData sampleExternals sampleNoRevisionWorld).1.systemUuid = "abc" ∧
    ∃ f data, (readData sampleExternals sampleNoRevisionWorld).1.file = some f ∧
      f.content = some data ∧ data.items.lookup "revision" = some (Json.uint 1) := by
  have hk : ∀ f data, sampleNoRevisionWorld.file = some f → f.content = some data →
      (data.items.map Prod.fst).Nodup := by
    intro f data hf hc
    simp only [sampleNoRevisionWorld, Option.some.injEq] at hf
    subst hf
    simp only [Option.some.injEq] at hc
    subst hc
    decide
  have h := readData_write_iff sampleExternals sampleNoRevisionWorld hk
  have hw : (readData sampleExternals sampleNoRevisionWorld).2 = true :=
    h.1.mpr (Or.inr (by decide))
  refine ⟨hk, rfl, hw, ?_, ?_⟩
  · rw [h.2.1]; decide
  · obtain ⟨_, f, data, hf, hc, hr, _⟩ := h.2.2 hw
    exact ⟨f, data, hf, hc, hr⟩

theorem readItem_withFile (ext : Externals) (st : ReadState) (f : Option FileState)
    (item : String × Json) :
    readItem ext (st.withFile f) item = (readItem ext st item).withFile f := by
  unfold readItem ReadState.withFile
  simp only []
  split_ifs <;> (try split) <;> rfl

theorem readItems_withFile (ext : Externals) (items : List (String × Json)) (st : ReadState)
    (f : Option FileState) :
    readItems ext (st.withFile f) items = (readItems ext st items).withFile f := by
  induction items generalizing st with
  | nil => rfl
  | cons item items ih => rw [readItems_cons, readItems_cons, readItem_withFile, ih]

theorem readItem_unknown (ext : Externals) (st : ReadState) (item : String × Json)
    (h : knownKey item.1 = false) : readItem ext st item = st := by
  simp only [knownKey, Bool.or_eq_false_iff, decide_eq_false_iff_not] at h
  obtain ⟨⟨⟨⟨⟨⟨h1, h2⟩, h3⟩, h4⟩, h5⟩, h6⟩, h7⟩ := h
  unfold readItem
  simp only [h1, h2, h3, h4, h5, h6, h7, if_false]

theorem readItems_filter_known (ext : Externals) (items : List (String × Json))
    (st : ReadState) :
    readItems ext st (items.filter (fun kv => knownKey kv.1)) = readItems ext st items := by
  induction items generalizing st with
  | nil => rfl
  | cons item items ih =>
    by_cases hk : knownKey item.1 = true
    · simp only [List.filter_cons, hk, if_true, readItems_cons, ih]
    · have hk' : knownKey item.1 = false := by simpa using hk
      simp only [List.filter_cons, hk', readItems_cons, readItem_unknown ext st item hk']
      exact ih st

end persistent_data

namespace persistent_data

open nlohmann

/-- C5: when the text of the file is not valid JSON, `readData` ends in the same state and
with the same write decision as when the file does not exist, and the session store
(sessions, timeout, auth methods) and the event-service store (subscriptions) are those it
started with. -/
theorem readData_discarded (ext : Externals) (w : World) (perms : Nat) :
    readData ext { w with file := some { perms := perms, content := none } } =
      readData ext { w with file := none } ∧
    (readData ext { w with file := some { perms := perms, content := none } }).1.sessionStore =
      w.sessionStore ∧
    (readData ext
      { w with file := some { perms := perms, content := none } }).1.eventServiceStore =
      w.eventServiceStore := by
  refine ⟨?_, ?_, ?_⟩
  · unfold readData readFile
    by_cases hu : w.systemUuid = "" <;> simp [hu, jsonRevision, writeData, writeDataJson]
  · rw [readData_sessionStore]; rfl
  · rw [readData_eventServiceStore]; rfl

theorem readFile_withSnapshot (ext : Externals) (w : World) (perms : Nat)
    (kvs : List (String × Json)) :
    readFile ext (withSnapshot w perms kvs) =
      (readItems ext { world := w, fileRevision := 0 }
          (kvs.filter (fun kv => knownKey kv.1))).withFile
        (some { perms := perms, content := some (Json.obj kvs) }) := by
  rw [readItems_filter_known, ← readItems_withFile]
  rfl

/-- C6: two snapshots whose members agree once every key other than `revision`,
`system_uuid`, `auth_config`, `sessions`, `timeout`, `eventservice_config` and
`subscriptions` is left out (so one is the other with such keys added or removed) load to
the same session store, the same event-service store and the same system identity, and to
the same decision whether to rewrite the file. -/
theorem readData_unknown_keys (ext : Externals) (w : World) (perms perms' : Nat)
    (kvs kvs' : List (String × Json))
    (h : kvs.filter (fun kv => knownKey kv.1) = kvs'.filter (fun kv => knownKey kv.1)) :
    (readData ext (withSnapshot w perms kvs)).2 =
      (readData ext (withSnapshot w perms' kvs')).2 ∧
    (readData ext (withSnapshot w perms kvs)).1.sessionStore =
      (readData ext (withSnapshot w perms' kvs')).1.sessionStore ∧
    (readData ext (withSnapshot w perms kvs)).1.eventServiceStore =
      (readData ext (withSnapshot w perms' kvs')).1.eventServiceStore ∧
    (readData ext (withSnapshot w perms kvs)).1.systemUuid =
      (readData ext (withSnapshot w perms' kvs')).1.systemUuid := by
  have h1 := readFile_withSnapshot ext w perms kvs
  have h2 := readFile_withSnapshot ext w perms' kvs'
  rw [← h] at h2
  refine ⟨?_, ?_, ?_, ?_⟩
  · rw [readData_snd, readData_snd, h1, h2]; rfl
  · rw [readData_sessionStore, readData_sessionStore, h1, h2]; rfl
  · rw [readData_eventServiceStore, readData_eventServiceStore, h1, h2]; rfl
  · rw [readData_systemUuid, readData_systemUuid, h1, h2]; rfl

/-- Witness for C6: a snapshot with the keys `future_field` and `zeta` added loads like the
one without them. -/
theorem readData_unknown_keys_witness :
    sampleExtraKeys.filter (fun kv => knownKey kv.1) =
      samplePlainKeys.filter (fun kv => knownKey kv.1) ∧
    (readData sampleExternals (withSnapshot sampleEmptyWorld 0o640 sampleExtraKeys)).2 =
      (readData sampleExternals (withSnapshot sampleEmptyWorld 0o640 samplePlainKeys)).2 ∧
    (readData sampleExternals (withSnapshot sampleEmptyWorld 0o640 sampleExtraKeys)).1.systemUuid
      = "abc" ∧
    (readData sampleExternals
      (withSnapshot sampleEmptyWorld 0o640 samplePlainKeys)).1.systemUuid = "abc" := by
  have hf : sampleExtraKeys.filter (fun kv => knownKey kv.1) =
      samplePlainKeys.filter (fun kv => knownKey kv.1) := by
    simp [sampleExtraKeys, samplePlainKeys, knownKey]
  have h := readData_unknown_keys sampleExternals sampleEmptyWorld 0o640 0o640
    sampleExtraKeys samplePlainKeys hf
  have hp : (readData sampleExternals
      (withSnapshot sampleEmptyWorld 0o640 samplePlainKeys)).1.systemUuid = "abc" := by
    rw [readData_systemUuid]; decide
  exact ⟨hf, h.1, h.2.2.2.trans hp, hp⟩

end persistent_data

namespace persistent_data

open nlohmann

theorem mem_loadSessions_of_mem (ext : Externals) (es : List Json)
    (m : List (String × UserSession)) (q : String × UserSession) (hq : q ∈ m) :
    q ∈ loadSessions ext es m := by
  induction es generalizing m with
  | nil => exact hq
  | cons e es ih =>
    rw [loadSessions_cons]
    apply ih
    split
    · exact hq
    · exact subset_emplace _ _ _ q hq

theorem mem_loadSubscriptions_of_mem (ext : Externals) (es : List Json)
    (m : List (String × UserSubscription)) (q : String × UserSubscription) (hq : q ∈ m) :
    q ∈ loadSubscriptions ext es m := by
  induction es generalizing m with
  | nil => exact hq
  | cons e es ih =>
    rw [loadSubscriptions_cons]
    apply ih
    split
    · exact hq
    · exact subset_emplace _ _ _ q hq

theorem mem_loadSessions_accepted (ext : Externals) (before after : List Json) (e : Json)
    (s : UserSession) (m : List (String × UserSession))
    (hs : ext.sessionFromJson e = some s)
    (hfresh : s.sessionToken ∉ (loadSessions ext before m).map Prod.fst) :
    (s.sessionToken, s) ∈ loadSessions ext (before ++ e :: after) m := by
  rw [loadSessions_append, loadSessions_cons, hs]
  apply mem_loadSessions_of_mem
  simp only [emplace_of_not_mem _ _ _ hfresh]
  exact List.mem_append_right _ (List.mem_singleton_self _)

theorem mem_loadSubscriptions_accepted (ext : Externals) (before after : List Json) (e : Json)
    (u : UserSubscription) (m : List (String × UserSubscription))
    (hu : ext.subscriptionFromJson e = some u)
    (hfresh : u.id ∉ (loadSubscriptions ext before m).map Prod.fst) :
    (u.id, u) ∈ loadSubscriptions ext (before ++ e :: after) m := by
  rw [loadSubscriptions_append, loadSubscriptions_cons, hu]
  apply mem_loadSubscriptions_of_mem
  simp only [emplace_of_not_mem _ _ _ hfresh]
  exact List.mem_append_right _ (List.mem_singleton_self _)

theorem loadSessions_filter (ext : Externals) (es : List Json)
    (m : List (String × UserSession)) :
    loadSessions ext (es.filter (fun e => (ext.sessionFromJson e).isSome)) m =
      loadSessions ext es m := by
  induction es generalizing m with
  | nil => rfl
  | cons e es ih =>
    cases h : ext.sessionFromJson e with
    | none => simp only [List.filter_cons, h, Option.isSome_none, loadSessions_cons]
              exact ih m
    | some s => simp only [List.filter_cons, h, Option.isSome_some, if_true, loadSessions_cons,
                  ih]

theorem loadSubscriptions_filter (ext : Externals) (es : List Json)
    (m : List (String × UserSubscription)) :
    loadSubscriptions ext (es.filter (fun e => (ext.subscriptionFromJson e).isSome)) m =
      loadSubscriptions ext es m := by
  induction es generalizing m with
  | nil => rfl
  | cons e es ih =>
    cases h : ext.subscriptionFromJson e with
    | none => simp only [List.filter_cons, h, Option.isSome_none, loadSubscriptions_cons]
              exact ih m
    | some s => simp only [List.filter_cons, h, Option.isSome_some, if_true,
                  loadSubscriptions_cons, ih]

theorem readItem_authTokens_mono (ext : Externals) (st : ReadState) (item : String × Json)
    (q : String × UserSession) (hq : q ∈ st.world.sessionStore.authTokens) :
    q ∈ (readItem ext st item).world.sessionStore.authTokens := by
  unfold readItem
  simp only []
  split_ifs <;> (try split) <;> first
    | exact hq
    | exact mem_loadSessions_of_mem ext _ _ q hq

theorem readItem_subscriptions_mono (ext : Externals) (st : ReadState) (item : String × Json)
    (q : String × UserSubscription)
    (hq : q ∈ st.world.eventServiceStore.subscriptionsConfigMap) :
    q ∈ (readItem ext st item).world.eventServiceStore.subscriptionsConfigMap := by
  unfold readItem
  simp only []
  split_ifs <;> (try split) <;> first
    | exact hq
    | exact mem_loadSubscriptions_of_mem ext _ _ q hq

theorem readItems_authTokens_mono (ext : Externals) (items : List (String × Json))
    (st : ReadState) (q : String × UserSession)
    (hq : q ∈ st.world.sessionStore.authTokens) :
    q ∈ (readItems ext st items).world.sessionStore.authTokens := by
  induction items generalizing st with
  | nil => exact hq
  | cons item items ih =>
    rw [readItems_cons]
    exact ih _ (readItem_authTokens_mono ext st item q hq)

theorem readItems_subscriptions_mono (ext : Externals) (items : List (String × Json))
    (st : ReadState) (q : String × UserSubscription)
    (hq : q ∈ st.world.eventServiceStore.subscriptionsConfigMap) :
    q ∈ (readItems ext st items).world.eventServiceStore.subscriptionsConfigMap := by
  induction items generalizing st with
  | nil => exact hq
  | cons item items ih =>
    rw [readItems_cons]
    exact ih _ (readItem_subscriptions_mono ext st item q hq)

theorem readItem_sessions (ext : Externals) (st : ReadState) (elems : List Json) :
    (readItem ext st ("sessions", Json.arr elems)).world.sessionStore.authTokens =
      loadSessions ext elems st.world.sessionStore.authTokens := by
  simp [readItem, Json.elems]

theorem readItem_subscriptions (ext : Externals) (st : ReadState) (elems : List Json) :
    (readItem ext st ("subscriptions", Json.arr elems)).world.eventServiceStore.subscriptionsConfigMap
      = loadSubscriptions ext elems st.world.eventServiceStore.subscriptionsConfigMap := by
  simp [readItem, Json.elems]

theorem readItem_sessions_filter (ext : Externals) (st : ReadState) (elems : List Json) :
    readItem ext st
        ("sessions", Json.arr (elems.filter (fun e => (ext.sessionFromJson e).isSome))) =
      readItem ext st ("sessions", Json.arr elems) := by
  simp [readItem, Json.elems, loadSessions_filter]

theorem readItem_subscriptions_filter (ext : Externals) (st : ReadState) (elems : List Json) :
    readItem ext st ("subscriptions",
        Json.arr (elems.filter (fun e => (ext.subscriptionFromJson e).isSome))) =
      readItem ext st ("subscriptions", Json.arr elems) := by
  simp [readItem, Json.elems, loadSubscriptions_filter]

theorem readFile_withSnapshot_items (ext : Externals) (w : World) (perms : Nat)
    (kvs : List (String × Json)) :
    readFile ext (withSnapshot w perms kvs) =
      (readItems ext { world := w, fileRevision := 0 } kvs).withFile
        (some { perms := perms, content := some (Json.obj kvs) }) := by
  rw [← readItems_withFile]
  rfl

theorem sameOutcome_of_readItems (ext : Externals) (w : World) (perms : Nat)
    (kvs kvs' : List (String × Json))
    (h : readItems ext { world := w, fileRevision := 0 } kvs =
      readItems ext { world := w, fileRevision := 0 } kvs') :
    sameOutcome (readData ext (withSnapshot w perms kvs))
      (readData ext (withSnapshot w perms kvs')) := by
  have h1 := readFile_withSnapshot_items ext w perms kvs
  have h2 := readFile_withSnapshot_items ext w perms kvs'
  rw [← h] at h2
  refine ⟨?_, ?_, ?_, ?_⟩
  · rw [readData_snd, readData_snd, h1, h2]; rfl
  · rw [readData_sessionStore, readData_sessionStore, h1, h2]; rfl
  · rw [readData_eventServiceStore, readData_eventServiceStore, h1, h2]; rfl
  · rw [readData_systemUuid, readData_systemUuid, h1, h2]; rfl

end persistent_data

namespace persistent_data

open nlohmann

/-- C4: in a snapshot whose `sessions` array is `before ++ e :: after`, an element `e` that
the session parser accepts and whose token is in the map neither before the array is reached
nor after the elements before `e` are loaded ends up in the session map under its token,
whatever `before` and `after` hold; likewise for an accepted element of the `subscriptions`
array and its id.  And loading a snapshot gives the same stores, identity and rewrite
decision as loading it with every rejected element taken out of its `sessions` (or
`subscriptions`) array: a rejected element adds nothing and stops neither the elements nor
the top-level keys after it. -/
theorem readData_skips_bad_records (ext : Externals) (w : World) (perms : Nat)
    (pre post : List (String × Json)) (elems before after : List Json)
    (e : Json) (s : UserSession) (e' : Json) (u : UserSubscription)
    (hs : ext.sessionFromJson e = some s)
    (hfresh : s.sessionToken ∉
      (loadSessions ext before
        (readItems ext { world := w, fileRevision := 0 } pre).world.sessionStore.authTokens).map
          Prod.fst)
    (hu : ext.subscriptionFromJson e' = some u)
    (hfresh' : u.id ∉
      (loadSubscriptions ext before
        (readItems ext { world := w, fileRevision := 0 }
          pre).world.eventServiceStore.subscriptionsConfigMap).map Prod.fst) :
    (s.sessionToken, s) ∈
      (readData ext (withSnapshot w perms
        (pre ++ ("sessions", Json.arr (before ++ e :: after)) :: post))).1.sessionStore.authTokens ∧
    (u.id, u) ∈
      (readData ext (withSnapshot w perms
        (pre ++ ("subscriptions", Json.arr (before ++ e' :: after)) ::
          post))).1.eventServiceStore.subscriptionsConfigMap ∧
    sameOutcome
      (readData ext (withSnapshot w perms (pre ++ ("sessions", Json.arr elems) :: post)))
      (readData ext (withSnapshot w perms
        (pre ++ ("sessions",
          Json.arr (elems.filter (fun x => (ext.sessionFromJson x).isSome))) :: post))) ∧
    sameOutcome
      (readData ext (withSnapshot w perms (pre ++ ("subscriptions", Json.arr elems) :: post)))
      (readData ext (withSnapshot w perms
        (pre ++ ("subscriptions",
          Json.arr (elems.filter (fun x => (ext.subscriptionFromJson x).isSome))) :: post))) := by
  refine ⟨?_, ?_, ?_, ?_⟩
  · rw [readData_sessionStore, readFile_withSnapshot_items]
    show _ ∈ (readItems ext _ _).world.sessionStore.authTokens
    rw [readItems_append, readItems_cons]
    apply readItems_authTokens_mono
    rw [readItem_sessions]
    exact mem_loadSessions_accepted ext before after e s _ hs hfresh
  · rw [readData_eventServiceStore, readFile_withSnapshot_items]
    show _ ∈ (readItems ext _ _).world.eventServiceStore.subscriptionsConfigMap
    rw [readItems_append, readItems_cons]
    apply readItems_subscriptions_mono
    rw [readItem_subscriptions]
    exact mem_loadSubscriptions_accepted ext before after e' u _ hu hfresh'
  · apply sameOutcome_of_readItems
    rw [readItems_append, readItems_append, readItems_cons, readItems_cons,
      readItem_sessions_filter]
  · apply sameOutcome_of_readItems
    rw [readItems_append, readItems_append, readItems_cons, readItems_cons,
      readItem_subscriptions_filter]

/-- Witness for C4: the written object of `admin` between a `null` and a stray string, and a
subscription object between the same two, are loaded. -/
theorem readData_skips_bad_records_witness :
    sampleExternals.sessionFromJson (sessionJson sampleAdmin) = some sampleAdminRead ∧
    sampleExternals.subscriptionFromJson sampleSubscriptionJson = some sampleSubscription ∧
    ("tokA", sampleAdminRead) ∈
      (readData sampleExternals (withSnapshot sampleEmptyWorld 0o640
        ([("revision", Json.uint 1)] ++
          ("sessions", Json.arr ([Json.null] ++ sessionJson sampleAdmin :: [Json.str "x"])) ::
          [("system_uuid", Json.str "abc")]))).1.sessionStore.authTokens ∧
    ("sub1", sampleSubscription) ∈
      (readData sampleExternals (withSnapshot sampleEmptyWorld 0o640
        ([("revision", Json.uint 1)] ++
          ("subscriptions", Json.arr ([Json.null] ++ sampleSubscriptionJson :: [Json.str "x"])) ::
          [("system_uuid", Json.str "abc")]))).1.eventServiceStore.subscriptionsConfigMap := by
  have hs : sampleExternals.sessionFromJson (sessionJson sampleAdmin) = some sampleAdminRead := by
    decide
  have hu : sampleExternals.subscriptionFromJson sampleSubscriptionJson =
      some sampleSubscription := by decide
  have h := readData_skips_bad_records sampleExternals sampleEmptyWorld 0o640
    [("revision", Json.uint 1)] [("system_uuid", Json.str "abc")] [] [Json.null]
    [Json.str "x"] (sessionJson sampleAdmin) sampleAdminRead sampleSubscriptionJson
    sampleSubscription hs (by decide) hu (by decide)
  exact ⟨hs, hu, h.1, h.2.1⟩

end persistent_data

/-! ## Dump and crashdump task callbacks -/

namespace redfish

open messages task DumpCreationProgress

theorem getDumpCompletionStatus_cons_skip (p : String × String) (rest : List (String × String))
    (t : TaskData) (objPath : String) (h1 : p.1 ≠ "Status") (h2 : p.1 ≠ "DumpRequestStatus") :
    getDumpCompletionStatus (p :: rest) t objPath = getDumpCompletionStatus rest t objPath := by
  rw [getDumpCompletionStatus]
  simp only [h1, h2, if_false]

theorem getDumpCompletionStatus_cons_decisive (p : String × String)
    (rest : List (String × String)) (t : TaskData) (objPath : String)
    (h : p.1 = "Status" ∨ p.1 = "DumpRequestStatus") :
    getDumpCompletionStatus (p :: rest) t objPath = getDumpCompletionStatus [p] t objPath := by
  rcases h with h | h
  · rw [getDumpCompletionStatus, getDumpCompletionStatus]
    simp only [h, if_true]
  · have hne : p.1 ≠ "Status" := by rw [h]; decide
    rw [getDumpCompletionStatus, getDumpCompletionStatus]
    simp only [h, hne, if_true, if_false]

/-- The status is decided by the first property named `Status` or `DumpRequestStatus`. -/
theorem getDumpCompletionStatus_first (values : List (String × String)) (t : TaskData)
    (objPath : String) :
    getDumpCompletionStatus values t objPath =
      match firstStatusProperty values with
      | none => (DUMP_CREATE_INPROGRESS, t)
      | some p => getDumpCompletionStatus [p] t objPath := by
  induction values with
  | nil => rfl
  | cons p rest ih =>
    by_cases h : p.1 = "Status" ∨ p.1 = "DumpRequestStatus"
    · have hf : firstStatusProperty (p :: rest) = some p := by
        unfold firstStatusProperty
        rw [List.find?_cons_of_pos]
        simpa using h
      rw [hf]
      exact getDumpCompletionStatus_cons_decisive p rest t objPath h
    · have hf : firstStatusProperty (p :: rest) = firstStatusProperty rest := by
        unfold firstStatusProperty
        rw [List.find?_cons_of_neg]
        simpa using h
      rw [hf, ← ih]
      push_neg at h
      exact getDumpCompletionStatus_cons_skip p rest t objPath h.1 h.2

/-- When the status is "in progress" the task comes back as it went in, or with its state
set to `Running`. -/
theorem getDumpCompletionStatus_inprogress (values : List (String × String)) (t : TaskData)
    (objPath : String)
    (h : (getDumpCompletionStatus values t objPath).1 = DUMP_CREATE_INPROGRESS) :
    (getDumpCompletionStatus values t objPath).2 = t ∨
    (getDumpCompletionStatus values t objPath).2 = { t with state := "Running" } := by
  induction values with
  | nil => left; rfl
  | cons p rest ih =>
    rw [getDumpCompletionStatus] at h ⊢
    split_ifs at h ⊢ <;> first
      | exact Or.inl rfl
      | exact Or.inr rfl
      | exact ih h

end redfish

namespace redfish

open messages task DumpCreationProgress

/-- C7: for the callback `createDumpTaskCallback` registers for a dump type, an event without
error whose first property named `Status` or `DumpRequestStatus` is `Status` with the value
`xyz.openbmc_project.Common.Progress.OperationStatus.Completed`, delivered to a task that
holds a payload, appends the one message `success`, appends the header
`Location: ` + entry URI of the dump type + `urlEncode(dumpId)` to the payload, sets the
state to `Completed` and returns `task::completed`; nothing else of the task changes. -/
theorem dumpTask_completed (urlEncode : String → String) (createdObjPath : ObjectPath)
    (entryPath : String)
    (cb : Bool → List (String × String) → TaskData → Option (Bool × TaskData))
    (values : List (String × String)) (taskData : TaskData) (p : Payload)
    (hcb : createDumpTaskMatch urlEncode createdObjPath = some cb)
    (hentry : dumpEntryPath createdObjPath.parentPath = some entryPath)
    (hfirst : firstStatusProperty values =
      some ("Status", "xyz.openbmc_project.Common.Progress.OperationStatus.Completed"))
    (hpayload : taskData.payload = some p) :
    cb false values taskData =
      some (task.completed,
        { taskData with
            messages := taskData.messages ++ [Message.success],
            payload := some { p with httpHeaders := p.httpHeaders ++
              ["Location: " ++ entryPath ++ urlEncode createdObjPath.filename] },
            state := "Completed" }) := by
  have hcb' : cb = dumpTaskCallback urlEncode createdObjPath entryPath createdObjPath.filename := by
    unfold createDumpTaskMatch at hcb
    rw [hentry] at hcb
    split_ifs at hcb
    simp only [Option.some.injEq] at hcb
    exact hcb.symm
  have hst : getDumpCompletionStatus values taskData createdObjPath.str =
      (DUMP_CREATE_SUCCESS, taskData) := by
    rw [getDumpCompletionStatus_first, hfirst]
    simp [getDumpCompletionStatus]
  subst hcb'
  simp [dumpTaskCallback, hst, hpayload]

/-- Witness for C7: a BMC dump entry `42` completes. -/
theorem dumpTask_completed_witness :
    createDumpTaskMatch id sampleBmcDump =
      some (dumpTaskCallback id sampleBmcDump
        "/redfish/v1/Managers/bmc/LogServices/Dump/Entries/" "42") ∧
    dumpEntryPath sampleBmcDump.parentPath =
      some "/redfish/v1/Managers/bmc/LogServices/Dump/Entries/" ∧
    firstStatusProperty
        [("StartTime", "0"),
         ("Status", "xyz.openbmc_project.Common.Progress.OperationStatus.Completed")] =
      some ("Status", "xyz.openbmc_project.Common.Progress.OperationStatus.Completed") ∧
    sampleTask.payload = some { httpHeaders := ["Host: bmc"] } ∧
    dumpTaskCallback id sampleBmcDump "/redfish/v1/Managers/bmc/LogServices/Dump/Entries/" "42"
        false
        [("StartTime", "0"),
         ("Status", "xyz.openbmc_project.Common.Progress.OperationStatus.Completed")]
        sampleTask =
      some (true,
        { index := 7, state := "Completed", messages := [Message.success],
          payload := some { httpHeaders :=
            ["Host: bmc", "Location: /redfish/v1/Managers/bmc/LogServices/Dump/Entries/42"] },
          timerExpiry := some 1200 }) := by
  have h1 : createDumpTaskMatch id sampleBmcDump =
      some (dumpTaskCallback id sampleBmcDump
        "/redfish/v1/Managers/bmc/LogServices/Dump/Entries/" "42") := by
    simp [createDumpTaskMatch, sampleBmcDump, dumpEntryPath]
  have h2 : dumpEntryPath sampleBmcDump.parentPath =
      some "/redfish/v1/Managers/bmc/LogServices/Dump/Entries/" := by decide
  have h3 : firstStatusProperty
        [("StartTime", "0"),
         ("Status", "xyz.openbmc_project.Common.Progress.OperationStatus.Completed")] =
      some ("Status", "xyz.openbmc_project.Common.Progress.OperationStatus.Completed") := by
    decide
  have h4 : sampleTask.payload = some { httpHeaders := ["Host: bmc"] } := rfl
  exact ⟨h1, h2, h3, h4, (dumpTask_completed id sampleBmcDump _ _ _ sampleTask _ h1 h2 h3 h4).trans
    (by decide)⟩

/-- C8, the code at the failing input: an event without error whose only property is
`Status` = `...OperationStatus.Failed` is classified `DUMP_CREATE_FAILED`, the callback sets
the state to `Cancelled` and returns `task::completed`, and the message list is the one the
task had before: no message is appended. -/
theorem dumpTask_status_failed_appends_nothing (urlEncode : String → String)
    (createdObjPath : ObjectPath) (entryPath dumpId : String) (taskData : TaskData) :
    (getDumpCompletionStatus
        [("Status", "xyz.openbmc_project.Common.Progress.OperationStatus.Failed")]
        taskData createdObjPath.str).1 = DUMP_CREATE_FAILED ∧
    dumpTaskCallback urlEncode createdObjPath entryPath dumpId false
        [("Status", "xyz.openbmc_project.Common.Progress.OperationStatus.Failed")] taskData =
      some (task.completed, { taskData with state := "Cancelled" }) := by
  constructor <;> simp [dumpTaskCallback, getDumpCompletionStatus]

/-- C9 as stated fails for the crashdump callback: delivered an error, it returns
`task::completed` but the running sample task stays `Running` and gains no message. -/
theorem crashdump_error_counterexample :
    ¬ ((crashdumpTaskCallback true sampleTask).1 = task.completed ∧
       ((crashdumpTaskCallback true sampleTask).2.state = "Exception" ∨
        (crashdumpTaskCallback true sampleTask).2.state = "Cancelled") ∧
       sampleTask.messages.length < (crashdumpTaskCallback true sampleTask).2.messages.length) := by
  decide

/-- C9 amended: on an event delivered with an error both callbacks return `task::completed`;
the dump-creation callback sets the state to `Cancelled` and appends the one message
`internalError`, changing nothing else, and the crashdump callback leaves the task as it
is. -/
theorem task_error_event (urlEncode : String → String) (createdObjPath : ObjectPath)
    (entryPath dumpId : String) (values : List (String × String)) (taskData : TaskData) :
    dumpTaskCallback urlEncode createdObjPath entryPath dumpId true values taskData =
      some (task.completed,
        { taskData with messages := taskData.messages ++ [Message.internalError],
                        state := "Cancelled" }) ∧
    crashdumpTaskCallback true taskData = (task.completed, taskData) := by
  constructor
  · simp [dumpTaskCallback]
  · simp [crashdumpTaskCallback]

/-- C10: for an event without error that `getDumpCompletionStatus` classifies
`DUMP_CREATE_INPROGRESS`, the dump-creation callback returns "not completed" with a task whose
messages, payload (hence headers), timer expiry and index are those it had; its state is the
one it had or `Running`, so a `Running` task is still `Running`. -/
theorem dumpTask_inprogress (urlEncode : String → String) (createdObjPath : ObjectPath)
    (entryPath dumpId : String) (values : List (String × String)) (taskData : TaskData)
    (h : (getDumpCompletionStatus values taskData createdObjPath.str).1 =
      DUMP_CREATE_INPROGRESS) :
    ∃ t, dumpTaskCallback urlEncode createdObjPath entryPath dumpId false values taskData =
        some (!task.completed, t) ∧
      t.messages = taskData.messages ∧ t.payload = taskData.payload ∧
      t.timerExpiry = taskData.timerExpiry ∧ t.index = taskData.index ∧
      (t.state = taskData.state ∨ t.state = "Running") ∧
      (taskData.state = "Running" → t.state = "Running") := by
  refine ⟨(getDumpCompletionStatus values taskData createdObjPath.str).2, ?_, ?_⟩
  · simp [dumpTaskCallback, h]
  · rcases getDumpCompletionStatus_inprogress values taskData createdObjPath.str h with h2 | h2
    · rw [h2]
      exact ⟨rfl, rfl, rfl, rfl, Or.inl rfl, fun hr => hr⟩
    · rw [h2]
      exact ⟨rfl, rfl, rfl, rfl, Or.inr rfl, fun _ => rfl⟩

/-- Witness for C10: a `Status` of `...OperationStatus.InProgress` leaves the sample task as
it is. -/
theorem dumpTask_inprogress_witness :
    (getDumpCompletionStatus
        [("Status", "xyz.openbmc_project.Common.Progress.OperationStatus.InProgress")]
        sampleTask sampleBmcDump.str).1 = DUMP_CREATE_INPROGRESS ∧
    ∃ t, dumpTaskCallback id sampleBmcDump
          "/redfish/v1/Managers/bmc/LogServices/Dump/Entries/" "42" false
          [("Status", "xyz.openbmc_project.Common.Progress.OperationStatus.InProgress")]
          sampleTask = some (false, t) ∧
      t.messages = [] ∧ t.payload = some { httpHeaders := ["Host: bmc"] } ∧
      t.timerExpiry = some 1200 ∧ t.state = "Running" := by
  have h1 : (getDumpCompletionStatus
        [("Status", "xyz.openbmc_project.Common.Progress.OperationStatus.InProgress")]
        sampleTask sampleBmcDump.str).1 = DUMP_CREATE_INPROGRESS := by decide
  obtain ⟨t, ht, hm, hp, he, _, _, hs⟩ := dumpTask_inprogress id sampleBmcDump
    "/redfish/v1/Managers/bmc/LogServices/Dump/Entries/" "42" _ sampleTask h1
  exact ⟨h1, t, ht, hm, hp, he, hs rfl⟩

end redfish

namespace redfish

open messages task DumpCreationProgress

theorem ends_with_exclusive (v a b : String) (hlen : a.toList.length ≤ b.toList.length)
    (hne : a.toList.isSuffixOf b.toList = false)
    (ha : ends_with v a = true) (hb : ends_with v b = true) : False := by
  unfold ends_with at ha hb
  rw [List.isSuffixOf_iff_suffix] at ha hb
  have h := List.suffix_of_suffix_length_le ha hb hlen
  rw [← List.isSuffixOf_iff_suffix, hne] at h
  exact Bool.noConfusion h

/-- A `DumpRequestStatus` ending in `Success` as first status property sets the state to
`Running` and is "in progress". -/
theorem getDumpCompletionStatus_success (values : List (String × String)) (t : TaskData)
    (objPath v : String)
    (hfirst : firstStatusProperty values = some ("DumpRequestStatus", v))
    (hv : ends_with v "Success" = true) :
    getDumpCompletionStatus values t objPath =
      (DUMP_CREATE_INPROGRESS, { t with state := "Running" }) := by
  have h1 : ends_with v "PermissionDenied" = false := by
    cases h : ends_with v "PermissionDenied"
    · rfl
    · exact (ends_with_exclusive v "Success" "PermissionDenied" (by decide) (by decide) hv h).elim
  have h2 : ends_with v "AcfFileInvalid" = false := by
    cases h : ends_with v "AcfFileInvalid"
    · rfl
    · exact (ends_with_exclusive v "Success" "AcfFileInvalid" (by decide) (by decide) hv h).elim
  have h3 : ends_with v "PasswordInvalid" = false := by
    cases h : ends_with v "PasswordInvalid"
    · rfl
    · exact (ends_with_exclusive v "Success" "PasswordInvalid" (by decide) (by decide) hv h).elim
  have h4 : ends_with v "ResourceSelectorInvalid" = false := by
    cases h : ends_with v "ResourceSelectorInvalid"
    · rfl
    · exact (ends_with_exclusive v "Success" "ResourceSelectorInvalid" (by decide) (by decide)
        hv h).elim
  rw [getDumpCompletionStatus_first, hfirst]
  simp [getDumpCompletionStatus, h1, h2, h3, h4, hv]

/-- The state changes only through a `DumpRequestStatus` ending in `Success`, found as first
status property; the status is then "in progress" and the new state `Running`. -/
theorem getDumpCompletionStatus_state_change (values : List (String × String)) (t : TaskData)
    (objPath : String)
    (h : (getDumpCompletionStatus values t objPath).2.state ≠ t.state) :
    ∃ v, firstStatusProperty values = some ("DumpRequestStatus", v) ∧
      ends_with v "Success" = true := by
  rw [getDumpCompletionStatus_first] at h
  cases hf : firstStatusProperty values with
  | none => rw [hf] at h; exact absurd rfl h
  | some p =>
    rw [hf] at h
    obtain ⟨name, value⟩ := p
    simp only [getDumpCompletionStatus] at h
    split_ifs at h with c1 c2 c3 c4 c5 c6 c7 c8 <;> first
      | exact absurd rfl h
      | exact ⟨value, by rw [c4], c8⟩

end redfish

namespace redfish

open messages task DumpCreationProgress

/-- C11 as stated fails: the crashdump callback, delivered an event without error on a task
that is already `Cancelled`, sets the state to `Completed` and appends a message. -/
theorem terminal_task_event_counterexample :
    ¬ (isTerminal sampleCancelledTask.state = true →
        (crashdumpTaskCallback false sampleCancelledTask).2.state = sampleCancelledTask.state ∧
        (crashdumpTaskCallback false sampleCancelledTask).2.messages =
          sampleCancelledTask.messages) := by
  decide

/-- C11 amended: the two callbacks do not look at the state the task is in, so for a task in
any state, the terminal ones included: the crashdump callback leaves the task as it is on an
event with an error, and on an event without error appends `taskCompletedOK` and sets the
state to `Completed`; the dump-creation callback on an event with an error appends
`internalError` and sets the state to `Cancelled`, and on an event without error that is
classified `DUMP_CREATE_INPROGRESS` and whose first status property is not a
`DumpRequestStatus` ending in `Success` it leaves the task as it is. -/
theorem terminal_task_event (urlEncode : String → String) (createdObjPath : ObjectPath)
    (entryPath dumpId : String) (values : List (String × String)) (t : TaskData) :
    crashdumpTaskCallback true t = (task.completed, t) ∧
    crashdumpTaskCallback false t =
      (task.completed,
        { t with messages := t.messages ++ [Message.taskCompletedOK (toString t.index)],
                 state := "Completed" }) ∧
    dumpTaskCallback urlEncode createdObjPath entryPath dumpId true values t =
      some (task.completed,
        { t with messages := t.messages ++ [Message.internalError], state := "Cancelled" }) ∧
    ((getDumpCompletionStatus values t createdObjPath.str).1 = DUMP_CREATE_INPROGRESS →
      (∀ v, firstStatusProperty values = some ("DumpRequestStatus", v) →
        ends_with v "Success" = false) →
      dumpTaskCallback urlEncode createdObjPath entryPath dumpId false values t =
        some (!task.completed, t)) := by
  refine ⟨by simp [crashdumpTaskCallback], by simp [crashdumpTaskCallback],
    by simp [dumpTaskCallback], ?_⟩
  intro hin hno
  have hsame : (getDumpCompletionStatus values t createdObjPath.str).2 = t := by
    by_cases hst : (getDumpCompletionStatus values t createdObjPath.str).2.state = t.state
    · rcases getDumpCompletionStatus_inprogress values t createdObjPath.str hin with h | h
      · exact h
      · rw [h] at hst ⊢
        cases t
        simp only at hst
        simp [hst]
    · obtain ⟨v, hv, hs⟩ := getDumpCompletionStatus_state_change values t createdObjPath.str hst
      rw [hno v hv] at hs
      exact Bool.noConfusion hs
  simp [dumpTaskCallback, hin, hsame]

/-- Witness for C11 amended: the cancelled sample task and a `Status` of
`...OperationStatus.InProgress`. -/
theorem terminal_task_event_witness :
    isTerminal sampleCancelledTask.state = true ∧
    (getDumpCompletionStatus
        [("Status", "xyz.openbmc_project.Common.Progress.OperationStatus.InProgress")]
        sampleCancelledTask sampleBmcDump.str).1 = DUMP_CREATE_INPROGRESS ∧
    crashdumpTaskCallback true sampleCancelledTask = (true, sampleCancelledTask) ∧
    dumpTaskCallback id sampleBmcDump "/redfish/v1/Managers/bmc/LogServices/Dump/Entries/"
        "42" false
        [("Status", "xyz.openbmc_project.Common.Progress.OperationStatus.InProgress")]
        sampleCancelledTask = some (false, sampleCancelledTask) := by
  have h := terminal_task_event id sampleBmcDump
    "/redfish/v1/Managers/bmc/LogServices/Dump/Entries/" "42"
    [("Status", "xyz.openbmc_project.Common.Progress.OperationStatus.InProgress")]
    sampleCancelledTask
  have hin : (getDumpCompletionStatus
        [("Status", "xyz.openbmc_project.Common.Progress.OperationStatus.InProgress")]
        sampleCancelledTask sampleBmcDump.str).1 = DUMP_CREATE_INPROGRESS := by decide
  refine ⟨by decide, hin, h.1, h.2.2.2 hin ?_⟩
  intro v hv
  simp [firstStatusProperty] at hv

theorem createDumpTaskCallback_accepted (req : Payload) (createdObjPath : ObjectPath)
    (nextIndex now : Nat) (t : TaskData)
    (h : createDumpTaskCallback req createdObjPath nextIndex now = some t) :
    createdObjPath.filename ≠ "" ∧
    (createdObjPath.parentPath = "/xyz/openbmc_project/dump/bmc/entry" ∨
     createdObjPath.parentPath = "/xyz/openbmc_project/dump/system/entry" ∨
     createdObjPath.parentPath = "/xyz/openbmc_project/dump/resource/entry") := by
  unfold createDumpTaskCallback at h
  simp only [] at h
  by_cases c1 : createdObjPath.parentPath = "" ∨ createdObjPath.filename = ""
  · simp [c1] at h
  · have c2 := c1
    push_neg at c2
    refine ⟨c2.2, ?_⟩
    by_contra hn
    push_neg at hn
    simp [dumpEntryPath, hn.1, hn.2.1, hn.2.2, c1] at h

theorem createDumpTaskCallback_state (req : Payload) (str dumpPath dumpId : String)
    (nextIndex now : Nat) (hid : dumpId ≠ "")
    (hp : dumpPath = "/xyz/openbmc_project/dump/bmc/entry" ∨
      dumpPath = "/xyz/openbmc_project/dump/system/entry" ∨
      dumpPath = "/xyz/openbmc_project/dump/resource/entry") :
    createDumpTaskCallback req { str := str, parentPath := dumpPath, filename := dumpId }
        nextIndex now =
      some { index := nextIndex,
             state := if dumpPath = "/xyz/openbmc_project/dump/resource/entry" then "New"
               else "Running",
             messages := [], payload := some req, timerExpiry := some (now + 20 * 60) } := by
  have c1 : contains "/xyz/openbmc_project/dump/bmc/entry" "/resource/" = false := by decide
  have c2 : contains "/xyz/openbmc_project/dump/system/entry" "/resource/" = false := by decide
  have c3 : contains "/xyz/openbmc_project/dump/resource/entry" "/resource/" = true := by
    decide
  rcases hp with rfl | rfl | rfl
  · simp [createDumpTaskCallback, dumpEntryPath, hid, c1, task.createTask,
      task.TaskData.startTimer]
  · simp [createDumpTaskCallback, dumpEntryPath, hid, c2, task.createTask,
      task.TaskData.startTimer]
  · simp [createDumpTaskCallback, dumpEntryPath, hid, c3, task.createTask,
      task.TaskData.startTimer]

end redfish

namespace redfish

open messages task DumpCreationProgress

/-- C12 as stated fails: right after creation the task of a resource dump is not `Running`
(it is `New`) and the task of a BMC dump is not `New` (it is `Running`). -/
theorem createDump_state_counterexample :
    ¬ ((createDumpTaskCallback samplePayload sampleResourceDump 1 0).map (fun t => t.state) =
          some "Running" ∧
       (createDumpTaskCallback samplePayload sampleBmcDump 1 0).map (fun t => t.state) =
          some "New") := by
  decide

/-- C12 amended: a task created by `createDumpTaskCallback` for a BMC dump or a system dump is
in state `Running` right after creation, and the task created for a resource dump (created
object under `/xyz/openbmc_project/dump/resource/entry`) is still in the initial state
`New`. -/
theorem createDump_state_at_creation (req : Payload) (str dumpId : String)
    (nextIndex now : Nat) (hid : dumpId ≠ "") :
    (createDumpTaskCallback req
        { str := str, parentPath := "/xyz/openbmc_project/dump/bmc/entry", filename := dumpId }
        nextIndex now).map (fun t => t.state) = some "Running" ∧
    (createDumpTaskCallback req
        { str := str, parentPath := "/xyz/openbmc_project/dump/system/entry",
          filename := dumpId }
        nextIndex now).map (fun t => t.state) = some "Running" ∧
    (createDumpTaskCallback req
        { str := str, parentPath := "/xyz/openbmc_project/dump/resource/entry",
          filename := dumpId }
        nextIndex now).map (fun t => t.state) = some "New" := by
  refine ⟨?_, ?_, ?_⟩
  · rw [createDumpTaskCallback_state req str _ dumpId nextIndex now hid (Or.inl rfl)]
    simp
  · rw [createDumpTaskCallback_state req str _ dumpId nextIndex now hid (Or.inr (Or.inl rfl))]
    simp
  · rw [createDumpTaskCallback_state req str _ dumpId nextIndex now hid (Or.inr (Or.inr rfl))]
    simp

/-- Witness for C12 amended: dump entries named `42`. -/
theorem createDump_state_at_creation_witness :
    ("42" : String) ≠ "" ∧
    (createDumpTaskCallback samplePayload sampleBmcDump 1 0).map (fun t => t.state) =
      some "Running" ∧
    (createDumpTaskCallback samplePayload
        { str := "/xyz/openbmc_project/dump/resource/entry/42",
          parentPath := "/xyz/openbmc_project/dump/resource/entry", filename := "42" }
        1 0).map (fun t => t.state) = some "New" := by
  have h := createDump_state_at_creation samplePayload
    "/xyz/openbmc_project/dump/resource/entry/42" "42" 1 0 (by decide)
  exact ⟨by decide, by decide, h.2.2⟩

/-- C13: for every dump path `createDumpTaskCallback` accepts, the task it creates is in state
`Running` exactly when the path is not the resource-dump path, and for the resource-dump
path it is in the state `createTask` gave it.  A task that is not `Running` is `Running`
after an event only if the event carries no error and the first property named `Status` or
`DumpRequestStatus` is a `DumpRequestStatus` whose value ends in `Success`, and the callback
then returns "not completed"; and every such event does set the state to `Running` without
completing the task. -/
theorem resource_dump_running_on_success (urlEncode : String → String) (req : Payload)
    (createdObjPath : ObjectPath) (entryPath dumpId : String) (nextIndex now : Nat) :
    (∀ t, createDumpTaskCallback req createdObjPath nextIndex now = some t →
      (t.state = "Running" ↔
        createdObjPath.parentPath ≠ "/xyz/openbmc_project/dump/resource/entry") ∧
      (createdObjPath.parentPath = "/xyz/openbmc_project/dump/resource/entry" →
        t.state = (task.createTask nextIndex).state)) ∧
    (∀ (err : Bool) (values : List (String × String)) (t t' : TaskData) (done : Bool),
      dumpTaskCallback urlEncode createdObjPath entryPath dumpId err values t = some (done, t') →
      t.state ≠ "Running" → t'.state = "Running" →
      err = false ∧ done = false ∧
        ∃ v, firstStatusProperty values = some ("DumpRequestStatus", v) ∧
          ends_with v "Success" = true) ∧
    (∀ (values : List (String × String)) (t : TaskData) (v : String),
      firstStatusProperty values = some ("DumpRequestStatus", v) →
      ends_with v "Success" = true →
      dumpTaskCallback urlEncode createdObjPath entryPath dumpId false values t =
        some (!task.completed, { t with state := "Running" })) := by
  refine ⟨?_, ?_, ?_⟩
  · intro t ht
    obtain ⟨hid, hp⟩ := createDumpTaskCallback_accepted req createdObjPath nextIndex now t ht
    obtain ⟨str, dumpPath, dumpName⟩ := createdObjPath
    have hst := createDumpTaskCallback_state req str dumpPath dumpName nextIndex now hid hp
    rw [ht] at hst
    simp only [Option.some.injEq] at hst
    subst hst
    by_cases hr : dumpPath = "/xyz/openbmc_project/dump/resource/entry"
    · simp [hr, task.createTask]
    · simp [hr]
  · intro err values t t' done h hnr hr
    unfold dumpTaskCallback at h
    cases err with
    | true =>
      simp only [if_true, Option.some.injEq, Prod.mk.injEq] at h
      rw [← h.2] at hr
      simp at hr
    | false =>
      simp only [Bool.false_eq_true, if_false] at h
      split_ifs at h with c1 c2
      · simp only [Option.some.injEq, Prod.mk.injEq] at h
        rw [← h.2] at hr
        simp at hr
      · simp only [Option.some.injEq, Prod.mk.injEq] at h
        have hne : (getDumpCompletionStatus values t createdObjPath.str).2.state ≠ t.state := by
          rw [h.2, hr]
          exact fun heq => hnr heq.symm
        refine ⟨rfl, ?_, getDumpCompletionStatus_state_change values t createdObjPath.str hne⟩
        rw [← h.1]
        rfl
      · split at h
        · exact Option.noConfusion h
        · simp only [Option.some.injEq, Prod.mk.injEq] at h
          rw [← h.2] at hr
          simp at hr
  · intro values t v hf hv
    simp [dumpTaskCallback, getDumpCompletionStatus_success values t createdObjPath.str v hf hv]

/-- Witness for C13: the task of a resource dump is created `New`, and a `DumpRequestStatus`
of `...Success` takes a `New` task to `Running` without completing it. -/
theorem resource_dump_running_on_success_witness :
    createDumpTaskCallback samplePayload sampleResourceDump 4 0 =
      some { sampleNewTask with payload := some samplePayload } ∧
    firstStatusProperty
        [("DumpRequestStatus", "com.ibm.Dump.Entry.Resource.HostResponse.Success")] =
      some ("DumpRequestStatus", "com.ibm.Dump.Entry.Resource.HostResponse.Success") ∧
    ends_with "com.ibm.Dump.Entry.Resource.HostResponse.Success" "Success" = true ∧
    dumpTaskCallback id sampleResourceDump
        "/redfish/v1/Systems/system/LogServices/Dump/Entries/Resource_" "5" false
        [("DumpRequestStatus", "com.ibm.Dump.Entry.Resource.HostResponse.Success")]
        sampleNewTask =
      some (false, { sampleNewTask with state := "Running" }) := by
  have h := resource_dump_running_on_success id samplePayload sampleResourceDump
    "/redfish/v1/Systems/system/LogServices/Dump/Entries/Resource_" "5" 4 0
  have h1 : firstStatusProperty
        [("DumpRequestStatus", "com.ibm.Dump.Entry.Resource.HostResponse.Success")] =
      some ("DumpRequestStatus", "com.ibm.Dump.Entry.Resource.HostResponse.Success") := by
    decide
  have h2 : ends_with "com.ibm.Dump.Entry.Resource.HostResponse.Success" "Success" = true := by
    decide
  exact ⟨by decide, h1, h2, h.2.2 _ sampleNewTask _ h1 h2⟩

end redfish

/-! ## Persistence: shutdown, the file of the current sessions, permissions -/

namespace persistent_data

open nlohmann

theorem foldl_writeCurrentSessions (m : List (String × UserSession)) (acc : List Json) :
    m.foldl (fun sessions p =>
        if p.2.persistence ≠ PersistenceType.SINGLE_REQUEST then
          sessions ++ [currentSessionJson p.2]
        else sessions) acc
      = acc ++ (m.filter isPersistent).map (fun p => currentSessionJson p.2) := by
  induction m generalizing acc with
  | nil => simp
  | cons p m ih =>
    simp only [List.foldl_cons, ih]
    by_cases hp : p.2.persistence = PersistenceType.SINGLE_REQUEST
    · simp [isPersistent, hp]
    · simp [isPersistent, hp]

theorem writeCurrentSessions_eq (m : List (String × UserSession)) :
    writeCurrentSessions m = (m.filter isPersistent).map (fun p => currentSessionJson p.2) := by
  unfold writeCurrentSessions
  rw [foldl_writeCurrentSessions]
  simp

theorem sessionJson_member_token (s : UserSession) :
    (sessionJson s).member "session_token" = some (Json.str s.sessionToken) := by
  cases hc : s.clientId <;> simp [sessionJson, Json.member, hc, List.lookup]

theorem currentSessionJson_keys (s : UserSession) :
    (currentSessionJson s).keys =
      (if s.clientId.isSome then ["client_id"] else []) ++
        ["client_ip", "unique_id", "username"] := by
  cases hc : s.clientId <;> simp [currentSessionJson, Json.keys, hc]

theorem writeDataJson_member_sessions (w : World) :
    (writeDataJson w).member "sessions" =
      some (Json.arr (writeSessions w.sessionStore.authTokens)) := by
  simp [writeDataJson, Json.member, List.lookup]

theorem writeCurrentSessionDataJson_member_sessions (w : World) :
    (writeCurrentSessionDataJson w).member "sessions" =
      some (Json.arr (writeCurrentSessions w.sessionStore.authTokens)) := by
  simp [writeCurrentSessionDataJson, Json.member, List.lookup]

/-- C14: the destructor calls `applySessionTimeouts` first and `writeData` after it exactly
when `needsWrite()` holds for the swept store.  The store it leaves is the swept one.  When
it writes, the `sessions` array of the snapshot is built from the swept store alone, so no
object in it carries the token of a session that is not in the swept store; when it does not
write, the file is left as it is. -/
theorem destructor_sweeps_then_writes (applySessionTimeouts : SessionStore → SessionStore)
    (w : World) :
    (destructor applySessionTimeouts w).2 =
      Call.applySessionTimeouts ::
        (if (applySessionTimeouts w.sessionStore).needWrite = true then [Call.writeData]
         else []) ∧
    (destructor applySessionTimeouts w).1.sessionStore = applySessionTimeouts w.sessionStore ∧
    ((applySessionTimeouts w.sessionStore).needWrite = true →
      ∃ f data, (destructor applySessionTimeouts w).1.file = some f ∧
        f.content = some data ∧
        data.member "sessions" = some (Json.arr
          (((applySessionTimeouts w.sessionStore).authTokens.filter
              (fun p => decide (p.2.persistence ≠ PersistenceType.SINGLE_REQUEST))).map
            (fun p => sessionJson p.2))) ∧
        ∀ token,
          token ∉ (applySessionTimeouts w.sessionStore).authTokens.map
            (fun p => p.2.sessionToken) →
          ∀ elems, data.member "sessions" = some (Json.arr elems) →
            ∀ j ∈ elems, j.member "session_token" ≠ some (Json.str token)) ∧
    ((applySessionTimeouts w.sessionStore).needWrite = false →
      (destructor applySessionTimeouts w).1.file = w.file) := by
  have hp : isPersistent =
      (fun p : String × UserSession =>
        decide (p.2.persistence ≠ PersistenceType.SINGLE_REQUEST)) := rfl
  cases hn : (applySessionTimeouts w.sessionStore).needWrite with
  | false =>
    refine ⟨by simp [destructor, hn], by simp [destructor, hn], by simp, ?_⟩
    intro _
    simp [destructor, hn]
  | true =>
    refine ⟨by simp [destructor, hn], by simp [destructor, hn, writeData], ?_, by simp⟩
    intro _
    have hmem : (writeDataJson
          { w with sessionStore := applySessionTimeouts w.sessionStore }).member "sessions" =
        some (Json.arr (((applySessionTimeouts w.sessionStore).authTokens.filter
            (fun p => decide (p.2.persistence ≠ PersistenceType.SINGLE_REQUEST))).map
          (fun p => sessionJson p.2))) := by
      rw [writeDataJson_member_sessions, writeSessions_eq, hp]
    refine ⟨{ perms := permission,
              content := some (writeDataJson
                { w with sessionStore := applySessionTimeouts w.sessionStore }) },
      _, by simp [destructor, hn, writeData], rfl, hmem, ?_⟩
    intro token htok elems helems j hj hjt
    rw [hmem] at helems
    simp only [Option.some.injEq, Json.arr.injEq] at helems
    subst helems
    obtain ⟨p, hpm, rfl⟩ := List.mem_map.mp hj
    rw [sessionJson_member_token] at hjt
    simp only [Option.some.injEq, Json.str.injEq] at hjt
    apply htok
    rw [← hjt]
    exact List.mem_map_of_mem (fun p => p.2.sessionToken) (List.mem_filter.mp hpm).1

/-- Witness for C14: the sweep removes the session `tokA` and marks the store dirty; the
snapshot written holds the one persistent session left. -/
theorem destructor_sweeps_then_writes_witness :
    (sampleSweep sampleShutdownWorld.sessionStore).needWrite = true ∧
    "tokA" ∉ (sampleSweep sampleShutdownWorld.sessionStore).authTokens.map
      (fun p => p.2.sessionToken) ∧
    (destructor sampleSweep sampleShutdownWorld).2 =
      [Call.applySessionTimeouts, Call.writeData] ∧
    ∃ f data, (destructor sampleSweep sampleShutdownWorld).1.file = some f ∧
      f.content = some data ∧
      data.member "sessions" = some (Json.arr [sessionJson sampleOperator]) ∧
      ∀ elems, data.member "sessions" = some (Json.arr elems) →
        ∀ j ∈ elems, j.member "session_token" ≠ some (Json.str "tokA") := by
  have h := destructor_sweeps_then_writes sampleSweep sampleShutdownWorld
  have hn : (sampleSweep sampleShutdownWorld.sessionStore).needWrite = true := rfl
  have ht : "tokA" ∉ (sampleSweep sampleShutdownWorld.sessionStore).authTokens.map
      (fun p => p.2.sessionToken) := by decide
  obtain ⟨f, data, hf, hc, hs, hall⟩ := h.2.2.1 hn
  refine ⟨hn, ht, h.1.trans (by decide), f, data, hf, hc, hs.trans ?_, hall "tokA" ht⟩
  simp [sampleSweep, sampleShutdownWorld, sampleAdmin, sampleGuest, sampleOperator,
    sampleEmptyWorld]

end persistent_data

namespace persistent_data

open nlohmann

/-- C15 as stated fails: `readData` on a store without a file writes the snapshot, and the
write is not preceded by an `applySessionTimeouts` sweep. -/
theorem readData_write_without_sweep_counterexample :
    ¬ (writesPrecededBySweep (readDataCalls sampleExternals sampleEmptyWorld) = true) := by
  decide

/-- C15 amended: the write of the destructor, when it happens, comes right after an
`applySessionTimeouts` sweep; `readData` never calls `applySessionTimeouts`, so the write it
performs for a revision or system-identity change is not preceded by a sweep. -/
theorem writes_and_sweeps (applySessionTimeouts : SessionStore → SessionStore)
    (ext : Externals) (w w' : World) :
    writesPrecededBySweep (destructor applySessionTimeouts w).2 = true ∧
    Call.applySessionTimeouts ∉ readDataCalls ext w' ∧
    (Call.writeData ∈ readDataCalls ext w' ↔ (readData ext w').2 = true) ∧
    (writesPrecededBySweep (readDataCalls ext w') = true ↔ (readData ext w').2 = false) := by
  refine ⟨?_, ?_, ?_, ?_⟩
  · cases hn : (applySessionTimeouts w.sessionStore).needWrite <;>
      simp [destructor, hn, writesPrecededBySweep]
  · cases hr : (readData ext w').2 <;> simp [readDataCalls, hr]
  · cases hr : (readData ext w').2 <;> simp [readDataCalls, hr]
  · cases hr : (readData ext w').2 <;> simp [readDataCalls, hr, writesPrecededBySweep]

/-- Witness for C15 amended: the shutdown of the sample store sweeps and then writes; the
load of a store without a file writes and does not sweep. -/
theorem writes_and_sweeps_witness :
    (destructor sampleSweep sampleShutdownWorld).2 =
      [Call.applySessionTimeouts, Call.writeData] ∧
    writesPrecededBySweep (destructor sampleSweep sampleShutdownWorld).2 = true ∧
    readDataCalls sampleExternals sampleEmptyWorld = [Call.writeData] ∧
    Call.applySessionTimeouts ∉ readDataCalls sampleExternals sampleEmptyWorld := by
  have h := writes_and_sweeps sampleSweep sampleExternals sampleShutdownWorld sampleEmptyWorld
  exact ⟨by decide, h.1, by decide, h.2.1⟩

/-- C16: every session object `writeCurrentSessionData` writes is the object of a store entry
that is not `SINGLE_REQUEST`, with the keys `client_ip`, `unique_id`, `username` and, when
the session has a client id, `client_id`, and no others, so neither `session_token` nor
`csrf_token`; every session object `writeData` writes holds the token of its session under
`session_token`.  The arrays meant are the `sessions` members of the two snapshots. -/
theorem session_objects_keys (w : World) :
    (writeCurrentSessionDataJson w).member "sessions" =
      some (Json.arr (writeCurrentSessions w.sessionStore.authTokens)) ∧
    (writeDataJson w).member "sessions" =
      some (Json.arr (writeSessions w.sessionStore.authTokens)) ∧
    (∀ j ∈ writeCurrentSessions w.sessionStore.authTokens,
      ∃ p ∈ w.sessionStore.authTokens,
        p.2.persistence ≠ PersistenceType.SINGLE_REQUEST ∧ j = currentSessionJson p.2 ∧
        j.keys = (if p.2.clientId.isSome then ["client_id"] else []) ++
          ["client_ip", "unique_id", "username"] ∧
        "session_token" ∉ j.keys ∧ "csrf_token" ∉ j.keys) ∧
    (∀ j ∈ writeSessions w.sessionStore.authTokens,
      ∃ p ∈ w.sessionStore.authTokens,
        p.2.persistence ≠ PersistenceType.SINGLE_REQUEST ∧ j = sessionJson p.2 ∧
        j.member "session_token" = some (Json.str p.2.sessionToken)) := by
  refine ⟨writeCurrentSessionDataJson_member_sessions w, writeDataJson_member_sessions w,
    ?_, ?_⟩
  · intro j hj
    rw [writeCurrentSessions_eq] at hj
    obtain ⟨p, hp, rfl⟩ := List.mem_map.mp hj
    obtain ⟨hmem, hpers⟩ := List.mem_filter.mp hp
    refine ⟨p, hmem, by simpa [isPersistent] using hpers, rfl, currentSessionJson_keys p.2,
      ?_, ?_⟩
    · rw [currentSessionJson_keys]
      cases p.2.clientId <;> simp
    · rw [currentSessionJson_keys]
      cases p.2.clientId <;> simp
  · intro j hj
    rw [writeSessions_eq] at hj
    obtain ⟨p, hp, rfl⟩ := List.mem_map.mp hj
    obtain ⟨hmem, hpers⟩ := List.mem_filter.mp hp
    exact ⟨p, hmem, by simpa [isPersistent] using hpers, rfl, sessionJson_member_token p.2⟩

/-- Witness for C16: the store with `admin`, `guest` and `operator`. -/
theorem session_objects_keys_witness :
    (writeCurrentSessions sampleShutdownWorld.sessionStore.authTokens).map Json.keys =
      [["client_ip", "unique_id", "username"],
       ["client_id", "client_ip", "unique_id", "username"]] ∧
    (writeSessions sampleShutdownWorld.sessionStore.authTokens).map
        (fun j => j.member "session_token") =
      [some (Json.str "tokA"), some (Json.str "tokC")] ∧
    ∀ j ∈ writeCurrentSessions sampleShutdownWorld.sessionStore.authTokens,
      "session_token" ∉ j.keys := by
  refine ⟨by decide, ?_, ?_⟩
  · simp [writeSessions, sampleShutdownWorld, sampleAdmin, sampleGuest, sampleOperator,
      sampleEmptyWorld, sessionJson, Json.member, List.lookup]
  · intro j hj
    obtain ⟨_, _, _, _, _, h, _⟩ := (session_objects_keys sampleShutdownWorld).2.2.1 j hj
    exact h

/-- C17: whatever the world was, the file `writeData` leaves has the permission bits
`owner_read | owner_write | group_read`, that is 0640: none of the execute bits, not the
group-write bit, and none of the bits for others. -/
theorem writeData_permissions (w : World) :
    ∃ f, (writeData w).file = some f ∧
      f.perms = owner_read ||| owner_write ||| group_read ∧
      f.perms = 0o640 ∧
      f.perms &&& 0o111 = 0 ∧ f.perms &&& 0o020 = 0 ∧ f.perms &&& 0o007 = 0 := by
  have h : permission = 0o640 := by decide
  refine ⟨{ perms := permission, content := some (writeDataJson w) }, rfl, rfl, h, ?_, ?_, ?_⟩
  · show permission &&& 0o111 = 0
    decide
  · show permission &&& 0o020 = 0
    decide
  · show permission &&& 0o007 = 0
    decide

/-- C18, the code at the failing input: `writeCurrentSessionData` sets the permissions of the
snapshot file `filename` to 0640 and leaves those of the file it wrote, `dumpFilename`, as
opening the file made them: the mode it had, or the creation mode.  On the sample store,
under a creation mode of 0644, the file written ends up readable by others. -/
theorem writeCurrentSessionData_permissions (createMode : Nat) (w : World) :
    (writeCurrentSessionData createMode w).map
        (fun w' => (w'.file.map (fun f => f.perms), w'.dumpFile.map (fun f => f.perms))) =
      w.file.map (fun _ =>
        (some 0o640,
         some (match w.dumpFile with
           | none => createMode
           | some d => d.perms))) ∧
    (writeCurrentSessionData 0o644 sampleRunningWorld).map
        (fun w' => w'.dumpFile.map (fun f => f.perms)) = some (some 0o644) := by
  constructor
  · cases hf : w.file with
    | none => simp [writeCurrentSessionData, hf]
    | some f =>
      cases hd : w.dumpFile <;>
        simp [writeCurrentSessionData, hf, hd, permission, owner_read, owner_write, group_read]
  · simp [writeCurrentSessionData, sampleRunningWorld, sampleShutdownWorld, sampleEmptyWorld]

end persistent_data

/-! ## Task callbacks: completion of a crashdump, status of a dump -/

namespace redfish

open messages task DumpCreationProgress

/-- C19: on an event without error the crashdump callback appends the one message
`taskCompletedOK` carrying the decimal index of the task, sets the state to `Completed`,
returns `task::completed`, and changes nothing else. -/
theorem crashdump_completed (taskData : TaskData) :
    crashdumpTaskCallback false taskData =
      (task.completed,
        { taskData with
            messages := taskData.messages ++ [Message.taskCompletedOK (toString taskData.index)],
            state := "Completed" }) ∧
    task.completed = true ∧
    (crashdumpTaskCallback false taskData).2.messages.length =
      taskData.messages.length + 1 := by
  refine ⟨by simp [crashdumpTaskCallback], rfl, by simp [crashdumpTaskCallback]⟩

theorem firstStatusProperty_name (values : List (String × String)) (p : String × String)
    (h : firstStatusProperty values = some p) :
    p.1 = "Status" ∨ p.1 = "DumpRequestStatus" := by
  have := List.find?_some h
  simpa using this

/-- C20: the status `getDumpCompletionStatus` returns is the one the first property named
`Status` or `DumpRequestStatus` stands for (`statusOfProperty`): success for `Status` =
`...Completed`, failure for `Status` = `...Failed` and for a `DumpRequestStatus` ending in
`PermissionDenied`, `AcfFileInvalid`, `PasswordInvalid` or `ResourceSelectorInvalid`, "in
progress" otherwise and when there is no such property; and once a list has such a property,
properties appended after it change neither the status nor the task returned. -/
theorem getDumpCompletionStatus_spec (values : List (String × String)) (taskData : TaskData)
    (objPath : String) :
    (getDumpCompletionStatus values taskData objPath).1 =
      statusOfProperty (firstStatusProperty values) ∧
    (∀ rest, (firstStatusProperty values).isSome = true →
      getDumpCompletionStatus (values ++ rest) taskData objPath =
        getDumpCompletionStatus values taskData objPath) := by
  constructor
  · rw [getDumpCompletionStatus_first]
    cases hf : firstStatusProperty values with
    | none => rfl
    | some p =>
      obtain ⟨name, value⟩ := p
      rcases firstStatusProperty_name values _ hf with hn | hn
      · simp only at hn
        subst hn
        simp only [getDumpCompletionStatus, statusOfProperty]
        split_ifs <;> simp_all
      · simp only at hn
        subst hn
        simp only [getDumpCompletionStatus, statusOfProperty]
        split_ifs <;> simp_all
  · intro rest hsome
    have hfirst : firstStatusProperty (values ++ rest) = firstStatusProperty values := by
      unfold firstStatusProperty at hsome ⊢
      rw [List.find?_append]
      cases hf : List.find?
          (fun p => decide (p.1 = "Status") || decide (p.1 = "DumpRequestStatus")) values with
      | none => rw [hf] at hsome; exact Bool.noConfusion hsome
      | some p => rfl
    rw [getDumpCompletionStatus_first, hfirst, ← getDumpCompletionStatus_first]

/-- Witness for C20: a failed resource dump request followed by a `Status` that would read
as a success. -/
theorem getDumpCompletionStatus_spec_witness :
    (firstStatusProperty
      [("Size", "0"), ("DumpRequestStatus", "com.ibm.Dump.HostResponse.PermissionDenied")]).isSome
      = true ∧
    (getDumpCompletionStatus
        [("Size", "0"), ("DumpRequestStatus", "com.ibm.Dump.HostResponse.PermissionDenied")]
        sampleTask "/obj").1 = DUMP_CREATE_FAILED ∧
    (getDumpCompletionStatus
        ([("Size", "0"), ("DumpRequestStatus", "com.ibm.Dump.HostResponse.PermissionDenied")] ++
          [("Status", "xyz.openbmc_project.Common.Progress.OperationStatus.Completed")])
        sampleTask "/obj").1 = DUMP_CREATE_FAILED := by
  have h := getDumpCompletionStatus_spec
    [("Size", "0"), ("DumpRequestStatus", "com.ibm.Dump.HostResponse.PermissionDenied")]
    sampleTask "/obj"
  have hs : (firstStatusProperty
      [("Size", "0"), ("DumpRequestStatus", "com.ibm.Dump.HostResponse.PermissionDenied")]).isSome
      = true := by decide
  have h1 : (getDumpCompletionStatus
        [("Size", "0"), ("DumpRequestStatus", "com.ibm.Dump.HostResponse.PermissionDenied")]
        sampleTask "/obj").1 = DUMP_CREATE_FAILED := h.1.trans (by decide)
  refine ⟨hs, h1, ?_⟩
  rw [h.2 _ hs]
  exact h1

end redfish

/-! ## Journal event log: paging and entry Ids -/

namespace redfish

open message_registries

/-- C21, the code at the failing input: `$skip=18446744073709551615` and `$top=1` on a log of
one line.  Both parameters are accepted and `skip + top`, as a natural number, is not below
the number of lines, yet the answer carries a next link (to `$skip=0`): the 64-bit sum has
wrapped to 0.  `Members` is empty and the count is 1, as the claim has them. -/
theorem collection_nextLink_on_wrap :
    getTopParam 1 = true ∧ 2 ^ 64 - 1 < 2 ^ 64 ∧ ¬ ((2 ^ 64 - 1) + 1 < 1) ∧
    journalEventLogEntryCollection sampleRegistries [some [sampleLineA]] (2 ^ 64 - 1) 1
        initialIds =
      Except.ok
        ({ members := [], count := 1,
           nextLink :=
             some "/redfish/v1/Systems/system/LogServices/EventLog/Entries?$skip=0" },
         initialIds) := by
  refine ⟨by decide, by decide, by decide, ?_⟩
  rfl

/-- C22, the code at the failing input: a file with two lines of the same second.  Listed
from the start the second line has the Id `1609459200_1`; listed with `$skip=1` the same
line has the Id `1609459200`, which is the Id of the first line, and it is the first line
that the single-entry handler finds under that Id. -/
theorem paged_id_differs :
    (journalEventLogEntryCollection sampleRegistries [some [sampleLineA, sampleLineB]] 0 1000
        initialIds).map (fun r => r.1.members.map (fun e => (e.id, e.messageArgs))) =
      Except.ok [("1609459200", ["A"]), ("1609459200_1", ["B"])] ∧
    (journalEventLogEntryCollection sampleRegistries [some [sampleLineA, sampleLineB]] 1 1000
        initialIds).map (fun r => r.1.members.map (fun e => (e.id, e.messageArgs))) =
      Except.ok [("1609459200", ["B"])] ∧
    (journalEventLogEntry sampleRegistries "1609459200" [some [sampleLineA, sampleLineB]]
        initialIds).map (fun r => r.map (fun e => (e.id, e.messageArgs))) =
      Except.ok (some ("1609459200", ["A"])) := by
  refine ⟨?_, ?_, ?_⟩ <;> rfl

/-- C23, the code at the failing input: two log files, the older one ending and the newer
one starting in the same second.  The timestamps are not zero and do not decrease, yet both
entries get the Id `1609459200`. -/
theorem ids_repeat_across_files :
    sampleLineA.curTs ≠ 0 ∧ sampleLineA.curTs ≤ sampleLineB.curTs ∧
    (journalEventLogEntryCollection sampleRegistries [some [sampleLineA], some [sampleLineB]]
        0 1000 initialIds).map (fun r => r.1.members.map (fun e => (e.id, e.messageArgs))) =
      Except.ok [("1609459200", ["A"]), ("1609459200", ["B"])] := by
  refine ⟨by decide, by decide, ?_⟩
  rfl

/-- C27, the code at the failing input: the line `2021-01-01T00:00:00 PowerOn,A` passes the
format checks of `fillEventLogEntryJson` (it has a space and text after it), its message id
`PowerOn` has one field, and `getMessage` reads `fields[3]` outside the vector. -/
theorem getMessage_reads_out_of_bounds :
    (boost.splitOn '.' "PowerOn".toList).length = 1 ∧
    getMessage sampleRegistries "PowerOn" = none ∧
    fillEventLogEntryJson sampleRegistries "1609459200" sampleShortIdLine.text =
      Except.error FillError.outOfBounds := by
  refine ⟨by decide, by decide, by rfl⟩

/-- C28, the code at the failing input: `Resource_a_b_c` has four fields and is accepted; the
create parameters get the second field as `VSPString`, and the third and fourth fields are
dropped.  Rejection starts at five fields. -/
theorem resource_dump_four_fields_accepted :
    (boost.splitOn '_' "Resource_a_b_c".toList).length = 4 ∧
    createResourceDump "Resource_a_b_c" =
      some ("/xyz/openbmc_project/dump/resource",
        [("com.ibm.Dump.Create.CreateParameters.VSPString", "a")]) ∧
    createResourceDump "Resource_a_b_c_d" = none := by
  refine ⟨by decide, by decide, by decide⟩

/-- C30, the code at the failing input: the entries with the D-Bus Ids 9 and 10 are listed
with 10 first, as the Ids are compared as strings. -/
theorem members_sorted_as_strings :
    (getDBusLogEntryCollection [sampleLogObject 9 false, sampleLogObject 10 false]
        eventLogTypes.eventLog).map (fun r => (r.1.map (fun e => e.id), r.2)) =
      some (["10", "9"], 2) := by
  decide

end redfish

/-! ## Persistence: a load right after a save -/

namespace persistent_data

open nlohmann

theorem getInt64_ofInt64 (t : Int) (h1 : -(2 : Int) ^ 63 ≤ t) (h2 : t < (2 : Int) ^ 63) :
    (Json.ofInt64 t).getInt64 = some t := by
  unfold Json.ofInt64
  by_cases h : 0 ≤ t
  · have hlt : t.toNat < 2 ^ 63 := by
      have : (t.toNat : Int) = t := Int.toNat_of_nonneg h
      omega
    simp only [h, if_true, Json.getInt64, hlt, Int.toNat_of_nonneg h]
  · simp [h, Json.getInt64]

theorem readFile_written (ext : Externals) (S w0 : World)
    (hfile : w0.file = (writeData S).file)
    (h1 : -(2 : Int) ^ 63 ≤ S.sessionStore.timeoutInSeconds)
    (h2 : S.sessionStore.timeoutInSeconds < (2 : Int) ^ 63) :
    (readFile ext w0).world.systemUuid = S.systemUuid ∧
    (readFile ext w0).world.sessionStore.timeoutInSeconds = S.sessionStore.timeoutInSeconds ∧
    (readFile ext w0).fileRevision = jsonRevision := by
  have ht := getInt64_ofInt64 S.sessionStore.timeoutInSeconds h1 h2
  simp [readFile, hfile, writeData, writeDataJson, Json.items, readItems, readItem,
    Json.getUint, Json.getString, Json.elems, eventServiceConfigJson, ht,
    SessionStore.updateSessionTimeout]

/-- C29: for a store with a non-empty system identity (and a timeout that is a 64-bit signed
number of seconds), `readData` on the file `writeData` has just written restores that
identity and that timeout, finds the revision of the file equal to `jsonRevision`, and does
not call `writeData` again. -/
theorem save_load_fixed_point (ext : Externals) (S w0 : World)
    (huuid : S.systemUuid ≠ "")
    (h1 : -(2 : Int) ^ 63 ≤ S.sessionStore.timeoutInSeconds)
    (h2 : S.sessionStore.timeoutInSeconds < (2 : Int) ^ 63)
    (hfile : w0.file = (writeData S).file) :
    (readData ext w0).1.systemUuid = S.systemUuid ∧
    (readData ext w0).1.sessionStore.timeoutInSeconds = S.sessionStore.timeoutInSeconds ∧
    declaredRevision w0.file = jsonRevision ∧
    (readFile ext w0).fileRevision = jsonRevision ∧
    (readData ext w0).2 = false := by
  obtain ⟨hu, ht, hr⟩ := readFile_written ext S w0 hfile h1 h2
  have hne : (readFile ext w0).world.systemUuid ≠ "" := by rw [hu]; exact huuid
  refine ⟨?_, ?_, ?_, hr, ?_⟩
  · rw [readData_systemUuid, if_neg hne, hu]
  · rw [readData_sessionStore, ht]
  · rw [hfile]
    simp [declaredRevision, writeData, writeDataJson, Json.items, List.lookup]
  · rw [readData_snd, hr]
    simp [hne]

/-- Witness for C29: the sample store, saved and read back into an empty one. -/
theorem save_load_fixed_point_witness :
    sampleWorld.systemUuid ≠ "" ∧
    sampleReloadWorld.file = (writeData sampleWorld).file ∧
    (readData sampleExternals sampleReloadWorld).1.systemUuid =
      "0b4b0a4e-0000-4000-8000-000000000001" ∧
    (readData sampleExternals sampleReloadWorld).1.sessionStore.timeoutInSeconds = 3600 ∧
    (readData sampleExternals sampleReloadWorld).2 = false := by
  have hu : sampleWorld.systemUuid ≠ "" := by decide
  have h := save_load_fixed_point sampleExternals sampleWorld sampleReloadWorld hu
    (by decide) (by decide) rfl
  exact ⟨hu, rfl, h.1, h.2.1, h.2.2.2.2⟩

end persistent_data

/-! ## Decimal numbers -/

namespace redfish

theorem decimalValue_append_singleton (ds : List Char) (c : Char) :
    decimalValue (ds ++ [c]) = 10 * decimalValue ds + (c.toNat - 48) := by
  simp [decimalValue, List.foldl_append]

theorem digitChar_isDigit (d : Nat) (h : d < 10) :
    (Nat.digitChar d).isDigit = true ∧ (Nat.digitChar d).toNat - 48 = d := by
  interval_cases d <;> exact ⟨by decide, by decide⟩

theorem toDigitsCore_spec (fuel : Nat) : ∀ (n : Nat) (acc : List Char), n < fuel →
    ∃ ds, Nat.toDigitsCore 10 fuel n acc = ds ++ acc ∧ ds ≠ [] ∧
      (∀ c ∈ ds, c.isDigit = true) ∧ decimalValue ds = n := by
  induction fuel with
  | zero => intro n acc h; omega
  | succ fuel ih =>
    intro n acc h
    obtain ⟨hd, hv⟩ := digitChar_isDigit (n % 10) (Nat.mod_lt _ (by decide))
    simp only [Nat.toDigitsCore]
    by_cases h0 : n / 10 = 0
    · refine ⟨[Nat.digitChar (n % 10)], by simp [h0], by simp, by simpa using hd, ?_⟩
      simp only [decimalValue, List.foldl_cons, List.foldl_nil, hv]
      omega
    · have hlt : n / 10 < fuel := by omega
      obtain ⟨ds, hds, hne, hall, hval⟩ := ih (n / 10) (Nat.digitChar (n % 10) :: acc) hlt
      refine ⟨ds ++ [Nat.digitChar (n % 10)], by simp [h0, hds], by simp, ?_, ?_⟩
      · intro c hc
        rcases List.mem_append.mp hc with hc | hc
        · exact hall c hc
        · simp only [List.mem_singleton] at hc
          rw [hc]; exact hd
      · rw [decimalValue_append_singleton, hval, hv]
        omega

/-- The decimal rendering of a number is a non-empty string of digits that stands for it. -/
theorem toString_digits (n : Nat) :
    (toString n).toList ≠ [] ∧ (∀ c ∈ (toString n).toList, c.isDigit = true) ∧
    decimalValue (toString n).toList = n := by
  obtain ⟨ds, hds, hne, hall, hval⟩ := toDigitsCore_spec (n + 1) n [] (Nat.lt_succ_self n)
  have h : (toString n).toList = ds := by
    show (Nat.toDigits 10 n) = ds
    rw [Nat.toDigits, hds, List.append_nil]
  rw [h]
  exact ⟨hne, hall, hval⟩

theorem toString_injective (m n : Nat) (h : toString m = toString n) : m = n := by
  have hm := (toString_digits m).2.2
  have hn := (toString_digits n).2.2
  rw [h] at hm
  rw [← hm, hn]

end redfish

/-! ## D-Bus log entries: the Hidden property -/

namespace redfish

theorem makeDBusLogEntry_id (type : eventLogTypes) (v : EntryVars) (id : Nat)
    (severity eventId subsystem : String) :
    (makeDBusLogEntry type v id severity eventId subsystem).id = toString id := rfl

theorem collectionObjects_cons (type : eventLogTypes)
    (obj : String × List (String × List (String × DbusValue)))
    (rest : List (String × List (String × List (String × DbusValue))))
    (acc : List DBusLogEntry) :
    collectionObjects type (obj :: rest) acc =
      match objectVars obj with
      | none => none
      | some _ => collectionObjects type rest (acc ++ (listedEntry type obj).toList) := by
  have hv : obj.2.foldlM objectInterface EntryVars.init = objectVars obj := rfl
  rw [collectionObjects, hv]
  cases hobj : objectVars obj with
  | none => rfl
  | some v =>
    simp only [listedEntry, hobj]
    cases v.id <;> cases v.severity <;> cases v.hiddenProp <;> cases v.eventId <;>
      cases v.subsystem <;> simp
    split_ifs <;> simp

theorem collectionObjects_spec (type : eventLogTypes)
    (resp : List (String × List (String × List (String × DbusValue))))
    (acc out : List DBusLogEntry) (h : collectionObjects type resp acc = some out) :
    out = acc ++ resp.filterMap (listedEntry type) := by
  induction resp generalizing acc with
  | nil =>
    simp only [collectionObjects, Option.some.injEq] at h
    simp [h]
  | cons obj rest ih =>
    rw [collectionObjects_cons] at h
    cases hobj : objectVars obj with
    | none => rw [hobj] at h; exact Option.noConfusion h
    | some v =>
      rw [hobj] at h
      simp only at h
      rw [ih _ h, List.filterMap_cons]
      cases listedEntry type obj <;> simp

end redfish

namespace redfish

theorem listedEntry_id (type : eventLogTypes)
    (o : String × List (String × List (String × DbusValue))) (e : DBusLogEntry)
    (h : listedEntry type o = some e) : ∃ id, objectId o = some id ∧ e.id = toString id := by
  unfold listedEntry at h
  cases hobj : objectVars o with
  | none => rw [hobj] at h; exact Option.noConfusion h
  | some v =>
    rw [hobj] at h
    simp only at h
    split at h
    · rename_i id severity hiddenProp eventId subsystem h1 h2 h3 h4 h5
      split_ifs at h
      simp only [Option.some.injEq] at h
      refine ⟨id, by simp [objectId, hobj, h1], ?_⟩
      rw [← h]
      rfl
    · exact Option.noConfusion h

theorem listedEntry_of_vars (type : eventLogTypes)
    (obj : String × List (String × List (String × DbusValue))) (v : EntryVars) (id : Nat)
    (severity eventId subsystem : String) (hidden : Bool)
    (hvars : objectVars obj = some v) (hid : v.id = some id)
    (hsev : v.severity = some severity) (hhid : v.hiddenProp = some hidden)
    (hev : v.eventId = some eventId) (hsub : v.subsystem = some subsystem) :
    listedEntry type obj =
      if (type = eventLogTypes.eventLog ∧ hidden = true) ∨
          (type = eventLogTypes.ceLog ∧ hidden = false) then none
      else some (makeDBusLogEntry type v id severity eventId subsystem) := by
  simp only [listedEntry, hvars, hid, hsev, hhid, hev, hsub]

/-- Whether the collection of a type lists an object, told by the Id it is listed under. -/
theorem listed_iff (type : eventLogTypes)
    (resp : List (String × List (String × List (String × DbusValue))))
    (obj : String × List (String × List (String × DbusValue))) (v : EntryVars) (id : Nat)
    (severity eventId subsystem : String) (hidden : Bool)
    (ms : List DBusLogEntry) (n : Nat)
    (hobj : obj ∈ resp) (hvars : objectVars obj = some v) (hid : v.id = some id)
    (hsev : v.severity = some severity) (hhid : v.hiddenProp = some hidden)
    (hev : v.eventId = some eventId) (hsub : v.subsystem = some subsystem)
    (huniq : ∀ o ∈ resp, objectId o = some id → o = obj)
    (hms : getDBusLogEntryCollection resp type = some (ms, n)) :
    toString id ∈ ms.map (fun e => e.id) ↔
      ¬ ((type = eventLogTypes.eventLog ∧ hidden = true) ∨
         (type = eventLogTypes.ceLog ∧ hidden = false)) := by
  unfold getDBusLogEntryCollection at hms
  cases hc : collectionObjects type resp [] with
  | none => rw [hc] at hms; exact Option.noConfusion hms
  | some arr =>
    rw [hc] at hms
    simp only [Option.some.injEq, Prod.mk.injEq] at hms
    have harr := collectionObjects_spec type resp [] arr hc
    rw [List.nil_append] at harr
    have hperm : ms.Perm (resp.filterMap (listedEntry type)) := by
      rw [← hms.1, harr]
      exact List.perm_insertionSort _ _
    have hl := listedEntry_of_vars type obj v id severity eventId subsystem hidden hvars hid
      hsev hhid hev hsub
    constructor
    · intro hmem hom
      obtain ⟨e, he, heid⟩ := List.mem_map.mp hmem
      have he' := hperm.mem_iff.mp he
      obtain ⟨o, ho, hoe⟩ := List.mem_filterMap.mp he'
      obtain ⟨id', hid', heid'⟩ := listedEntry_id type o e hoe
      have : id' = id := toString_injective id' id (by rw [← heid', heid])
      rw [this] at hid'
      have hoo := huniq o ho hid'
      rw [hoo, hl, if_pos hom] at hoe
      exact Option.noConfusion hoe
    · intro hom
      rw [if_neg hom] at hl
      have he : makeDBusLogEntry type v id severity eventId subsystem ∈ ms :=
        hperm.mem_iff.mpr (List.mem_filterMap.mpr ⟨obj, hobj, hl⟩)
      exact List.mem_map.mpr ⟨_, he, rfl⟩

/-- What `getDBusLogEntry` answers once all six required properties are read. -/
theorem getDBusLogEntry_of_vars (props : List (String × DbusValue)) (type : eventLogTypes)
    (v : EntryVars) (id : Nat) (severity resolution eventId subsystem : String) (hidden : Bool)
    (hvars : props.foldlM entryProperty EntryVars.init = some v) (hid : v.id = some id)
    (hsev : v.severity = some severity) (hhid : v.hiddenProp = some hidden)
    (hres : v.resolution = some resolution)
    (hev : v.eventId = some eventId) (hsub : v.subsystem = some subsystem) :
    getDBusLogEntry props type =
      if (type = eventLogTypes.eventLog ∧ hidden = true) ∨
          (type = eventLogTypes.ceLog ∧ hidden = false) then
        EntryAnswer.resourceNotFound (toString id)
      else EntryAnswer.entry (makeDBusLogEntry type v id severity eventId subsystem) := by
  simp only [getDBusLogEntry, hvars, hid, hsev, hhid, hres, hev, hsub]

/-- C26: take a D-Bus log entry object that has the properties the collection asks for, whose
Id no other object of the answer carries, and an answer for which the collection does not
end in `internalError`.  The EventLog collection lists the entry (has a member with its Id)
exactly when its `Hidden` is false and the CELog collection exactly when it is true, so
exactly one of the two lists it.  And `getDBusLogEntry`, for an entry with the six
properties it asks for, answers `resourceNotFound` exactly in the two cases the collection
of the same type leaves the entry out for: `Hidden` asked through EventLog and not `Hidden`
asked through CELog; otherwise it answers the entry. -/
theorem dbus_entry_listed_by_hidden
    (resp : List (String × List (String × List (String × DbusValue))))
    (obj : String × List (String × List (String × DbusValue))) (v : EntryVars) (id : Nat)
    (severity eventId subsystem : String) (hidden : Bool)
    (msE msC : List DBusLogEntry) (nE nC : Nat)
    (props : List (String × DbusValue)) (pv : EntryVars) (pid : Nat)
    (pseverity presolution peventId psubsystem : String) (phidden : Bool)
    (hobj : obj ∈ resp) (hvars : objectVars obj = some v) (hid : v.id = some id)
    (hsev : v.severity = some severity) (hhid : v.hiddenProp = some hidden)
    (hev : v.eventId = some eventId) (hsub : v.subsystem = some subsystem)
    (huniq : ∀ o ∈ resp, objectId o = some id → o = obj)
    (hE : getDBusLogEntryCollection resp eventLogTypes.eventLog = some (msE, nE))
    (hC : getDBusLogEntryCollection resp eventLogTypes.ceLog = some (msC, nC))
    (hpvars : props.foldlM entryProperty EntryVars.init = some pv) (hpid : pv.id = some pid)
    (hpsev : pv.severity = some pseverity) (hphid : pv.hiddenProp = some phidden)
    (hpres : pv.resolution = some presolution)
    (hpev : pv.eventId = some peventId) (hpsub : pv.subsystem = some psubsystem) :
    (toString id ∈ msE.map (fun e => e.id) ↔ hidden = false) ∧
    (toString id ∈ msC.map (fun e => e.id) ↔ hidden = true) ∧
    (toString id ∈ msE.map (fun e => e.id) ↔ ¬ toString id ∈ msC.map (fun e => e.id)) ∧
    (getDBusLogEntry props eventLogTypes.eventLog = EntryAnswer.resourceNotFound (toString pid)
      ↔ phidden = true) ∧
    (getDBusLogEntry props eventLogTypes.ceLog = EntryAnswer.resourceNotFound (toString pid)
      ↔ phidden = false) ∧
    (phidden = false → getDBusLogEntry props eventLogTypes.eventLog =
      EntryAnswer.entry
        (makeDBusLogEntry eventLogTypes.eventLog pv pid pseverity peventId psubsystem)) ∧
    (phidden = true → getDBusLogEntry props eventLogTypes.ceLog =
      EntryAnswer.entry
        (makeDBusLogEntry eventLogTypes.ceLog pv pid pseverity peventId psubsystem)) := by
  have h1 := listed_iff eventLogTypes.eventLog resp obj v id severity eventId subsystem hidden
    msE nE hobj hvars hid hsev hhid hev hsub huniq hE
  have h2 := listed_iff eventLogTypes.ceLog resp obj v id severity eventId subsystem hidden
    msC nC hobj hvars hid hsev hhid hev hsub huniq hC
  have h1' : toString id ∈ msE.map (fun e => e.id) ↔ hidden = false := by
    rw [h1]; cases hidden <;> simp
  have h2' : toString id ∈ msC.map (fun e => e.id) ↔ hidden = true := by
    rw [h2]; cases hidden <;> simp
  have g1 := getDBusLogEntry_of_vars props eventLogTypes.eventLog pv pid pseverity presolution
    peventId psubsystem phidden hpvars hpid hpsev hphid hpres hpev hpsub
  have g2 := getDBusLogEntry_of_vars props eventLogTypes.ceLog pv pid pseverity presolution
    peventId psubsystem phidden hpvars hpid hpsev hphid hpres hpev hpsub
  refine ⟨h1', h2', ?_, ?_, ?_, ?_, ?_⟩
  · rw [h1', h2']; cases hidden <;> simp
  · rw [g1]; cases phidden <;> simp
  · rw [g2]; cases phidden <;> simp
  · intro hp; rw [g1, hp]; simp
  · intro hp; rw [g2, hp]; simp

/-- Witness for C26: the objects with the Ids 9 (not hidden) and 10 (hidden); the entry 9 is
a member of EventLog and not of CELog, and asked for by itself it is answered through
EventLog and `resourceNotFound` through CELog. -/
theorem dbus_entry_listed_by_hidden_witness :
    sampleLogObject 9 false ∈ [sampleLogObject 9 false, sampleLogObject 10 true] ∧
    getDBusLogEntryCollection [sampleLogObject 9 false, sampleLogObject 10 true]
      eventLogTypes.eventLog =
      some ([makeDBusLogEntry eventLogTypes.eventLog (sampleEntryVars 9 false) 9
        "xyz.openbmc_project.Logging.Entry.Level.Error" "BD8D1234 00000000" "CEC Hardware"],
        1) ∧
    getDBusLogEntryCollection [sampleLogObject 9 false, sampleLogObject 10 true]
      eventLogTypes.ceLog =
      some ([makeDBusLogEntry eventLogTypes.ceLog (sampleEntryVars 10 true) 10
        "xyz.openbmc_project.Logging.Entry.Level.Error" "BD8D1234 00000000" "CEC Hardware"],
        1) ∧
    toString 9 ∈ [(makeDBusLogEntry eventLogTypes.eventLog (sampleEntryVars 9 false) 9
        "xyz.openbmc_project.Logging.Entry.Level.Error" "BD8D1234 00000000"
        "CEC Hardware").id] ∧
    ¬ toString 9 ∈ [(makeDBusLogEntry eventLogTypes.ceLog (sampleEntryVars 10 true) 10
        "xyz.openbmc_project.Logging.Entry.Level.Error" "BD8D1234 00000000"
        "CEC Hardware").id] ∧
    getDBusLogEntry (sampleEntryProperties 9 false) eventLogTypes.eventLog =
      EntryAnswer.entry (makeDBusLogEntry eventLogTypes.eventLog (sampleEntryVars 9 false) 9
        "xyz.openbmc_project.Logging.Entry.Level.Error" "BD8D1234 00000000" "CEC Hardware") ∧
    getDBusLogEntry (sampleEntryProperties 9 false) eventLogTypes.ceLog =
      EntryAnswer.resourceNotFound (toString 9) := by
  have hobj : sampleLogObject 9 false ∈ [sampleLogObject 9 false, sampleLogObject 10 true] :=
    List.mem_cons_self _ _
  have hE : getDBusLogEntryCollection [sampleLogObject 9 false, sampleLogObject 10 true]
      eventLogTypes.eventLog =
      some ([makeDBusLogEntry eventLogTypes.eventLog (sampleEntryVars 9 false) 9
        "xyz.openbmc_project.Logging.Entry.Level.Error" "BD8D1234 00000000" "CEC Hardware"],
        1) := by decide
  have hC : getDBusLogEntryCollection [sampleLogObject 9 false, sampleLogObject 10 true]
      eventLogTypes.ceLog =
      some ([makeDBusLogEntry eventLogTypes.ceLog (sampleEntryVars 10 true) 10
        "xyz.openbmc_project.Logging.Entry.Level.Error" "BD8D1234 00000000" "CEC Hardware"],
        1) := by decide
  have huniq : ∀ o ∈ [sampleLogObject 9 false, sampleLogObject 10 true],
      objectId o = some 9 → o = sampleLogObject 9 false := by
    intro o ho h
    rcases List.mem_cons.mp ho with h1 | h1
    · exact h1
    · rw [List.mem_singleton.mp h1] at h
      exact absurd h (by decide)
  have h := dbus_entry_listed_by_hidden [sampleLogObject 9 false, sampleLogObject 10 true]
    (sampleLogObject 9 false) (sampleEntryVars 9 false) 9
    "xyz.openbmc_project.Logging.Entry.Level.Error" "BD8D1234 00000000" "CEC Hardware" false
    _ _ 1 1 (sampleEntryProperties 9 false) (sampleEntryVars 9 false) 9
    "xyz.openbmc_project.Logging.Entry.Level.Error" "" "BD8D1234 00000000" "CEC Hardware"
    false hobj (by decide) rfl rfl rfl rfl rfl huniq hE hC (by decide) rfl rfl rfl rfl rfl rfl
  refine ⟨hobj, hE, hC, ?_, ?_, h.2.2.2.2.2.1 rfl, h.2.2.2.2.1.mpr rfl⟩
  · simpa using h.1.mpr rfl
  · have h2 := h.2.1
    simp only [List.map_cons, List.map_nil] at h2
    intro hm
    exact Bool.noConfusion (h2.mp hm)

end redfish

/-! ## POST codes: the Id and its parsing -/

namespace boost

theorem splitOn_ne_nil (sep : Char) (s : List Char) : splitOn sep s ≠ [] := by
  cases s with
  | nil => simp [splitOn]
  | cons c cs =>
    simp only [splitOn]
    split_ifs
    · simp
    · cases splitOn sep cs <;> simp

theorem splitOn_of_not_mem (sep : Char) (a : List Char) (h : sep ∉ a) :
    splitOn sep a = [a] := by
  induction a with
  | nil => rfl
  | cons c cs ih =>
    have hc : c ≠ sep := fun e => h (e ▸ List.mem_cons_self _ _)
    have hcs : sep ∉ cs := fun m => h (List.mem_cons_of_mem _ m)
    simp only [splitOn, if_neg hc, ih hcs]

theorem splitOn_append (sep : Char) (a b : List Char) (h : sep ∉ a) :
    splitOn sep (a ++ sep :: b) = a :: splitOn sep b := by
  induction a with
  | nil => simp [splitOn]
  | cons c cs ih =>
    have hc : c ≠ sep := fun e => h (e ▸ List.mem_cons_self _ _)
    have hcs : sep ∉ cs := fun m => h (List.mem_cons_of_mem _ m)
    have e : splitOn sep (c :: (cs ++ sep :: b)) = (c :: cs) :: splitOn sep b := by
      simp only [splitOn, if_neg hc, ih hcs]
    exact e

theorem splitOn_eq_singleton (sep : Char) : ∀ (s a : List Char),
    splitOn sep s = [a] → s = a ∧ sep ∉ a := by
  intro s
  induction s with
  | nil =>
    intro a h
    simp only [splitOn, List.cons.injEq, and_true] at h
    subst h
    exact ⟨rfl, List.not_mem_nil _⟩
  | cons c cs ih =>
    intro a h
    simp only [splitOn] at h
    by_cases hc : c = sep
    · rw [if_pos hc] at h
      simp only [List.cons.injEq] at h
      exact absurd h.2 (splitOn_ne_nil sep cs)
    · rw [if_neg hc] at h
      cases hs : splitOn sep cs with
      | nil => exact absurd hs (splitOn_ne_nil sep cs)
      | cons f fs =>
        rw [hs] at h
        simp only [List.cons.injEq, and_true] at h
        obtain ⟨h1, h2⟩ := h
        subst h2
        obtain ⟨e1, e2⟩ := ih f hs
        subst h1
        refine ⟨by rw [e1], ?_⟩
        intro hm
        rcases List.mem_cons.mp hm with h3 | h3
        · exact hc h3.symm
        · exact e2 h3

theorem splitOn_eq_pair (sep : Char) : ∀ (s a b : List Char),
    splitOn sep s = [a, b] → s = a ++ sep :: b ∧ sep ∉ a ∧ sep ∉ b := by
  intro s
  induction s with
  | nil =>
    intro a b h
    simp [splitOn] at h
  | cons c cs ih =>
    intro a b h
    simp only [splitOn] at h
    by_cases hc : c = sep
    · rw [if_pos hc] at h
      simp only [List.cons.injEq] at h
      obtain ⟨h1, h2⟩ := h
      obtain ⟨e1, e2⟩ := splitOn_eq_singleton sep cs b h2
      subst h1
      exact ⟨by rw [hc, e1]; rfl, List.not_mem_nil _, e2⟩
    · rw [if_neg hc] at h
      cases hs : splitOn sep cs with
      | nil => exact absurd hs (splitOn_ne_nil sep cs)
      | cons f fs =>
        rw [hs] at h
        simp only [List.cons.injEq] at h
        obtain ⟨h1, h2⟩ := h
        subst h2
        obtain ⟨e1, e2, e3⟩ := ih f b hs
        subst h1
        refine ⟨by rw [e1]; rfl, ?_, e3⟩
        intro hm
        rcases List.mem_cons.mp hm with h3 | h3
        · exact hc h3.symm
        · exact e2 h3

end boost

namespace redfish

theorem from_chars_digits (bits : Nat) (ds : List Char) (hne : ds ≠ [])
    (hall : ∀ c ∈ ds, c.isDigit = true) :
    from_chars bits ds =
      if decimalValue ds < 2 ^ bits then (ds.length, some (decimalValue ds))
      else (ds.length, none) := by
  have ht : ds.takeWhile Char.isDigit = ds := List.takeWhile_eq_self_iff.mpr hall
  have he : ds.isEmpty = false := by
    cases ds with
    | nil => exact absurd rfl hne
    | cons c cs => rfl
  simp only [from_chars, ht, he, decimalValue]
  rfl

theorem from_chars_whole (bits : Nat) (s : List Char) (v : Nat)
    (h1 : (from_chars bits s).1 = s.length) (h2 : (from_chars bits s).2 = some v) :
    s ≠ [] ∧ (∀ c ∈ s, c.isDigit = true) ∧ decimalValue s = v ∧ v < 2 ^ bits := by
  unfold from_chars at h1 h2
  by_cases hemp : (s.takeWhile Char.isDigit).isEmpty = true
  · simp [hemp] at h2
  · simp only [hemp] at h1 h2
    by_cases hv : (s.takeWhile Char.isDigit).foldl (fun acc c => 10 * acc + (c.toNat - 48)) 0
        < 2 ^ bits
    · simp only [hv, if_true, Bool.false_eq_true, if_false, Option.some.injEq] at h1 h2
      have ht : s.takeWhile Char.isDigit = s :=
        List.IsPrefix.eq_of_length ( List.takeWhile_prefix _) h1
      rw [ht] at h2 hv hemp
      refine ⟨?_, List.takeWhile_eq_self_iff.mp ht, h2, h2 ▸ hv⟩
      intro e
      rw [e] at hemp
      exact hemp rfl
    · simp [hv] at h2

theorem dash_not_mem_digits (ds : List Char) (hall : ∀ c ∈ ds, c.isDigit = true) :
    '-' ∉ ds := by
  intro h
  exact absurd (hall _ h) (by decide)

end redfish

namespace redfish

theorem parsePostCode_of_format (postCodeID : String) (ds1 ds2 : List Char)
    (hid : postCodeID.toList = 'B' :: ds1 ++ '-' :: ds2)
    (hne1 : ds1 ≠ []) (hall1 : ∀ c ∈ ds1, c.isDigit = true) (hv1 : decimalValue ds1 < 2 ^ 16)
    (hne2 : ds2 ≠ []) (hall2 : ∀ c ∈ ds2, c.isDigit = true) (hv2 : decimalValue ds2 < 2 ^ 64) :
    parsePostCode postCodeID =
      some { currentValue := decimalValue ds2, index := decimalValue ds1 } := by
  have hB : '-' ∉ 'B' :: ds1 := by
    intro hm
    rcases List.mem_cons.mp hm with h | h
    · exact absurd h (by decide)
    · exact dash_not_mem_digits ds1 hall1 h
  have hsplit : boost.splitOn '-' postCodeID.toList = ['B' :: ds1, ds2] := by
    rw [hid, boost.splitOn_append '-' ('B' :: ds1) ds2 hB,
      boost.splitOn_of_not_mem '-' ds2 (dash_not_mem_digits ds2 hall2)]
  have hlen : ¬ (('B' :: ds1).length < 2 ∨ ('B' :: ds1).head? ≠ some 'B') := by
    cases ds1 with
    | nil => exact absurd rfl hne1
    | cons c cs => simp
  have f1 := from_chars_digits 16 ds1 hne1 hall1
  have f2 := from_chars_digits 64 ds2 hne2 hall2
  rw [if_pos hv1] at f1
  rw [if_pos hv2] at f2
  simp only [parsePostCode, hsplit, if_neg hlen, List.drop_succ_cons, List.drop_zero, f1, f2,
    ne_eq, not_true_eq_false, if_false]

theorem format_of_parsePostCode (postCodeID : String) (r : ParsedPostCode)
    (h : parsePostCode postCodeID = some r) :
    ∃ ds1 ds2 : List Char, postCodeID.toList = 'B' :: ds1 ++ '-' :: ds2 ∧
      ds1 ≠ [] ∧ (∀ c ∈ ds1, c.isDigit = true) ∧ decimalValue ds1 < 2 ^ 16 ∧
      ds2 ≠ [] ∧ (∀ c ∈ ds2, c.isDigit = true) ∧ decimalValue ds2 < 2 ^ 64 ∧
      r.index = decimalValue ds1 ∧ r.currentValue = decimalValue ds2 := by
  unfold parsePostCode at h
  generalize hs : boost.splitOn '-' postCodeID.toList = sp at h
  rcases sp with _ | ⟨a, _ | ⟨b, _ | ⟨c, t⟩⟩⟩
  · exact Option.noConfusion h
  · exact Option.noConfusion h
  · simp only at h
    obtain ⟨hid, -, -⟩ := boost.splitOn_eq_pair '-' postCodeID.toList a b hs
    by_cases hc : a.length < 2 ∨ a.head? ≠ some 'B'
    · rw [if_pos hc] at h
      exact Option.noConfusion h
    · rw [if_neg hc] at h
      by_cases hl : (from_chars 16 (a.drop 1)).1 ≠ (a.drop 1).length
      · rw [if_pos hl] at h
        exact Option.noConfusion h
      · rw [if_neg hl] at h
        cases h16 : (from_chars 16 (a.drop 1)).2 with
        | none => rw [h16] at h; exact Option.noConfusion h
        | some index =>
          rw [h16] at h
          simp only at h
          by_cases hl2 : (from_chars 64 b).1 ≠ b.length
          · rw [if_pos hl2] at h
            exact Option.noConfusion h
          · rw [if_neg hl2] at h
            cases h64 : (from_chars 64 b).2 with
            | none => rw [h64] at h; exact Option.noConfusion h
            | some currentValue =>
              rw [h64] at h
              simp only [Option.some.injEq] at h
              obtain ⟨n1, a1, v1, b1⟩ := from_chars_whole 16 (a.drop 1) index
                (not_not.mp hl) h16
              obtain ⟨n2, a2, v2, b2⟩ := from_chars_whole 64 b currentValue
                (not_not.mp hl2) h64
              have ha : a = 'B' :: a.drop 1 := by
                cases a with
                | nil => exact absurd (Or.inl (by decide)) hc
                | cons x xs =>
                  have hx : x = 'B' := by
                    by_contra hx
                    exact hc (Or.inr (by simpa using hx))
                  rw [hx]
                  rfl
              refine ⟨a.drop 1, b, ?_, n1, a1, v1 ▸ b1, n2, a2, v2 ▸ b2, ?_, ?_⟩
              · rw [← ha]
                exact hid
              · rw [← h, v1]
              · rw [← h, v2]
  · exact Option.noConfusion h

end redfish

namespace redfish

theorem postCodeId_toList (b c : Nat) :
    ("B" ++ toString b ++ "-" ++ toString c).toList =
      'B' :: (toString b).toList ++ '-' :: (toString c).toList := by
  show ("B" ++ toString b ++ "-" ++ toString c).data = _
  simp only [String.data_append]
  simp [String.toList]

theorem fillPostCodeLoop_ids (b ci s t : Nat) : ∀ (codes : List PostCode) (cur first : Nat)
    (members : List PostCodeEntry) (e : PostCodeEntry),
    e ∈ fillPostCodeLoop b ci s t codes cur first members →
    e ∈ members ∨ ∃ c, cur < c ∧ c ≤ cur + codes.length ∧
      e.id = "B" ++ toString b ++ "-" ++ toString c := by
  intro codes
  induction codes with
  | nil =>
    intro cur first members e h
    exact Or.inl h
  | cons code rest ih =>
    intro cur first members e h
    have step : ∀ (f : Nat) (ms : List PostCodeEntry),
        e ∈ fillPostCodeLoop b ci s t rest (cur + 1) f ms →
        (e ∈ ms → e ∈ members ∨ e.id = "B" ++ toString b ++ "-" ++ toString (cur + 1)) →
        e ∈ members ∨ ∃ c, cur < c ∧ c ≤ cur + (code :: rest).length ∧
          e.id = "B" ++ toString b ++ "-" ++ toString c := by
      intro f ms hm hms
      rcases ih (cur + 1) f ms e hm with h1 | ⟨c, h1, h2, h3⟩
      · rcases hms h1 with h4 | h4
        · exact Or.inl h4
        · exact Or.inr ⟨cur + 1, Nat.lt_succ_self _, by simp, h4⟩
      · exact Or.inr ⟨c, by omega, by simp only [List.length_cons]; omega, h3⟩
    simp only [fillPostCodeLoop] at h
    split_ifs at h <;> first
      | exact step _ _ h Or.inl
      | exact step _ _ h (fun hm => by
          rcases List.mem_append.mp hm with h1 | h1
          · exact Or.inl h1
          · rw [List.mem_singleton.mp h1]
            exact Or.inr rfl)

/-- C25: `parsePostCode` returns true, with the result `r`, exactly for the IDs that are the
letter B, then a non-empty run of decimal digits whose value is below 2 ^ 16, then a hyphen,
then a non-empty run of decimal digits whose value is below 2 ^ 64, and nothing else; then
`index` is the first number and `currentValue` the second.  So the Id that stands for the
boot `b` and the code index `c` parses back to `b` and `c`, and every Id `fillPostCodeEntry`
writes for a 16-bit boot index and fewer than 2 ^ 64 codes parses back to that boot index
and to the place of the code in its boot. -/
theorem parsePostCode_format_and_round_trip :
    (∀ (postCodeID : String) (r : ParsedPostCode),
      parsePostCode postCodeID = some r ↔
        ∃ ds1 ds2 : List Char, postCodeID.toList = 'B' :: ds1 ++ '-' :: ds2 ∧
          ds1 ≠ [] ∧ (∀ c ∈ ds1, c.isDigit = true) ∧ decimalValue ds1 < 2 ^ 16 ∧
          ds2 ≠ [] ∧ (∀ c ∈ ds2, c.isDigit = true) ∧ decimalValue ds2 < 2 ^ 64 ∧
          r.index = decimalValue ds1 ∧ r.currentValue = decimalValue ds2) ∧
    (∀ b c : Nat, b < 2 ^ 16 → c < 2 ^ 64 →
      parsePostCode ("B" ++ toString b ++ "-" ++ toString c) =
        some { currentValue := c, index := b }) ∧
    (∀ (postcode : List PostCode) (bootIndex codeIndex skip top : Nat) (e : PostCodeEntry),
      bootIndex < 2 ^ 16 → postcode.length < 2 ^ 64 →
      e ∈ fillPostCodeEntry postcode bootIndex codeIndex skip top [] →
      ∃ c, 1 ≤ c ∧ c ≤ postcode.length ∧
        e.id = "B" ++ toString bootIndex ++ "-" ++ toString c ∧
        parsePostCode e.id = some { currentValue := c, index := bootIndex }) := by
  have round : ∀ b c : Nat, b < 2 ^ 16 → c < 2 ^ 64 →
      parsePostCode ("B" ++ toString b ++ "-" ++ toString c) =
        some { currentValue := c, index := b } := by
    intro b c hb hc
    obtain ⟨n1, a1, v1⟩ := toString_digits b
    obtain ⟨n2, a2, v2⟩ := toString_digits c
    have h := parsePostCode_of_format ("B" ++ toString b ++ "-" ++ toString c)
      (toString b).toList (toString c).toList (postCodeId_toList b c) n1 a1 (by rw [v1]; exact hb)
      n2 a2 (by rw [v2]; exact hc)
    rw [h, v1, v2]
  refine ⟨?_, round, ?_⟩
  · intro postCodeID r
    constructor
    · exact format_of_parsePostCode postCodeID r
    · rintro ⟨ds1, ds2, hid, n1, a1, v1, n2, a2, v2, hi, hc⟩
      rw [parsePostCode_of_format postCodeID ds1 ds2 hid n1 a1 v1 n2 a2 v2, ← hi, ← hc]
  · intro postcode bootIndex codeIndex skip top e hb hlen he
    rcases fillPostCodeLoop_ids bootIndex codeIndex skip top postcode 0 0 [] e he with h | h
    · exact absurd h (List.not_mem_nil _)
    · obtain ⟨c, h1, h2, h3⟩ := h
      refine ⟨c, h1, by omega, h3, ?_⟩
      rw [h3]
      exact round bootIndex c hb (by omega)

/-- Witness for C25: the Id of the second code of the first boot. -/
theorem parsePostCode_format_and_round_trip_witness :
    parsePostCode "B1-2" = some { currentValue := 2, index := 1 } :=
  parsePostCode_format_and_round_trip.2.1 1 2 (by decide) (by decide)

end redfish

/-! ## POST codes: the page of the collection -/

namespace redfish

theorem fillPostCodeLoop_cons (b s t : Nat) (code : PostCode) (rest : List PostCode)
    (cur first : Nat) (members : List PostCodeEntry) :
    fillPostCodeLoop b 0 s t (code :: rest) cur first members =
      fillPostCodeLoop b 0 s t rest (cur + 1) (if cur + 1 = 1 then code.usecSinceEpoch else first)
        (if cur + 1 ≤ s ∨ cur + 1 > t then members
         else members ++
          [postCodeEntryAt b (if cur + 1 = 1 then code.usecSinceEpoch else first) (cur + 1) code])
    := by
  by_cases h : cur + 1 ≤ s ∨ cur + 1 > t
  · simp only [fillPostCodeLoop, h, true_and, and_true, if_true]
  · simp only [fillPostCodeLoop, h, true_and, and_false, if_false, gt_iff_lt, lt_self_iff_false,
      false_and, postCodeEntryAt]

theorem fillPostCodeLoop_page (b s t : Nat) : ∀ (codes : List PostCode) (cur first : Nat)
    (members : List PostCodeEntry), 1 ≤ cur →
    fillPostCodeLoop b 0 s t codes cur first members =
      members ++ (((codes.enumFrom (cur + 1)).drop (s - cur)).take (t - max s cur)).map
        (fun p => postCodeEntryAt b first p.1 p.2) := by
  intro codes
  induction codes with
  | nil =>
    intro cur first members _
    simp [fillPostCodeLoop]
  | cons code rest ih =>
    intro cur first members hcur
    have h1 : ¬ cur + 1 = 1 := by omega
    rw [fillPostCodeLoop_cons, if_neg h1, ih (cur + 1) first _ (by omega), List.enumFrom_cons]
    by_cases h : cur + 1 ≤ s ∨ cur + 1 > t
    · rw [if_pos h]
      by_cases hs : cur + 1 ≤ s
      · have e1 : s - cur = (s - (cur + 1)) + 1 := by omega
        have e2 : max s cur = max s (cur + 1) := by omega
        rw [e1, List.drop_succ_cons, e2]
      · have e1 : t - max s cur = 0 := by omega
        have e2 : t - max s (cur + 1) = 0 := by omega
        rw [e1, e2, List.take_zero, List.take_zero]
    · rw [if_neg h]
      have e1 : s - cur = 0 := by omega
      have e2 : t - max s cur = (t - max s (cur + 1)) + 1 := by omega
      have e3 : s - (cur + 1) = 0 := by omega
      rw [e1, e2, e3, List.drop_zero, List.drop_zero, List.take_succ_cons, List.map_cons,
        List.append_assoc, List.singleton_append]

theorem length_bootEntries (b : Nat) (codes : List PostCode) :
    (bootEntries b codes).length = codes.length := by
  simp [bootEntries]

theorem fillPostCodeEntry_page (b s t : Nat) (codes : List PostCode)
    (members : List PostCodeEntry) :
    fillPostCodeEntry codes b 0 s t members =
      members ++ ((bootEntries b codes).drop s).take (t - s) := by
  cases codes with
  | nil => simp [fillPostCodeEntry, fillPostCodeLoop, bootEntries]
  | cons code rest =>
    have hb : bootEntries b (code :: rest) =
        postCodeEntryAt b code.usecSinceEpoch 1 code ::
          (rest.enumFrom 2).map (fun p => postCodeEntryAt b code.usecSinceEpoch p.1 p.2) := rfl
    unfold fillPostCodeEntry
    rw [fillPostCodeLoop_cons, fillPostCodeLoop_page b s t rest 1 _ _ (le_refl 1), hb]
    simp only [zero_add, if_true]
    cases s with
    | succ s1 =>
      have e2 : t - max (s1 + 1) 1 = t - (s1 + 1) := by omega
      have hp : 1 ≤ s1 + 1 ∨ 1 > t := Or.inl (by omega)
      rw [if_pos hp, e2, List.drop_succ_cons, Nat.add_sub_cancel, List.map_take, List.map_drop]
    | zero =>
      cases t with
      | zero => simp
      | succ t1 =>
        have e1 : t1 + 1 - max 0 1 = t1 := by omega
        have hn : ¬ (1 ≤ 0 ∨ 1 > t1 + 1) := by omega
        rw [if_neg hn, e1]
        simp only [List.drop_zero, Nat.sub_zero, List.take_succ_cons, List.append_assoc,
          List.singleton_append, Nat.sub_self, List.map_take]
        rfl

theorem page_append {α : Type} (A B : List α) (skip top : Nat) :
    ((A ++ B).drop skip).take top =
      (A.drop skip).take top ++ (B.drop (skip - A.length)).take (top - (A.length - skip)) := by
  rw [List.drop_append_eq_append_drop, List.take_append_eq_append_take, List.length_drop]

end redfish

namespace redfish

theorem getPostCodeForBoot_step (postCodes : Nat → Option (List PostCode))
    (bootIndex bootCount skip top : Nat) (hsum : skip + top < 2 ^ 64)
    (codes : List PostCode) (A : List PostCodeEntry) (resp : PostCodeCollection)
    (hpost : postCodes bootIndex = some codes)
    (hm : resp.members = (A.drop skip).take top) (hc : resp.count = A.length) :
    ∃ resp1 : PostCodeCollection,
      resp1.members = ((A ++ bootEntries bootIndex codes).drop skip).take top ∧
      resp1.count = (A ++ bootEntries bootIndex codes).length ∧
      resp1.internalError = resp.internalError ∧
      getPostCodeForBoot postCodes bootIndex bootCount A.length skip top resp =
        if bootIndex < bootCount then
          getPostCodeForBoot postCodes (bootIndex + 1) bootCount
            (A ++ bootEntries bootIndex codes).length skip top resp1
        else
          { resp1 with
            nextLink := some ("/redfish/v1/Systems/system/LogServices/PostCodes/Entries?$skip=" ++
              toString ((skip + top) % 2 ^ 64)) } := by
  have hmod : (top + skip) % 2 ^ 64 = top + skip := Nat.mod_eq_of_lt (by omega)
  rw [getPostCodeForBoot]
  simp only [hpost, hmod]
  cases codes with
  | nil =>
    refine ⟨resp, ?_, ?_, rfl, ?_⟩
    · simp [bootEntries, hm]
    · simp [bootEntries, hc]
    · simp [bootEntries]
  | cons code rest =>
    have hlen : (A ++ bootEntries bootIndex (code :: rest)).length =
        A.length + (code :: rest).length := by
      rw [List.length_append, length_bootEntries]
    have hemp : (code :: rest).isEmpty = false := rfl
    simp only [hemp, Bool.false_eq_true, if_false]
    rw [← hlen]
    by_cases hg : skip < (A ++ bootEntries bootIndex (code :: rest)).length ∧ top + skip > A.length
    · rw [if_pos hg]
      refine ⟨{ members := fillPostCodeEntry (code :: rest) bootIndex 0
                  (max skip A.length - A.length)
                  (min (top + skip) (A ++ bootEntries bootIndex (code :: rest)).length - A.length)
                  resp.members
                count := (A ++ bootEntries bootIndex (code :: rest)).length
                nextLink := resp.nextLink
                internalError := resp.internalError }, ?_, rfl, rfl, rfl⟩
      show fillPostCodeEntry (code :: rest) bootIndex 0 _ _ resp.members = _
      rw [fillPostCodeEntry_page, hm, page_append]
      congr 1
      have hd : max skip A.length - A.length = skip - A.length := by omega
      rw [hd, List.take_eq_take, List.length_drop, length_bootEntries]
      rw [hlen] at hg ⊢
      omega
    · rw [if_neg hg]
      refine ⟨{ members := resp.members
                count := (A ++ bootEntries bootIndex (code :: rest)).length
                nextLink := resp.nextLink
                internalError := resp.internalError }, ?_, rfl, rfl, rfl⟩
      show resp.members = _
      rw [hm, page_append]
      have : ((bootEntries bootIndex (code :: rest)).drop (skip - A.length)).take
          (top - (A.length - skip)) = [] := by
        rw [hlen] at hg
        by_cases h1 : skip < A.length + (code :: rest).length
        · have : top - (A.length - skip) = 0 := by omega
          rw [this, List.take_zero]
        · rw [List.drop_eq_nil_of_le, List.take_nil]
          rw [length_bootEntries]
          omega
      rw [this, List.append_nil]

theorem getPostCodeForBoot_chain (postCodes : Nat → Option (List PostCode))
    (lists : Nat → List PostCode) (bootCount skip top : Nat) (hsum : skip + top < 2 ^ 64) :
    ∀ (k bootIndex : Nat) (A : List PostCodeEntry) (resp : PostCodeCollection),
      bootCount - bootIndex = k →
      (∀ b, bootIndex ≤ b → b ≤ max bootIndex bootCount → postCodes b = some (lists b)) →
      resp.members = (A.drop skip).take top → resp.count = A.length →
      (getPostCodeForBoot postCodes bootIndex bootCount A.length skip top resp).members =
        ((A ++ (List.range' bootIndex (k + 1)).flatMap
          (fun b => bootEntries b (lists b))).drop skip).take top ∧
      (getPostCodeForBoot postCodes bootIndex bootCount A.length skip top resp).count =
        (A ++ (List.range' bootIndex (k + 1)).flatMap
          (fun b => bootEntries b (lists b))).length ∧
      (getPostCodeForBoot postCodes bootIndex bootCount A.length skip top resp).internalError =
        resp.internalError := by
  intro k
  induction k with
  | zero =>
    intro bootIndex A resp hk hall hm hc
    have hpost := hall bootIndex (le_refl _) (le_max_left _ _)
    obtain ⟨resp1, h1, h2, h3, h4⟩ := getPostCodeForBoot_step postCodes bootIndex bootCount
      skip top hsum (lists bootIndex) A resp hpost hm hc
    have hlt : ¬ bootIndex < bootCount := by omega
    rw [h4, if_neg hlt]
    simp only [List.range'_succ, List.range'_zero, List.flatMap_cons, List.flatMap_nil,
      List.append_nil]
    exact ⟨h1, h2, h3⟩
  | succ k ih =>
    intro bootIndex A resp hk hall hm hc
    have hpost := hall bootIndex (le_refl _) (le_max_left _ _)
    obtain ⟨resp1, h1, h2, h3, h4⟩ := getPostCodeForBoot_step postCodes bootIndex bootCount
      skip top hsum (lists bootIndex) A resp hpost hm hc
    have hlt : bootIndex < bootCount := by omega
    have hall1 : ∀ b, bootIndex + 1 ≤ b → b ≤ max (bootIndex + 1) bootCount →
        postCodes b = some (lists b) := by
      intro b hb1 hb2
      exact hall b (by omega) (by omega)
    obtain ⟨i1, i2, i3⟩ := ih (bootIndex + 1) (A ++ bootEntries bootIndex (lists bootIndex))
      resp1 (by omega) hall1 h1 h2
    rw [h4, if_pos hlt]
    rw [List.range'_succ, List.flatMap_cons, ← List.append_assoc]
    exact ⟨i1, i2, i3.trans h3⟩

end redfish

namespace redfish

theorem bootEntries_ids (b : Nat) (codes : List PostCode) :
    (bootEntries b codes).map (fun e => e.id) =
      (List.range' 1 codes.length).map (fun i => "B" ++ toString b ++ "-" ++ toString i) := by
  rw [← List.enumFrom_map_fst 1 codes, bootEntries, List.map_map, List.map_map]
  rfl

theorem allPostCodeEntries_ids (lists : Nat → List PostCode) (bootCount : Nat) :
    (allPostCodeEntries lists bootCount).map (fun e => e.id) =
      (List.range' 1 bootCount).flatMap (fun b => (List.range' 1 (lists b).length).map
        (fun i => "B" ++ toString b ++ "-" ++ toString i)) := by
  rw [allPostCodeEntries, List.map_flatMap]
  congr 1
  funext b
  exact bootEntries_ids b (lists b)

theorem length_allPostCodeEntries (lists : Nat → List PostCode) (bootCount : Nat) :
    (allPostCodeEntries lists bootCount).length =
      ((List.range' 1 bootCount).map (fun b => (lists b).length)).sum := by
  rw [allPostCodeEntries, List.length_flatMap]
  congr 1
  apply List.map_congr_left
  intro b _
  exact length_bootEntries b (lists b)

/-- C24: let the boots 1 to `bootCount` (at least one) all answer, boot `b` with the codes
`lists b`, and let `skip + top` stay below 2 ^ 64.  Then the members the chain of
`getPostCodeForBoot` calls writes through `fillPostCodeEntry` are the entries of all boots,
one boot after the other, without the first `skip` ones and cut after `top`: the member at
the place `g - skip` is the entry at the 1-based place `g` of the whole sequence for every
`g` with `skip < g ≤ skip + top`, and there are no other members.  Their Ids are the letter
B, the boot, a hyphen and the 1-based place of the code in its boot.  The count written is
the number of codes of all boots together, and no error is set. -/
theorem post_code_page_is_slice (postCodes : Nat → Option (List PostCode))
    (lists : Nat → List PostCode) (bootCount skip top : Nat)
    (hboot : 1 ≤ bootCount) (hsum : skip + top < 2 ^ 64)
    (hall : ∀ b, 1 ≤ b → b ≤ bootCount → postCodes b = some (lists b)) :
    (postCodesEntryCollection postCodes bootCount skip top).members =
      ((allPostCodeEntries lists bootCount).drop skip).take top ∧
    (∀ g, skip < g → g ≤ skip + top →
      (postCodesEntryCollection postCodes bootCount skip top).members[g - 1 - skip]? =
        (allPostCodeEntries lists bootCount)[g - 1]?) ∧
    (postCodesEntryCollection postCodes bootCount skip top).members.length =
      min top ((allPostCodeEntries lists bootCount).length - skip) ∧
    (postCodesEntryCollection postCodes bootCount skip top).members.map (fun e => e.id) =
      (((List.range' 1 bootCount).flatMap (fun b => (List.range' 1 (lists b).length).map
        (fun i => "B" ++ toString b ++ "-" ++ toString i))).drop skip).take top ∧
    (postCodesEntryCollection postCodes bootCount skip top).count =
      ((List.range' 1 bootCount).map (fun b => (lists b).length)).sum ∧
    (postCodesEntryCollection postCodes bootCount skip top).internalError = false := by
  have hall1 : ∀ b, 1 ≤ b → b ≤ max 1 bootCount → postCodes b = some (lists b) := by
    intro b h1 h2
    exact hall b h1 (by omega)
  obtain ⟨h1, h2, h3⟩ := getPostCodeForBoot_chain postCodes lists bootCount skip top hsum
    (bootCount - 1) 1 []
    { members := [], count := 0, nextLink := none, internalError := false } rfl hall1
    (by simp) rfl
  have hk : bootCount - 1 + 1 = bootCount := by omega
  rw [hk, List.nil_append] at h1 h2
  have hm : (postCodesEntryCollection postCodes bootCount skip top).members =
      ((allPostCodeEntries lists bootCount).drop skip).take top := h1
  refine ⟨hm, ?_, ?_, ?_, ?_, h3⟩
  · intro g hg1 hg2
    rw [hm, List.getElem?_take_of_lt (by omega), List.getElem?_drop]
    congr 1
    omega
  · rw [hm, List.length_take, List.length_drop]
  · rw [hm, List.map_take, List.map_drop, allPostCodeEntries_ids]
  · exact h2.trans (length_allPostCodeEntries lists bootCount)

/-- Witness for C24: two boots with two and three codes, asked for with `$skip=1` and
`$top=3`. -/
theorem post_code_page_is_slice_witness :
    (postCodesEntryCollection samplePostCodes 2 1 3).members.map (fun e => e.id) =
      ["B1-2", "B2-1", "B2-2"] ∧
    (postCodesEntryCollection samplePostCodes 2 1 3).count = 5 :=
  have h := post_code_page_is_slice samplePostCodes samplePostCodeLists 2 1 3 (by decide)
    (by decide) (fun _ _ _ => rfl)
  ⟨h.2.2.2.1.trans (by decide), h.2.2.2.2.1.trans (by decide)⟩

/-- C24, the claim as first stated fails without a boot: with `bootCount = 0` the sequence of
the boots 1 to `bootCount` is empty, so that its entries are none and the total is 0, but
the chain still asks for boot 1 (only the step to the next boot is guarded by
`bootIndex < bootCount`) and, boot 1 answering two codes, writes the members `B1-1` and
`B1-2` and the count 2. -/
theorem post_code_no_boots_counterexample :
    0 + 1000 < 2 ^ 64 ∧
    (postCodesEntryCollection samplePostCodes 0 0 1000).members.map (fun e => e.id) =
      ["B1-1", "B1-2"] ∧
    (postCodesEntryCollection samplePostCodes 0 0 1000).count = 2 ∧
    ((allPostCodeEntries samplePostCodeLists 0).drop 0).take 1000 = [] ∧
    ((List.range' 1 0).map (fun b => (samplePostCodeLists b).length)).sum = 0 ∧
    ¬ ((postCodesEntryCollection samplePostCodes 0 0 1000).members =
        ((allPostCodeEntries samplePostCodeLists 0).drop 0).take 1000) ∧
    ¬ ((postCodesEntryCollection samplePostCodes 0 0 1000).count =
        ((List.range' 1 0).map (fun b => (samplePostCodeLists b).length)).sum) := by
  have h := getPostCodeForBoot_chain samplePostCodes samplePostCodeLists 0 0 1000 (by decide)
    0 1 [] { members := [], count := 0, nextLink := none, internalError := false } rfl
    (fun _ _ _ => rfl) rfl rfl
  have hm : (postCodesEntryCollection samplePostCodes 0 0 1000).members.map (fun e => e.id) =
      ["B1-1", "B1-2"] := (congrArg (List.map (fun e => e.id)) h.1).trans (by decide)
  have hc : (postCodesEntryCollection samplePostCodes 0 0 1000).count = 2 :=
    h.2.1.trans (by decide)
  refine ⟨by decide, hm, hc, rfl, rfl, ?_, ?_⟩
  · intro e
    rw [e] at hm
    exact absurd hm (by decide)
  · intro e
    rw [e] at hc
    exact absurd hc (by decide)

end redfish

/-! ## Journal event log: the count and the next link when the sum does not wrap -/

namespace redfish

open message_registries

theorem collectionLines_count (reg : Registries) (skip top : Nat) :
    ∀ (lines : List LogLine) (firstEntry : Bool) (st st' : CollectionState),
      collectionLines reg skip top lines firstEntry st = Except.ok st' →
      st'.entryCount = st.entryCount + lines.length := by
  intro lines
  induction lines with
  | nil =>
    intro firstEntry st st' h
    simp only [collectionLines, Except.ok.injEq] at h
    rw [← h]
    rfl
  | cons logEntry rest ih =>
    intro firstEntry st st' h
    simp only [collectionLines] at h
    by_cases hp : st.entryCount + 1 ≤ skip ∨ st.entryCount + 1 > (skip + top) % 2 ^ 64
    · rw [if_pos hp] at h
      rw [ih _ _ _ h, List.length_cons]
      show st.entryCount + 1 + rest.length = _
      omega
    · rw [if_neg hp] at h
      cases hf : fillEventLogEntryJson reg (getUniqueEntryID logEntry firstEntry st.ids).1
          logEntry.text with
      | error e =>
        rw [hf] at h
        cases e <;> exact Except.noConfusion h
      | ok bmcLogEntry =>
        rw [hf] at h
        rw [ih _ _ _ h, List.length_cons]
        show st.entryCount + 1 + rest.length = _
        omega

theorem collectionFiles_count (reg : Registries) (skip top : Nat) :
    ∀ (files : List (Option (List LogLine))) (st st' : CollectionState),
      collectionFiles reg skip top files st = Except.ok st' →
      st'.entryCount = st.entryCount + (files.map (fun f => (f.getD []).length)).sum := by
  intro files
  induction files with
  | nil =>
    intro st st' h
    simp only [collectionFiles, Except.ok.injEq] at h
    rw [← h]
    rfl
  | cons f files ih =>
    intro st st' h
    cases f with
    | none =>
      simp only [collectionFiles] at h
      rw [ih _ _ h]
      simp
    | some lines =>
      simp only [collectionFiles] at h
      cases hl : collectionLines reg skip top lines true st with
      | error e =>
        rw [hl] at h
        exact Except.noConfusion h
      | ok st1 =>
        rw [hl] at h
        rw [ih _ _ h, collectionLines_count reg skip top lines true st st1 hl]
        simp only [List.map_cons, List.sum_cons, Option.getD_some]
        omega

/-- Where `skip + top` does not wrap, an answer of the collection handler has the number of
all lines as its count and a next link exactly when `skip + top` is below that number, and
the link is to `skip + top`. -/
theorem collection_count_and_nextLink (reg : Registries) (files : List (Option (List LogLine)))
    (skip top : Nat) (ids : UniqueIdState) (r : EventLogCollection × UniqueIdState)
    (hsum : skip + top < 2 ^ 64)
    (h : journalEventLogEntryCollection reg files skip top ids = Except.ok r) :
    r.1.count = (files.map (fun f => (f.getD []).length)).sum ∧
    r.1.nextLink =
      if skip + top < r.1.count then
        some ("/redfish/v1/Systems/system/LogServices/EventLog/Entries?$skip=" ++
          toString (skip + top))
      else none := by
  unfold journalEventLogEntryCollection at h
  cases hc : collectionFiles reg skip top files { entryCount := 0, ids := ids, members := [] }
    with
  | error e =>
    rw [hc] at h
    exact Except.noConfusion h
  | ok st =>
    rw [hc] at h
    simp only [Except.ok.injEq] at h
    have hcount := collectionFiles_count reg skip top files _ st hc
    rw [← h, Nat.mod_eq_of_lt hsum]
    refine ⟨?_, rfl⟩
    show st.entryCount = _
    rw [hcount]
    simp

end redfish
